import Mathlib

/-!
# VirtualPlanetBuilder: boundary-loop extrusion and raster resampling

A shallow embedding of

* `applications/vpbextrusion/ExtrudeVisitor.cpp` (the array operators,
  `ExtrudeVisitor::extrude`, `ExtrudeVisitor::linkAsTriangleStrip`), and
* `src/vpb/Source.cpp` (`SourceData::getInterpolatedValue`,
  `SourceData::readData`, `SourceData::computeSpatialProperties`,
  `SourceData::readImage`, `SourceData::readHeightField`,
  `Source::needReproject`, the band mapping of `Source::doReproject`,
  `Source::consolodateRequiredResolutions`),

followed by the properties proved about them.

Conventions of the embedding.

* A vertex array is a `List α`; the element type `α` is the template parameter
  `ArrayType::ElementDataType` of the array operators.  `+` on `α` is the
  `operator+=` of the element type, `default` is a value-initialised element (what
  `resize` fills new slots with).  The extrusion vector is passed already
  converted to the element type (`ConvertVec::convert`).
* Array sizes and vertex indices are `unsigned int` in the source and `Nat`
  here: the embedding describes the source for meshes whose final vertex count
  stays below `2^32`.
* `double`/`float` arithmetic of the sampler is carried out over `ℚ` (exact
  arithmetic); the final `(float)` cast is the identity there.  The window
  mapping of `readImage` and `readHeightField`, the blend of the composite loop
  and the resolution test of `needReproject` take the rounding of their
  floating-point operations as parameters, so that they can be read over exact
  arithmetic (`id`) and over IEEE 754 arithmetic (`roundBinary32`,
  `roundBinary64`, `sqrtBinary64`).  A quotient by zero yields no rational
  (`none`), and the conversion of such a value to `int` yields `INT_MIN`.
  `Vec3f` is the vertex type whose `+` rounds to binary32.
* A loop whose number of iterations is not fixed beforehand takes a fuel: it
  returns `none` when the fuel runs out.
* OSG and GDAL are external collaborators: what they return is an input of the
  embedding.
-/

namespace VPB

/-! ## Mesh data model -/

/-- The drawing modes of `osg::PrimitiveSet`. -/
inductive PrimitiveMode
  | POINTS
  | LINES
  | LINE_STRIP
  | LINE_LOOP
  | TRIANGLES
  | TRIANGLE_STRIP
  | TRIANGLE_FAN
  | QUADS
  | QUAD_STRIP
  | POLYGON
  deriving DecidableEq, Repr

/-- An indexed primitive set (`osg::DrawElementsUInt`): a drawing mode and the
vertex indices it draws. -/
structure PrimitiveSet where
  mode : PrimitiveMode
  indices : List Nat
  deriving DecidableEq, Repr

/-- The part of `osg::Geometry` that `extrude` reads and writes: the vertex
array and the primitive-set list. -/
structure Geometry (α : Type) where
  vertexArray : List α
  primitiveSetList : List PrimitiveSet
  deriving DecidableEq, Repr

/-- `ExtrudeVisitor::Mode`. -/
inductive Mode
  | Replace
  | Merge
  deriving DecidableEq, Repr

/-- The state of an `ExtrudeVisitor` that `extrude` reads and writes. -/
structure ExtrudeVisitor where
  _mode : Mode
  deriving DecidableEq, Repr

/-- What `extrude` obtains from its `EdgeCollector` (`EdgeCollector.h` is not
among the sources, so its results are an input of the embedding; the collector
only reads the geometry):
`triangleSetSize` is `ec._triangleSet.size()` after `ec.setGeometry(&geometry)`;
`edgeloops` is `none` when `ec.extractBoundaryEdgeloopList` returns `false`, and
otherwise the index arrays (`toIndexArray()`) of the extracted boundary loops,
in list order. -/
structure EdgeCollector where
  triangleSetSize : Nat
  edgeloops : Option (List (List Nat))
  deriving DecidableEq, Repr

/-! ## The array operators -/

/-- The loop of `ExtrudeRangeOperator::process`: `addRange e b n array` adds `e`
to the `n` elements of `array` that start at position `b`. -/
def addRange {α : Type} [Add α] (e : α) : Nat → Nat → List α → List α
  | _, _, [] => []
  | 0, 0, x :: xs => x :: xs
  | 0, n + 1, x :: xs => (x + e) :: addRange e 0 n xs
  | b + 1, n, x :: xs => x :: addRange e b n xs

/-- `ExtrudeRangeOperator::process` with fields `_begin`, `_count`,
`_extrudeVector`. -/
def ExtrudeRangeOperator.process {α : Type} [Add α] (_begin _count : Nat) (_extrudeVector : α)
    (array : List α) : List α :=
  addRange _extrudeVector _begin _count array

/-- `DuplicateOperator::process`: the array is resized to twice its size and
its first half is copied onto the second half. -/
def DuplicateOperator.process {α : Type} (array : List α) : List α :=
  array ++ array

/-- One iteration of the loop of `DuplicateIndexOperator::process`:
`array[size] = array[*it]; ++size`. -/
def duplicateIndexStep {α : Type} [Inhabited α] (st : List α × Nat) (it : Nat) : List α × Nat :=
  (st.1.set st.2 (st.1.getD it default), st.2 + 1)

/-- `DuplicateIndexOperator::process` with field `_indexArray`: the array grows
by `_indexArray->size()` value-initialised slots, which are then filled, in
order, with the elements the index array points at. -/
def DuplicateIndexOperator.process {α : Type} [Inhabited α] (_indexArray : List Nat)
    (array : List α) : List α :=
  let size := array.length
  let resized := array ++ List.replicate _indexArray.length default
  (_indexArray.foldl duplicateIndexStep (resized, size)).1

/-- `OffsetIndices::operator()`: `primitive->offsetIndices(_offset)`. -/
def OffsetIndices (_offset : Nat) (primitive : PrimitiveSet) : PrimitiveSet :=
  { primitive with indices := primitive.indices.map (fun i => i + _offset) }

/-! ## `ExtrudeVisitor::linkAsTriangleStrip` -/

/-- The loop of `linkAsTriangleStrip`: for every element of the original index
array, push it and the element the second iterator points at. -/
def interleave : List Nat → List Nat → List Nat
  | [], _ => []
  | o :: os, es => o :: es.headD 0 :: interleave os es.tail

/-- `ExtrudeVisitor::linkAsTriangleStrip`. -/
def linkAsTriangleStrip (originalIndexArray extrudeIndexArray : List Nat) : PrimitiveSet :=
  { mode := PrimitiveMode.TRIANGLE_STRIP
    indices := interleave originalIndexArray extrudeIndexArray
      ++ [originalIndexArray.headD 0, extrudeIndexArray.headD 0] }

/-! ## `ExtrudeVisitor::extrude` -/

/-- The loop of the Replace branch over `originalIndexArrayList` (source lines
152-170): the vertices of each index array are duplicated at the end of the vertex
array and the index array is remapped onto the duplicates.  Returns the vertex
array and the remapped index arrays. -/
def duplicateLoops {α : Type} [Inhabited α] :
    List (List Nat) → Nat → List α → List α × List (List Nat)
  | [], _, vertexArray => (vertexArray, [])
  | indexArray :: rest, currentVertexArraySize, vertexArray =>
    let duplicated := DuplicateIndexOperator.process indexArray vertexArray
    let size := indexArray.length
    let remapped := (List.range size).map (fun i => currentVertexArraySize + i)
    let r := duplicateLoops rest (currentVertexArraySize + size) duplicated
    (r.1, remapped :: r.2)

/-- The vertex stage of `extrude` (source lines 146-212) for a given `_mode`:
the new vertex array, the remapped `originalIndexArrayList` and the
primitive-set list (offset in Merge mode). -/
def extrudeVertices {α : Type} [Add α] [Inhabited α] (_mode : Mode) (geometry : Geometry α)
    (extrudeVector : α) (indexArrayList : List (List Nat)) :
    List α × List (List Nat) × List PrimitiveSet :=
  let originalVertexArraySize := geometry.vertexArray.length
  match _mode with
  | Mode.Replace =>
    let d := duplicateLoops indexArrayList originalVertexArraySize geometry.vertexArray
    (ExtrudeRangeOperator.process 0 originalVertexArraySize extrudeVector d.1, d.2,
      geometry.primitiveSetList)
  | Mode.Merge =>
    let duplicated := DuplicateOperator.process geometry.vertexArray
    (ExtrudeRangeOperator.process 0 originalVertexArraySize extrudeVector duplicated,
      indexArrayList.map (fun indexArray => indexArray.map (fun i => i + originalVertexArraySize)),
      geometry.primitiveSetList.map (OffsetIndices originalVertexArraySize))

/-- The top primitive-set list of `extrude` (source lines 222-249): every
primitive is duplicated, reversed when `reverseTopShape`, and kept when the
duplicate is valid.  `reverse` is `ReversePrimitiveFunctor`
(`ReversePrimitiveFunctor.h` is not among the sources): the reversed primitive
set, or `none` for an invalid one. -/
def makeTopPrimitives (reverse : PrimitiveSet → Option PrimitiveSet) (reverseTopShape : Bool)
    (psl : List PrimitiveSet) : List PrimitiveSet :=
  psl.filterMap (fun ps => if reverseTopShape then reverse ps else some ps)

/-- The side walls of `extrude` (source lines 270-290): one triangle strip per
pair of original and extruded index array. -/
def linkEdgeloops (reverse : PrimitiveSet → Option PrimitiveSet) (reverseTopShape : Bool)
    (originalIndexArrayList extrudedIndexArrayList : List (List Nat)) : List PrimitiveSet :=
  (List.zip originalIndexArrayList extrudedIndexArrayList).flatMap (fun p =>
    let de := linkAsTriangleStrip p.1 p.2
    if reverseTopShape = false then (reverse de).toList else [de])

/-- The body of `extrude` after the mode has been fixed (source lines
146-290). -/
def extrudeWithMode {α : Type} [Add α] [Inhabited α] (reverse : PrimitiveSet → Option PrimitiveSet)
    (_mode : Mode) (geometry : Geometry α) (extrudeVector : α)
    (edgeloopList : List (List Nat)) : Geometry α :=
  let extrudedIndexArrayList := edgeloopList
  let v := extrudeVertices _mode geometry extrudeVector edgeloopList
  let originalIndexArrayList := v.2.1
  let psl := v.2.2
  let reverseTopShape := true
  let newPsl := makeTopPrimitives reverse reverseTopShape psl
  let psl1 :=
    match _mode with
    | Mode.Replace => newPsl
    | Mode.Merge => psl ++ newPsl
  { vertexArray := v.1
    primitiveSetList := psl1
      ++ linkEdgeloops reverse reverseTopShape originalIndexArrayList extrudedIndexArrayList }

/-- `ExtrudeVisitor::extrude`: returns the visitor (whose `_mode` the call
overwrites) and the geometry after the call. -/
def extrude {α : Type} [Add α] [Inhabited α] (reverse : PrimitiveSet → Option PrimitiveSet)
    (ec : EdgeCollector) (self : ExtrudeVisitor) (geometry : Geometry α) (extrudeVector : α) :
    ExtrudeVisitor × Geometry α :=
  if ec.triangleSetSize = 0 then (self, geometry)
  else
    match ec.edgeloops with
    | none => (self, geometry)
    | some edgeloopList =>
      ({ self with _mode := Mode.Replace },
        extrudeWithMode reverse Mode.Replace geometry extrudeVector edgeloopList)

/-! ## `SourceData::getInterpolatedValue` (Source.cpp)

Grid dimensions are at most `2^31` and the fractional row and column are within
the range of `int`, where the casts of the source are exact: `(int)(n - 1)` is
`n - 1` (also `-1` for the unsigned `n = 0`), `(int)floor(r)` is `⌊r⌋`,
`(int)ceil(r)` is `⌈r⌉`.  The sampler divides by the grid intervals, which are
non-zero for a usable heightfield. -/

/-- The part of `osg::HeightField` the sampler reads: origin, intervals, the
grid dimensions and the row-major height array. -/
structure HeightField where
  originX : ℚ
  originY : ℚ
  xInterval : ℚ
  yInterval : ℚ
  numColumns : Nat
  numRows : Nat
  heights : List ℚ

/-- `osg::HeightField::getHeight(c, r)`: element `c + r * numColumns` of the
height array. -/
def HeightField.getHeight (hf : HeightField) (c r : Nat) : ℚ :=
  hf.heights.getD (c + r * hf.numColumns) 0

/-- The cast `(int)q` of a `double` to `int`: truncation toward zero. -/
def truncate (q : ℚ) : ℤ :=
  if 0 ≤ q then ⌊q⌋ else ⌈q⌉

/-- The corner indices `(rowMin, rowMax, colMin, colMax)` both overloads
compute from the fractional row `r` and column `c` (source lines 40-46 and
90-96). -/
def cornerIndices (numColumns numRows : ℤ) (c r : ℚ) : ℤ × ℤ × ℤ × ℤ :=
  let rowMin := max ⌊r⌋ 0
  let rowMax := max (min ⌈r⌉ (numRows - 1)) 0
  let colMin := max ⌊c⌋ 0
  let colMax := max (min ⌈c⌉ (numColumns - 1)) 0
  let rowMin := if rowMin > rowMax then rowMax else rowMin
  let colMin := if colMin > colMax then colMax else colMin
  (rowMin, rowMax, colMin, colMax)

/-- The fractional remainders `(x_rem, y_rem)` of both overloads (source lines
53-54 and 115-116). -/
def remainders (c r : ℚ) : ℚ × ℚ :=
  (c - (truncate c : ℚ), r - (truncate r : ℚ))

/-- The four weights `(1-y_rem)(1-x_rem)`, `(1-y_rem) x_rem`, `y_rem (1-x_rem)`,
`y_rem x_rem` that multiply `llHeight`, `lrHeight`, `ulHeight`, `urHeight`
(source lines 56-59 and 118-121). -/
def cornerWeights (x_rem y_rem : ℚ) : ℚ × ℚ × ℚ × ℚ :=
  ((1 - y_rem) * (1 - x_rem), (1 - y_rem) * x_rem, y_rem * (1 - x_rem), y_rem * x_rem)

/-- The blend of both overloads (source lines 56-61 and 118-123). -/
def blend (x_rem y_rem llHeight lrHeight ulHeight urHeight : ℚ) : ℚ :=
  let w00 := (1 - y_rem) * (1 - x_rem) * llHeight
  let w01 := (1 - y_rem) * x_rem * lrHeight
  let w10 := y_rem * (1 - x_rem) * ulHeight
  let w11 := y_rem * x_rem * urHeight
  w00 + w01 + w10 + w11

/-- The fractional column and row of the heightfield overload (source lines
37-38). -/
def HeightField.toGrid (hf : HeightField) (x y : ℚ) : ℚ × ℚ :=
  ((x - hf.originX) / hf.xInterval, (y - hf.originY) / hf.yInterval)

/-- `SourceData::getInterpolatedValue(osg::HeightField*, double, double)`. -/
def getInterpolatedValue (hf : HeightField) (x y : ℚ) : ℚ :=
  let c := (hf.toGrid x y).1
  let r := (hf.toGrid x y).2
  let k := cornerIndices hf.numColumns hf.numRows c r
  let rowMin := k.1
  let rowMax := k.2.1
  let colMin := k.2.2.1
  let colMax := k.2.2.2
  let urHeight := hf.getHeight colMax.toNat rowMax.toNat
  let llHeight := hf.getHeight colMin.toNat rowMin.toNat
  let ulHeight := hf.getHeight colMin.toNat rowMax.toNat
  let lrHeight := hf.getHeight colMax.toNat rowMin.toNat
  let x_rem := (remainders c r).1
  let y_rem := (remainders c r).2
  blend x_rem y_rem llHeight lrHeight ulHeight urHeight

/-- What the raster-band overload reads from its `GDALRasterBand` and its
`SourceData`: the one-pixel `RasterIO` read at `(col, row)`, the no-data
value (`none` when `GetNoDataValue` reports no success), the raster size, and
the world-to-pixel map (`GDALInvGeoTransform` followed by
`GDALApplyGeoTransform` on the geotransform of the data, giving `(c, r)`). -/
structure RasterBand where
  pixel : ℤ → ℤ → ℚ
  noDataValue : Option ℚ
  numValuesX : ℤ
  numValuesY : ℤ
  toPixel : ℚ → ℚ → ℚ × ℚ

/-- The no-data policy of the raster-band overload (source lines 105-113): a
corner equal to the no-data value of the band is read as `0`. -/
def zeroNoData (noDataValue : Option ℚ) (h : ℚ) : ℚ :=
  match noDataValue with
  | some nd => if h = nd then 0 else h
  | none => h

/-- `SourceData::getInterpolatedValue(GDALRasterBand*, double, double)`. -/
def getInterpolatedValueBand (band : RasterBand) (x y : ℚ) : ℚ :=
  let c := (band.toPixel x y).1
  let r := (band.toPixel x y).2
  let k := cornerIndices band.numValuesX band.numValuesY c r
  let rowMin := k.1
  let rowMax := k.2.1
  let colMin := k.2.2.1
  let colMax := k.2.2.2
  let llHeight := zeroNoData band.noDataValue (band.pixel colMin rowMin)
  let ulHeight := zeroNoData band.noDataValue (band.pixel colMin rowMax)
  let lrHeight := zeroNoData band.noDataValue (band.pixel colMax rowMin)
  let urHeight := zeroNoData band.noDataValue (band.pixel colMax rowMax)
  let x_rem := (remainders c r).1
  let y_rem := (remainders c r).2
  blend x_rem y_rem llHeight lrHeight ulHeight urHeight

/-! ## Extents and the window mapping (Source.cpp, `readImage` and `readHeightField`)

The window arithmetic of the source mixes `double`, `float` and `int`.  A
`double` or a `float` is held as the rational it represents; the rounding of a
`double` operation is the parameter `fd` and the rounding of a conversion to
`float` the parameter `fl` (`fl = fd = id` is exact arithmetic,
`fl = roundBinary32`, `fd = roundBinary64` is IEEE 754 arithmetic).  A division
by zero gives a NaN or an infinity, which `none` stands for.  The conversion of
a NaN, of an infinity or of a value outside the range of `int` to `int` is
undefined in C++; the embedding takes what the conversion instructions of x86
give, `INT_MIN`.  Sums and differences of `int` values are taken in `ℤ`. -/

/-- The data of `GeospatialExtents`: the box `[xMin, xMax] x [yMin, yMax]` and
the `_isGeographic` flag. -/
structure GeospatialExtents where
  xMin : ℚ
  yMin : ℚ
  xMax : ℚ
  yMax : ℚ
  _isGeographic : Bool
  deriving DecidableEq

/-- Modelled from the spec: `GeospatialExtents::valid` (the header declaring
`GeospatialExtents` is not among the sources).  Extents are valid when
`xMin ≤ xMax` and `yMin ≤ yMax`; every other box is the invalid, empty one. -/
def GeospatialExtents.valid (e : GeospatialExtents) : Bool :=
  decide (e.xMin ≤ e.xMax ∧ e.yMin ≤ e.yMax)

/-- Modelled from the spec: `GeospatialExtents::intersection(e, xoffset)` (the
header declaring `GeospatialExtents` is not among the sources).  The other box
is shifted by `xoffset` along x, then the axis-aligned box intersection is
taken; it is invalid when the boxes do not overlap. -/
def GeospatialExtents.intersection (d e : GeospatialExtents) (xoffset : ℚ) :
    GeospatialExtents :=
  { xMin := max d.xMin (e.xMin + xoffset)
    yMin := max d.yMin e.yMin
    xMax := min d.xMax (e.xMax + xoffset)
    yMax := min d.yMax e.yMax
    _isGeographic := d._isGeographic }

/-- A pixel window: first column, first row, width, height. -/
structure Window where
  x : ℤ
  y : ℤ
  width : ℤ
  height : ℤ
  deriving DecidableEq, Repr

/-- `INT_MIN`. -/
def INT_MIN : ℤ := -2147483648

/-- The cast `(int)v` of a `float` `v` (`none` is a NaN or an infinity):
truncation toward zero, and `INT_MIN` where the value has no `int`. -/
def floatToInt : Option ℚ → ℤ
  | none => INT_MIN
  | some v => if -2147483648 ≤ truncate v ∧ truncate v ≤ 2147483647 then truncate v else INT_MIN

/-- The argument of `floorf` and `ceilf` in the window mapping,
`(float)n * num / den`: the `int` `n` is converted to `float`, the product and
the quotient are `double` operations, and the result is converted to `float`
because `floorf` and `ceilf` take a `float`.  `none` when `den` is `0`. -/
def windowProportion (fl fd : ℚ → ℚ) (n : ℤ) (num den : ℚ) : Option ℚ :=
  if den = 0 then none else some (fl (fd (fd (fl (n : ℚ) * num) / den)))

/-- `(int)floorf(v)`. -/
def floorInt (v : Option ℚ) : ℤ :=
  floatToInt (v.map fun q => ((⌊q⌋ : ℤ) : ℚ))

/-- `(int)ceilf(v)`. -/
def ceilInt (v : Option ℚ) : ℤ :=
  floatToInt (v.map fun q => ((⌈q⌉ : ℤ) : ℚ))

/-- The source window `windowX, windowY, windowWidth, windowHeight` of
`readImage` (source lines 442-445; the same lines are 936-939 of
`readHeightField`). -/
def sourceWindow (fl fd : ℚ → ℚ) (_numValuesX _numValuesY : ℤ)
    (s_bb intersect_bb : GeospatialExtents) (xoffset : ℚ) : Window :=
  let windowX := max (floorInt (windowProportion fl fd _numValuesX
    (fd (fd (intersect_bb.xMin - xoffset) - s_bb.xMin)) (fd (s_bb.xMax - s_bb.xMin)))) 0
  let windowY := max (floorInt (windowProportion fl fd _numValuesY
    (fd (intersect_bb.yMin - s_bb.yMin)) (fd (s_bb.yMax - s_bb.yMin)))) 0
  let windowWidth := min (ceilInt (windowProportion fl fd _numValuesX
    (fd (fd (intersect_bb.xMax - xoffset) - s_bb.xMin)) (fd (s_bb.xMax - s_bb.xMin))))
    _numValuesX - windowX
  let windowHeight := min (ceilInt (windowProportion fl fd _numValuesY
    (fd (intersect_bb.yMax - s_bb.yMin)) (fd (s_bb.yMax - s_bb.yMin))))
    _numValuesY - windowY
  { x := windowX, y := windowY, width := windowWidth, height := windowHeight }

/-- The destination window `destX, destY, destWidth, destHeight` of `readImage`
(source lines 447-450, with `s = destination._image->s()` and
`t = destination._image->t()`) and of `readHeightField` (source lines 795-798,
with `s = getNumColumns()` and `t = getNumRows()`). -/
def destWindow (fl fd : ℚ → ℚ) (s t : ℤ) (d_bb intersect_bb : GeospatialExtents) : Window :=
  let destX := max (floorInt (windowProportion fl fd s
    (fd (intersect_bb.xMin - d_bb.xMin)) (fd (d_bb.xMax - d_bb.xMin)))) 0
  let destY := max (floorInt (windowProportion fl fd t
    (fd (intersect_bb.yMin - d_bb.yMin)) (fd (d_bb.yMax - d_bb.yMin)))) 0
  let destWidth := min (ceilInt (windowProportion fl fd s
    (fd (intersect_bb.xMax - d_bb.xMin)) (fd (d_bb.xMax - d_bb.xMin)))) s - destX
  let destHeight := min (ceilInt (windowProportion fl fd t
    (fd (intersect_bb.yMax - d_bb.yMin)) (fd (d_bb.yMax - d_bb.yMin)))) t - destY
  { x := destX, y := destY, width := destWidth, height := destHeight }

/-- Rounding of a `double` operation away from overflow: monotone, exact at
`0`, and with a relative error of at most `2^-53` on the normal range, that is
from the magnitude `2^-1022` on. -/
def RoundsLikeDouble (fd : ℚ → ℚ) : Prop :=
  Monotone fd ∧ fd 0 = 0 ∧ ∀ x : ℚ, 1 / 2 ^ 1022 ≤ |x| → |fd x - x| ≤ |x| / 2 ^ 53

/-- Rounding of a conversion to `float` away from overflow: monotone and to
nearest, so that no integer of magnitude up to `2^24` (each of them is a
`float`) is nearer to `x` than `fl x` is. -/
def RoundsLikeFloat (fl : ℚ → ℚ) : Prop :=
  Monotone fl ∧ ∀ (n : ℤ) (x : ℚ), |(n : ℚ)| ≤ 2 ^ 24 → |fl x - x| ≤ |(n : ℚ) - x|

/-- The x offsets `readImage` and `readHeightField` probe, in loop order (source
lines 420-422 and 778-780): `xoffset` starts at `-360` for a geographic
destination that starts west of the source and at `0` otherwise, and grows by
`360` at each of the `numXChecks` passes. -/
def probeOffsets (s_bb d_bb : GeospatialExtents) : List ℚ :=
  let xoffset : ℚ := if d_bb.xMin < s_bb.xMin ∧ d_bb._isGeographic = true then -360 else 0
  let numXChecks : Nat := if d_bb._isGeographic = true then 2 else 1
  (List.range numXChecks).map (fun (ic : Nat) => xoffset + 360 * (ic : ℚ))

/-! ## The composite loop of `readImage` (source lines 694-752)

Image memory is a map from byte offsets to byte values.  The single-precision
operations of the blend are rounded by a parameter `fl`: `fl = id` is exact
arithmetic, `fl = roundBinary32` is IEEE 754 binary32 arithmetic. -/

/-- The conversion of an `int` to `unsigned char`: reduction modulo 256. -/
def toByte (n : ℤ) : Nat :=
  (n % 256).toNat

/-- Rounding of a rational to the nearest integer, ties to even. -/
def roundHalfEven (q : ℚ) : ℤ :=
  if q - (⌊q⌋ : ℚ) < 1 / 2 then ⌊q⌋
  else if 1 / 2 < q - (⌊q⌋ : ℚ) then ⌊q⌋ + 1
  else if ⌊q⌋ % 2 = 0 then ⌊q⌋
  else ⌊q⌋ + 1

/-- Rounding to IEEE 754 binary32 (`float`), round-to-nearest-even, for values
below the overflow threshold: the result has a significand of 24 bits at the
binary exponent of `q`, not below the smallest normal exponent `-126`. -/
def roundBinary32 (q : ℚ) : ℚ :=
  if q = 0 then 0
  else
    let e : ℤ := max (Int.log 2 |q|) (-126)
    (roundHalfEven (q / (2 : ℚ) ^ (e - 23)) : ℚ) * (2 : ℚ) ^ (e - 23)

/-- Rounding to IEEE 754 binary64 (`double`), round-to-nearest-even, for values
below the overflow threshold: the result has a significand of 53 bits at the
binary exponent of `q`, not below the smallest normal exponent `-1022`. -/
def roundBinary64 (q : ℚ) : ℚ :=
  if q = 0 then 0
  else
    let e : ℤ := max (Int.log 2 |q|) (-1022)
    (roundHalfEven (q / (2 : ℚ) ^ (e - 52)) : ℚ) * (2 : ℚ) ^ (e - 52)

/-- Rounding to a binary format with a significand of `p + 1` bits and the
smallest normal exponent `emin`, round-to-nearest-even, for values below the
overflow threshold; `roundBinary32` is `roundBinary 23 (-126)` and
`roundBinary64` is `roundBinary 52 (-1022)`. -/
def roundBinary (p : ℕ) (emin : ℤ) (q : ℚ) : ℚ :=
  if q = 0 then 0
  else
    let e : ℤ := max (Int.log 2 |q|) emin
    (roundHalfEven (q / (2 : ℚ) ^ (e - (p : ℤ))) : ℚ) * (2 : ℚ) ^ (e - (p : ℤ))

/-- One channel of the blend (source lines 735-737):
`(int)(rd * (float)d + rs * (float)s)` stored into an `unsigned char`. -/
def blendChannel (fl : ℚ → ℚ) (rs rd : ℚ) (d s : Nat) : Nat :=
  toByte (truncate (fl (fl (rd * (d : ℚ)) + fl (rs * (s : ℚ)))))

/-- The body of the composite loop (source lines 714-750) for the source pixel
at `sourceColumnPtr` of `source` and the destination pixel at
`destinationColumnPtr` of `destination`: the destination memory after the
body. -/
def compositePixel (fl : ℚ → ℚ) (hasAlpha destination_hasAlpha : Bool)
    (source : ℤ → Nat) (sourceColumnPtr : ℤ)
    (destination : ℤ → Nat) (destinationColumnPtr : ℤ) : ℤ → Nat :=
  if hasAlpha = true then
    if source (sourceColumnPtr + 3) ≠ 0 then
      if source (sourceColumnPtr + 3) = 255 then
        let d0 := Function.update destination destinationColumnPtr (source sourceColumnPtr)
        let d1 := Function.update d0 (destinationColumnPtr + 1) (source (sourceColumnPtr + 1))
        let d2 := Function.update d1 (destinationColumnPtr + 2) (source (sourceColumnPtr + 2))
        if destination_hasAlpha = true then
          Function.update d2 (destinationColumnPtr + 3) (source (sourceColumnPtr + 3))
        else d2
      else
        let rs := fl ((source (sourceColumnPtr + 3) : ℚ) / 255)
        let rd := fl (1 - rs)
        let d0 := Function.update destination destinationColumnPtr
          (blendChannel fl rs rd (destination destinationColumnPtr) (source sourceColumnPtr))
        let d1 := Function.update d0 (destinationColumnPtr + 1)
          (blendChannel fl rs rd (d0 (destinationColumnPtr + 1)) (source (sourceColumnPtr + 1)))
        let d2 := Function.update d1 (destinationColumnPtr + 2)
          (blendChannel fl rs rd (d1 (destinationColumnPtr + 2)) (source (sourceColumnPtr + 2)))
        if destination_hasAlpha = true then
          Function.update d2 (destinationColumnPtr + 3)
            (max (d2 (destinationColumnPtr + 3)) (source (sourceColumnPtr + 3)))
        else d2
    else destination
  else if source sourceColumnPtr ≠ 0 ∨ source (sourceColumnPtr + 1) ≠ 0
      ∨ source (sourceColumnPtr + 2) ≠ 0 then
    let d0 := Function.update destination destinationColumnPtr (source sourceColumnPtr)
    let d1 := Function.update d0 (destinationColumnPtr + 1) (source (sourceColumnPtr + 1))
    Function.update d1 (destinationColumnPtr + 2) (source (sourceColumnPtr + 2))
  else destination

/-- The column loop of the composite (source lines 710-751). -/
def compositeRow (fl : ℚ → ℚ) (hasAlpha destination_hasAlpha : Bool)
    (pixelSpace destination_pixelSpace destWidth : ℤ)
    (source : ℤ → Nat) (sourceRowPtr : ℤ) (destination : ℤ → Nat) (destinationRowPtr : ℤ) :
    ℤ → Nat :=
  (List.range destWidth.toNat).foldl
    (fun (dest : ℤ → Nat) (col : Nat) => compositePixel fl hasAlpha destination_hasAlpha
      source (sourceRowPtr + (col : ℤ) * pixelSpace)
      dest (destinationRowPtr + (col : ℤ) * destination_pixelSpace))
    destination

/-- The row loop of the composite (source lines 695-752): `tempImage` is copied
into the destination memory, whose first written row starts at
`destinationRowPtr` and whose rows are `destinationRowDelta` apart. -/
def compositeImage (fl : ℚ → ℚ) (hasAlpha destination_hasAlpha : Bool)
    (pixelSpace destination_pixelSpace destWidth destHeight : ℤ)
    (tempImage : ℤ → Nat) (destination : ℤ → Nat)
    (destinationRowPtr destinationRowDelta : ℤ) : ℤ → Nat :=
  let sourceRowDelta := pixelSpace * destWidth
  (List.range destHeight.toNat).foldl
    (fun (dest : ℤ → Nat) (row : Nat) => compositeRow fl hasAlpha destination_hasAlpha
      pixelSpace destination_pixelSpace destWidth
      tempImage ((row : ℤ) * sourceRowDelta)
      dest (destinationRowPtr + (row : ℤ) * destinationRowDelta))
    destination

/-- The iterations `(row, col)` of the two loops of the composite, in the order
they run: row by row and, in a row, column by column. -/
def compositeCells (destWidth destHeight : ℤ) : List (Nat × Nat) :=
  List.product (List.range destHeight.toNat) (List.range destWidth.toNat)

/-- The offset `sourceColumnPtr - tempImage` at the iteration `(row, col)` of the
composite loops. -/
def sourceColumnOffset (pixelSpace destWidth : ℤ) (row col : Nat) : ℤ :=
  (row : ℤ) * (pixelSpace * destWidth) + (col : ℤ) * pixelSpace

/-- The value of `destinationColumnPtr` at the iteration `(row, col)` of the
composite loops. -/
def destinationColumnPtr (destinationRowPtr destinationRowDelta destination_pixelSpace : ℤ)
    (row col : Nat) : ℤ :=
  destinationRowPtr + (row : ℤ) * destinationRowDelta + (col : ℤ) * destination_pixelSpace

/-- The number of bytes an iteration of the composite loops can write from
`destinationColumnPtr` on: R, G, B and, with a source and a destination that
both carry alpha, A. -/
def writtenBytes (hasAlpha destination_hasAlpha : Bool) : ℤ :=
  if hasAlpha = true ∧ destination_hasAlpha = true then 4 else 3

/-! ## `SourceData::readImage` (Source.cpp)

The GDAL dataset is the external collaborator: what a band returns for a
`RasterIO` request is an input of the embedding, and `readImage` reports the
requests it issues, in order. -/

/-- `GDALColorInterp`, the colour role of a raster band. -/
inductive GDALColorInterp
  | GCI_Undefined
  | GCI_GrayIndex
  | GCI_PaletteIndex
  | GCI_RedBand
  | GCI_GreenBand
  | GCI_BlueBand
  | GCI_AlphaBand
  deriving DecidableEq, Repr

/-- A `RasterIO(GF_Read, ...)` request: the band number (from `1`), the window
`xOff, yOff, xSize, ySize` of the raster, the size of the buffer it is
resampled into and the offset `bufOffset` of the buffer in `tempImage` (the
channel the band is read into). -/
structure ReadRequest where
  band : Nat
  bufOffset : ℤ
  xOff : ℤ
  yOff : ℤ
  xSize : ℤ
  ySize : ℤ
  bufXSize : ℤ
  bufYSize : ℤ
  deriving DecidableEq, Repr

/-- A `GDALRasterBand`: the data the sampler reads (`RasterBand`), the colour
role, the colour table (`GetColorTable`, with `GetColorEntryAsRGB` giving the
entry `(c1, c2, c3)` of an index or `none` when it has none), the optional
offset and scale (`none` when `GetOffset`, `GetScale` report no success), and
the answer to a byte `RasterIO` request: the value of every buffer pixel
`(i, j)`, or `none` when the request fails and leaves the buffer as it is. -/
structure GDALRasterBand extends RasterBand where
  colorInterpretation : GDALColorInterp
  colorTable : Option (Nat → Option (ℤ × ℤ × ℤ))
  offset : Option ℚ
  scale : Option ℚ
  readWindow : ReadRequest → Option (ℤ → ℤ → Nat)

/-- A `GDALDataset`: its raster bands, `GetRasterBand(b)` being element `b - 1`
and `GetRasterCount()` the length. -/
structure GDALDataset where
  bands : List GDALRasterBand

/-- `GDALDataset::GetRasterCount`. -/
def GDALDataset.GetRasterCount (ds : GDALDataset) : ℤ :=
  (ds.bands.length : ℤ)

/-- `GDALDataset::GetRasterBand(b)`, `none` for a band that does not exist. -/
def GDALDataset.GetRasterBand (ds : GDALDataset) (b : Nat) : Option GDALRasterBand :=
  ds.bands[b - 1]?

/-- The part of `osg::Image` that `readImage` uses: `s()`, `t()`,
`getRowSizeInBytes()`, `getPixelSizeInBits()`, the number of components of the
pixel format, and the bytes of `data()` by offset. -/
structure Image where
  s : ℤ
  t : ℤ
  rowSizeInBytes : ℤ
  pixelSizeInBits : ℤ
  numComponents : ℤ
  data : ℤ → Nat

/-- The part of `DestinationData` that `readImage` and `readHeightField` use;
`verticalScale` is `_dataSet->getVerticalScale()`. -/
structure DestinationData where
  _image : Option Image
  _heightField : Option HeightField
  _extents : GeospatialExtents
  verticalScale : ℚ

/-- A pointer to an `osg::CoordinateSystemNode`: `none` is the null pointer. -/
abbrev CoordinateSystemPtr := Option Nat

/-- The matrix `osg::Matrixd::set(a00, a01, ..., a33)` builds from its rows:
element `(row, col)`. -/
def matrixSet (rows : List (List ℚ)) : Nat → Nat → ℚ :=
  fun row col => (rows.getD row []).getD col 0

/-- `SpatialProperties::DataType`. -/
inductive DataType
  | RASTER
  | VECTOR
deriving DecidableEq, Repr

/-- The data of `SpatialProperties`: coordinate system, geotransform (element
`(row, col)` of the `osg::Matrixd`), extents, the numbers of values and the
data type (`RASTER` in a structure literal that does not set it). -/
structure SpatialProperties where
  _cs : CoordinateSystemPtr
  _geoTransform : Nat → Nat → ℚ
  _extents : GeospatialExtents
  _numValuesX : ℤ
  _numValuesY : ℤ
  _numValuesZ : ℤ
  _dataType : DataType := DataType.RASTER

/-- The data of `SourceData`, a `SpatialProperties` with the GDAL dataset (`none`
is the null pointer), the heightfield dataset, the cache
`_spatialPropertiesMap`, a map from coordinate-system pointers to spatial
properties kept as an association list, the flag `_hasGCPs` and the model (a
pointer to an `osg::Node`, `none` when null); a structure literal that does not
set the last two has no ground-control points and no model. -/
structure SourceData extends SpatialProperties where
  _gdalDataset : Option GDALDataset
  _hfDataset : Option HeightField
  _spatialPropertiesMap : List (CoordinateSystemPtr × SpatialProperties)
  _hasGCPs : Bool := false
  _model : Option Nat := none

/-- The effect of one `RasterIO` into `tempImage + k` with pixel spacing
`pixelSpace` and line spacing `pixelSpace * readWidth`: buffer pixel `(i, j)` is
stored at offset `k + (j * readWidth + i) * pixelSpace`. -/
def storeBand (tempImage : ℤ → Nat) (k pixelSpace readWidth readHeight : ℤ)
    (px : ℤ → ℤ → Nat) : ℤ → Nat :=
  fun addr =>
    if 0 ≤ addr - k ∧ (addr - k) % pixelSpace = 0 ∧ 0 < readWidth
        ∧ (addr - k) / pixelSpace < readWidth * readHeight then
      px ((addr - k) / pixelSpace % readWidth) ((addr - k) / pixelSpace / readWidth)
    else tempImage addr

/-- One `band->RasterIO(GF_Read, windowX, _numValuesY-(windowY+windowHeight),
windowWidth, windowHeight, tempImage+k, readWidth, readHeight, ...)`: the
request that is issued and the buffer after it. -/
def readBand (band : Option GDALRasterBand) (b : Nat) (_numValuesY : ℤ) (w : Window)
    (readWidth readHeight pixelSpace k : ℤ) (tempImage : ℤ → Nat) :
    (ℤ → Nat) × ReadRequest :=
  let req : ReadRequest :=
    { band := b, bufOffset := k, xOff := w.x, yOff := _numValuesY - (w.y + w.height)
      xSize := w.width, ySize := w.height, bufXSize := readWidth, bufYSize := readHeight }
  match band with
  | none => (tempImage, req)
  | some bd =>
    match bd.readWindow req with
    | none => (tempImage, req)
    | some px => (storeBand tempImage k pixelSpace readWidth readHeight px, req)

/-- One iteration of the colour-table loop (source lines 552-570): pixel `i` of
`tempImage` is replaced by the RGB entry of its index, or by its grey
equivalent when the table has no such entry. -/
def colorTableStep (ct : Nat → Option (ℤ × ℤ × ℤ)) (tempImage : ℤ → Nat) (i : Nat) : ℤ → Nat :=
  let index := tempImage ((i : ℤ) * 3)
  let sEntry : ℤ × ℤ × ℤ :=
    match ct index with
    | some entry => entry
    | none => ((index : ℤ), (index : ℤ), (index : ℤ))
  let t0 := Function.update tempImage ((i : ℤ) * 3 + 0) (toByte sEntry.1)
  let t1 := Function.update t0 ((i : ℤ) * 3 + 1) (toByte sEntry.2.1)
  Function.update t1 ((i : ℤ) * 3 + 2) (toByte sEntry.2.2)

/-- The band reads of `readImage` (source lines 497-598) into a fresh
`tempImage`: the buffer and the requests issued, in order. -/
def readBands (ds : GDALDataset) (_numValuesY : ℤ) (w : Window)
    (readWidth readHeight pixelSpace : ℤ) (tempImage : ℤ → Nat) :
    (ℤ → Nat) × List ReadRequest :=
  let hasRGB := decide (ds.GetRasterCount ≥ 3)
  let hasAlpha := decide (ds.GetRasterCount ≥ 4)
  let colorTable := if ds.GetRasterCount ≥ 1 then (ds.GetRasterBand 1).bind (fun b => b.colorTable)
    else none
  let hasGreyScale := decide (ds.GetRasterCount = 1)
  if hasRGB = true then
    let r := readBand (ds.GetRasterBand 1) 1 _numValuesY w readWidth readHeight pixelSpace 0
      tempImage
    let g := readBand (ds.GetRasterBand 2) 2 _numValuesY w readWidth readHeight pixelSpace 1
      r.1
    let b := readBand (ds.GetRasterBand 3) 3 _numValuesY w readWidth readHeight pixelSpace 2
      g.1
    if hasAlpha = true then
      let a := readBand (ds.GetRasterBand 4) 4 _numValuesY w readWidth readHeight pixelSpace 3
        b.1
      (a.1, [r.2, g.2, b.2, a.2])
    else (b.1, [r.2, g.2, b.2])
  else
    match colorTable with
    | some ct =>
      let r := readBand (ds.GetRasterBand 1) 1 _numValuesY w readWidth readHeight pixelSpace 0
        tempImage
      ((List.range (readWidth * readHeight).toNat).foldl (colorTableStep ct) r.1, [r.2])
    | none =>
      if hasGreyScale = true then
        let r := readBand (ds.GetRasterBand 1) 1 _numValuesY w readWidth readHeight pixelSpace
          0 tempImage
        let g := readBand (ds.GetRasterBand 1) 1 _numValuesY w readWidth readHeight pixelSpace
          1 r.1
        let b := readBand (ds.GetRasterBand 1) 1 _numValuesY w readWidth readHeight pixelSpace
          2 g.1
        (b.1, [r.2, g.2, b.2])
      else (tempImage, [])

/-- The conversion `(unsigned char)(a*r_0 + b*r_1)` of the resampling loop. -/
def mix2 (a b : Nat) (r_0 r_1 : ℚ) : Nat :=
  toByte (truncate ((a : ℚ) * r_0 + (b : ℚ) * r_1))

/-- The conversion `(unsigned char)(a*r_0 + b*r_1 + c*r_2 + d*r_3)` of the
resampling loop. -/
def mix4 (a b c d : Nat) (r_0 r_1 r_2 r_3 : ℚ) : Nat :=
  toByte (truncate ((a : ℚ) * r_0 + (b : ℚ) * r_1 + (c : ℚ) * r_2 + (d : ℚ) * r_3))

/-- The stores `dest[0]`, `dest[1]`, `dest[2]` and, with four source components,
`dest[3]` of the resampling loop: channel `k` receives `value k`. -/
def storePixel (numSourceComponents : ℤ) (destImage : ℤ → Nat) (dest : ℤ) (value : ℤ → Nat) :
    ℤ → Nat :=
  let d0 := Function.update destImage (dest + 0) (value 0)
  let d1 := Function.update d0 (dest + 1) (value 1)
  let d2 := Function.update d1 (dest + 2) (value 2)
  if numSourceComponents = 4 then Function.update d2 (dest + 3) (value 3) else d2

/-- The source pixel `(read_i, read_j)` and the remainders
`(flt_read_ir, flt_read_jr)` the resampling loop computes for the destination
pixel `(i, j)` (source lines 607-625). -/
def resampleCoords (readWidth readHeight destWidth destHeight i j : ℤ) : ℤ × ℤ × ℚ × ℚ :=
  let t_d : ℚ := if destHeight > 1 then (j : ℚ) / ((destHeight : ℚ) - 1) else 0
  let s_d : ℚ := if destWidth > 1 then (i : ℚ) / ((destWidth : ℚ) - 1) else 0
  let flt_read_i := s_d * ((readWidth : ℚ) - 1)
  let flt_read_j := t_d * ((readHeight : ℚ) - 1)
  let read_i := truncate flt_read_i
  let read_i := if read_i ≥ readWidth then readWidth - 1 else read_i
  let flt_read_ir := flt_read_i - (read_i : ℚ)
  let flt_read_ir := if read_i = readWidth - 1 then 0 else flt_read_ir
  let read_j := truncate flt_read_j
  let read_j := if read_j ≥ readHeight then readHeight - 1 else read_j
  let flt_read_jr := flt_read_j - (read_j : ℚ)
  let flt_read_jr := if read_j = readHeight - 1 then 0 else flt_read_jr
  (read_i, read_j, flt_read_ir, flt_read_jr)

/-- The body of the resampling loop (source lines 610-685) for the destination
pixel `(i, j)`: `destImage` after the body. -/
def resamplePixel (numSourceComponents pixelSpace readWidth readHeight destWidth destHeight : ℤ)
    (tempImage destImage : ℤ → Nat) (i j : ℤ) : ℤ → Nat :=
  let rc := resampleCoords readWidth readHeight destWidth destHeight i j
  let read_i := rc.1
  let read_j := rc.2.1
  let flt_read_ir := rc.2.2.1
  let flt_read_jr := rc.2.2.2
  let dest := (j * destWidth + i) * pixelSpace
  let src_0 := (read_j * readWidth + read_i) * pixelSpace
  if flt_read_ir = 0 then
    if flt_read_jr = 0 then
      storePixel numSourceComponents destImage dest (fun k => tempImage (src_0 + k))
    else
      let src_1 := src_0 + readWidth * pixelSpace
      let r_0 := 1 - flt_read_jr
      let r_1 := flt_read_jr
      storePixel numSourceComponents destImage dest
        (fun k => mix2 (tempImage (src_0 + k)) (tempImage (src_1 + k)) r_0 r_1)
  else
    if flt_read_jr = 0 then
      let src_1 := src_0 + pixelSpace
      let r_0 := 1 - flt_read_ir
      let r_1 := flt_read_ir
      storePixel numSourceComponents destImage dest
        (fun k => mix2 (tempImage (src_0 + k)) (tempImage (src_1 + k)) r_0 r_1)
    else
      let src_1 := src_0 + readWidth * pixelSpace
      let src_2 := src_0 + pixelSpace
      let src_3 := src_1 + pixelSpace
      let r_0 := (1 - flt_read_ir) * (1 - flt_read_jr)
      let r_1 := (1 - flt_read_ir) * flt_read_jr
      let r_2 := flt_read_ir * (1 - flt_read_jr)
      let r_3 := flt_read_ir * flt_read_jr
      storePixel numSourceComponents destImage dest
        (fun k => mix4 (tempImage (src_0 + k)) (tempImage (src_1 + k)) (tempImage (src_2 + k))
          (tempImage (src_3 + k)) r_0 r_1 r_2 r_3)

/-- The resampling loops (source lines 605-688): the new `destImage`, built in
fresh memory from `tempImage`. -/
def resampleImage (numSourceComponents pixelSpace readWidth readHeight destWidth destHeight : ℤ)
    (tempImage fresh : ℤ → Nat) : ℤ → Nat :=
  (List.range destHeight.toNat).foldl
    (fun (destImage : ℤ → Nat) (j : Nat) =>
      (List.range destWidth.toNat).foldl
        (fun (destImage : ℤ → Nat) (i : Nat) =>
          resamplePixel numSourceComponents pixelSpace readWidth readHeight destWidth destHeight
            tempImage destImage (i : ℤ) (j : ℤ))
        destImage)
    fresh

/-- The read size of `readImage` (source lines 455-471): `doResample`,
`readWidth` and `readHeight` for the source window `w` and the destination
window `d`. -/
def readSize (w d : Window) : Bool × ℤ × ℤ :=
  let destWindowWidthRatio : ℚ := (d.width : ℚ) / (w.width : ℚ)
  let destWindowHeightRatio : ℚ := (d.height : ℚ) / (w.height : ℚ)
  let resizeTolerance : ℚ := 11 / 10
  let doResample := decide ((destWindowWidthRatio > resizeTolerance
    ∨ destWindowHeightRatio > resizeTolerance) ∧ w.width ≥ 2 ∧ w.height ≥ 2)
  if doResample = true then (true, w.width, w.height) else (false, d.width, d.height)

/-- Whether `readImage` reads the dataset at all (source lines 473-479):
`hasRGB || hasColorTable || hasGreyScale`. -/
def hasImageBands (ds : GDALDataset) : Bool :=
  let hasRGB := decide (ds.GetRasterCount ≥ 3)
  let hasColorTable := decide (ds.GetRasterCount ≥ 1)
    && ((ds.GetRasterBand 1).bind (fun b => b.colorTable)).isSome
  let hasGreyScale := decide (ds.GetRasterCount = 1)
  hasRGB || hasColorTable || hasGreyScale

/-- The copy of the source window `w` into the destination window `d` of the
image (source lines 455-760): the image after the copy and the `RasterIO`
requests issued, or `none` when an array of negative size is allocated. -/
def readImageWindow (fl : ℚ → ℚ) (fresh : ℤ → Nat) (ds : GDALDataset) (_numValuesY : ℤ)
    (w d : Window) (image : Image) : Option (Image × List ReadRequest) :=
  let doResample := (readSize w d).1
  let readWidth := (readSize w d).2.1
  let readHeight := (readSize w d).2.2
  let hasAlpha := decide (ds.GetRasterCount ≥ 4)
  let numSourceComponents : ℤ := if hasAlpha = true then 4 else 3
  if hasImageBands ds = true then
    let pixelSpace := numSourceComponents * 1
    if readWidth * readHeight * pixelSpace < 0 then none
    else
      let rb := readBands ds _numValuesY w readWidth readHeight pixelSpace fresh
      if (doResample = true ∨ readWidth ≠ d.width ∨ readHeight ≠ d.height)
          ∧ d.width * d.height * pixelSpace < 0 then none
      else
        let tempImage :=
          if doResample = true ∨ readWidth ≠ d.width ∨ readHeight ≠ d.height then
            resampleImage numSourceComponents pixelSpace readWidth readHeight d.width
              d.height rb.1 fresh
          else rb.1
        let destination_pixelSpace := image.pixelSizeInBits / 8
        let destinationRowPtr := d.x * image.pixelSizeInBits / 8
          + (d.y + d.height - 1) * image.rowSizeInBytes
        let destinationRowDelta := -image.rowSizeInBytes
        let destination_hasAlpha := decide (image.numComponents = 4)
        some ({ image with
                data := compositeImage fl hasAlpha destination_hasAlpha pixelSpace
                  destination_pixelSpace d.width d.height tempImage image.data
                  destinationRowPtr destinationRowDelta },
              rb.2)
  else some (image, [])

/-- One pass of the probing loop of `readImage` (source lines 429-761) at
offset `xoffset`: the image after the pass and the `RasterIO` requests issued,
or `none` when the pass does not complete (the dataset pointer is null, or an
array of negative size is allocated).  `fresh` is the content of newly
allocated memory, `s_bb` the source extents
`getExtents(destination._cs.get())`, `d_bb` the destination extents. -/
def readImageProbe (fl fd : ℚ → ℚ) (fresh : ℤ → Nat) (self : SourceData)
    (s_bb d_bb : GeospatialExtents) (xoffset : ℚ) (image : Image) :
    Option (Image × List ReadRequest) :=
  let intersect_bb := d_bb.intersection s_bb xoffset
  if intersect_bb.valid = false then some (image, [])
  else
    let w := sourceWindow fl fd self._numValuesX self._numValuesY s_bb intersect_bb xoffset
    let d := destWindow fl fd image.s image.t d_bb intersect_bb
    match self._gdalDataset with
    | none => none
    | some ds => readImageWindow fl fresh ds self._numValuesY w d image

/-- The probing loop of `readImage` (source lines 422-761) over the offsets
still to probe. -/
def readImageProbes (fl fd : ℚ → ℚ) (fresh : ℤ → Nat) (self : SourceData)
    (s_bb d_bb : GeospatialExtents) :
    List ℚ → Image → List ReadRequest → Option (Image × List ReadRequest)
  | [], image, reads => some (image, reads)
  | xoffset :: rest, image, reads =>
    (readImageProbe fl fd fresh self s_bb d_bb xoffset image).bind
      (fun r => readImageProbes fl fd fresh self s_bb d_bb rest r.1 (reads ++ r.2))

/-- `SourceData::readImage`: the destination after the call and the `RasterIO`
requests issued, or `none` when the call does not return normally. -/
def readImage (fl fd : ℚ → ℚ) (fresh : ℤ → Nat) (self : SourceData) (s_bb : GeospatialExtents)
    (destination : DestinationData) : Option (DestinationData × List ReadRequest) :=
  match destination._image with
  | none => some (destination, [])
  | some image =>
    let d_bb := destination._extents
    (readImageProbes fl fd fresh self s_bb d_bb (probeOffsets s_bb d_bb) image []).map
      (fun r => ({ destination with _image := some r.1 }, r.2))

/-! ## `SourceData::readHeightField` (Source.cpp)

`interpolateTerrain` is the constant `true` in the source, so the block-read
branch under its `else` (source lines 933-965) is never taken; the embedding is
the branch that runs.  `readHeightField` reports the coordinates it samples the
source at, in order. -/

/-- `osg::HeightField::setHeight(c, r, value)`: element `c + r * numColumns` of
the height array is replaced. -/
def HeightField.setHeight (hf : HeightField) (c r : Nat) (value : ℚ) : HeightField :=
  { hf with heights := hf.heights.set (c + r * hf.numColumns) value }

/-- The two nested loops of `readHeightField` over the destination window
(source lines 818-827 and 921-931): `body` runs for every column
`destX ≤ c < endX` and, inside, every row `destY ≤ r < endY`. -/
def heightLoop {σ : Type} (d : Window) (body : σ → ℤ → ℤ → σ) (init : σ) : σ :=
  (List.range d.width.toNat).foldl
    (fun (st : σ) (c : Nat) => (List.range d.height.toNat).foldl
      (fun (st : σ) (r : Nat) => body st (d.x + (c : ℤ)) (d.y + (r : ℤ))) st)
    init

/-- The loop body of the heightfield path (source lines 820-825): the source
heightfield is sampled at `(geoX - xoffset, geoY)` and the sample is stored. -/
def sampleHeightField (src : HeightField) (xoffset : ℚ) (st : HeightField × List (ℚ × ℚ))
    (c r : ℤ) : HeightField × List (ℚ × ℚ) :=
  let hf := st.1
  let geoX := hf.originX + hf.xInterval * (c : ℚ)
  let geoY := hf.originY + hf.yInterval * (r : ℚ)
  let h := getInterpolatedValue src (geoX - xoffset) geoY
  (hf.setHeight c.toNat r.toNat h, st.2 ++ [(geoX - xoffset, geoY)])

/-- The no-data value, offset and scale `readHeightField` uses for the selected
band (source lines 865-898): the values of the band when it reports them, and
otherwise `0`, `0` and the vertical scale of the destination data set. -/
def bandParameters (band : GDALRasterBand) (verticalScale : ℚ) : ℚ × ℚ × ℚ :=
  let noDataValue : ℚ :=
    match band.noDataValue with
    | some v => v
    | none => 0
  let offset : ℚ :=
    match band.offset with
    | some v => v
    | none => 0
  let scale : ℚ :=
    match band.scale with
    | some v => v
    | none => verticalScale
  (noDataValue, offset, scale)

/-- The loop body of the raster-band path (source lines 923-929, with
`ignoreNoDataValue = true`): the band is sampled at `(geoX - xoffset, geoY)`
and `offset + h*scale` is stored unless `h` is the no-data value. -/
def sampleBand (band : GDALRasterBand) (noDataValue offset scale xoffset : ℚ)
    (st : HeightField × List (ℚ × ℚ)) (c r : ℤ) : HeightField × List (ℚ × ℚ) :=
  let hf := st.1
  let geoX := hf.originX + hf.xInterval * (c : ℚ)
  let geoY := hf.originY + hf.yInterval * (r : ℚ)
  let h := getInterpolatedValueBand band.toRasterBand (geoX - xoffset) geoY
  (if h ≠ noDataValue then hf.setHeight c.toNat r.toNat (offset + h * scale) else hf,
    st.2 ++ [(geoX - xoffset, geoY)])

/-- The bands `bandGray`, `bandRed`, `bandGreen`, `bandBlue`, `bandAlpha` of the
selection loop of `readHeightField`. -/
structure BandSelection where
  bandGray : Option GDALRasterBand
  bandRed : Option GDALRasterBand
  bandGreen : Option GDALRasterBand
  bandBlue : Option GDALRasterBand
  bandAlpha : Option GDALRasterBand

/-- One iteration of the selection loop (source lines 841-847). -/
def selectBandStep (st : BandSelection) (band : GDALRasterBand) : BandSelection :=
  if band.colorInterpretation = GDALColorInterp.GCI_GrayIndex then
    { st with bandGray := some band }
  else if band.colorInterpretation = GDALColorInterp.GCI_RedBand then
    { st with bandRed := some band }
  else if band.colorInterpretation = GDALColorInterp.GCI_GreenBand then
    { st with bandGreen := some band }
  else if band.colorInterpretation = GDALColorInterp.GCI_BlueBand then
    { st with bandBlue := some band }
  else if band.colorInterpretation = GDALColorInterp.GCI_AlphaBand then
    { st with bandAlpha := some band }
  else if st.bandGray.isNone then { st with bandGray := some band }
  else st

/-- The band `readHeightField` reads from (source lines 832-856): the grey band
if there is one, else the alpha, red, green or blue band, in this order. -/
def selectBand (ds : GDALDataset) : Option GDALRasterBand :=
  let st := ds.bands.foldl selectBandStep
    { bandGray := none, bandRed := none, bandGreen := none, bandBlue := none, bandAlpha := none }
  match st.bandGray with
  | some b => some b
  | none =>
    match st.bandAlpha with
    | some b => some b
    | none =>
      match st.bandRed with
      | some b => some b
      | none =>
        match st.bandGreen with
        | some b => some b
        | none => st.bandBlue

/-- The probing loop of `readHeightField` (source lines 780-967) over the
offsets still to probe: the destination heightfield and the sampled
coordinates, or `none` when the call does not complete (the dataset pointer is
null where it is dereferenced).  The heightfield path returns from the function
after the first probe it processes. -/
def readHeightFieldProbes (fl fd : ℚ → ℚ) (self : SourceData) (s_bb d_bb : GeospatialExtents)
    (verticalScale : ℚ) :
    List ℚ → HeightField × List (ℚ × ℚ) → Option (HeightField × List (ℚ × ℚ))
  | [], st => some st
  | xoffset :: rest, st =>
    let intersect_bb := d_bb.intersection s_bb xoffset
    if intersect_bb.valid = false then
      readHeightFieldProbes fl fd self s_bb d_bb verticalScale rest st
    else
      let d := destWindow fl fd st.1.numColumns st.1.numRows d_bb intersect_bb
      match self._hfDataset with
      | some src => some (heightLoop d (sampleHeightField src xoffset) st)
      | none =>
        match self._gdalDataset with
        | none => none
        | some ds =>
          match selectBand ds with
          | some bandSelected =>
            let p := bandParameters bandSelected verticalScale
            readHeightFieldProbes fl fd self s_bb d_bb verticalScale rest
              (heightLoop d (sampleBand bandSelected p.1 p.2.1 p.2.2 xoffset) st)
          | none => readHeightFieldProbes fl fd self s_bb d_bb verticalScale rest st

/-- `SourceData::readHeightField`: the destination after the call and the
coordinates the source was sampled at, or `none` when the call does not
complete.  `s_bb` is the source extents `getExtents(destination._cs.get())`. -/
def readHeightField (fl fd : ℚ → ℚ) (self : SourceData) (s_bb : GeospatialExtents)
    (destination : DestinationData) : Option (DestinationData × List (ℚ × ℚ)) :=
  match destination._heightField with
  | none => some (destination, [])
  | some hf =>
    (readHeightFieldProbes fl fd self s_bb destination._extents destination.verticalScale
        (probeOffsets s_bb destination._extents) (hf, [])).map
      (fun r => ({ destination with _heightField := some r.1 }, r.2))

/-! ## `SourceData::computeSpatialProperties` (Source.cpp)

The collaborators are inputs of the embedding: `areCoordinateSystemEquivalent`,
the GDAL transformer (`GDALCreateGenImgProjTransformer` followed by
`GDALSuggestedWarpOutput`) and `SpatialProperties::computeExtents`. -/

/-- What the GDAL transformer calls of `computeSpatialProperties` give:
no transformer (`GDALCreateGenImgProjTransformer` returns null), no warp
(`GDALSuggestedWarpOutput` fails), or the suggested geotransform
`adfDstGeoTransform[0..5]` with the raster size `nPixels`, `nLines`. -/
inductive WarpOutcome
  | noTransformer
  | noWarp
  | suggested (adfDstGeoTransform : Nat → ℚ) (nPixels nLines : ℤ)

/-- `_spatialPropertiesMap.find(cs)`: the entry stored for the key `cs`. -/
def findProperties (cs : CoordinateSystemPtr) :
    List (CoordinateSystemPtr × SpatialProperties) → Option SpatialProperties
  | [] => none
  | (k, sp) :: rest => if k = cs then some sp else findProperties cs rest

/-- `_spatialPropertiesMap[cs] = sp`: the entry of the key `cs` is replaced, or
added when the map has none. -/
def assignProperties (cs : CoordinateSystemPtr) (sp : SpatialProperties) :
    List (CoordinateSystemPtr × SpatialProperties) →
      List (CoordinateSystemPtr × SpatialProperties)
  | [] => [(cs, sp)]
  | (k, old) :: rest =>
    if k = cs then (k, sp) :: rest else (k, old) :: assignProperties cs sp rest

/-- `SourceData::computeSpatialProperties`: the spatial properties the returned
reference designates and the source data (with its cache) after the call. -/
def computeSpatialProperties
    (areCoordinateSystemEquivalent : CoordinateSystemPtr → CoordinateSystemPtr → Bool)
    (warp : SourceData → CoordinateSystemPtr → WarpOutcome)
    (computeExtents : SpatialProperties → SpatialProperties)
    (self : SourceData) (cs : CoordinateSystemPtr) : SpatialProperties × SourceData :=
  match findProperties cs self._spatialPropertiesMap with
  | some sp => (sp, self)
  | none =>
    if areCoordinateSystemEquivalent self._cs cs = true then (self.toSpatialProperties, self)
    else if self._cs.isSome = true ∧ cs.isSome = true then
      match self._gdalDataset with
      | some _ =>
        let inserted := assignProperties cs self.toSpatialProperties self._spatialPropertiesMap
        match warp self cs with
        | WarpOutcome.noTransformer =>
          (self.toSpatialProperties, { self with _spatialPropertiesMap := inserted })
        | WarpOutcome.noWarp =>
          (self.toSpatialProperties, { self with _spatialPropertiesMap := inserted })
        | WarpOutcome.suggested adfDstGeoTransform nPixels nLines =>
          let sp : SpatialProperties :=
            computeExtents
              { self.toSpatialProperties with
                _numValuesX := nPixels
                _numValuesY := nLines
                _cs := cs
                _geoTransform := matrixSet
                  [[adfDstGeoTransform 1, adfDstGeoTransform 4, 0, 0],
                   [adfDstGeoTransform 2, adfDstGeoTransform 5, 0, 0],
                   [0, 0, 1, 0],
                   [adfDstGeoTransform 0, adfDstGeoTransform 3, 0, 1]] }
          (sp, { self with _spatialPropertiesMap := assignProperties cs sp inserted })
      | none => (self.toSpatialProperties, self)
    else (self.toSpatialProperties, self)

/-- `SourceData::getExtents`. -/
def getExtents
    (areCoordinateSystemEquivalent : CoordinateSystemPtr → CoordinateSystemPtr → Bool)
    (warp : SourceData → CoordinateSystemPtr → WarpOutcome)
    (computeExtents : SpatialProperties → SpatialProperties)
    (self : SourceData) (cs : CoordinateSystemPtr) : GeospatialExtents :=
  (computeSpatialProperties areCoordinateSystemEquivalent warp computeExtents self cs).1._extents

/-! ## `SourceData::readData` (Source.cpp)

The header that declares `Source` and the constructor of `SourceData` is not
part of the sources: `Source` holds the members the embedded functions use, and
the constructor, the file loaders and the GDAL queries are inputs of the
embedding. -/

/-- `Source::Type`. -/
inductive SourceType
  | IMAGE
  | HEIGHT_FIELD
  | MODEL
deriving DecidableEq, Repr

/-- An element of `Source::ResolutionList`. -/
structure ResolutionPair where
  _resX : ℚ
  _resY : ℚ
deriving DecidableEq

/-- The members of `Source` that `readData`, `needReproject` and `doReproject`
use; `getGdalDataset()` and `getHFDataset()` are the fields `_gdalDataset` and
`_hfDataset`, `none` being the null pointer. -/
structure Source where
  _type : SourceType
  _dataType : DataType
  _filename : String
  _cs : CoordinateSystemPtr
  _sourceData : Option SourceData
  _gdalDataset : Option GDALDataset
  _hfDataset : Option HeightField

/-- What `readData` asks of an open GDAL dataset: `GetGeoTransform` is `none`
when the call does not return `CE_None`, the projection strings are `none` for a
null pointer, and `warp` stands for `GDALCreateGenImgProjTransformer` followed
by `GDALSuggestedWarpOutput`. -/
structure GDALQueries where
  GetRasterXSize : GDALDataset → ℤ
  GetRasterYSize : GDALDataset → ℤ
  GetGCPCount : GDALDataset → ℤ
  GetProjectionRef : GDALDataset → Option String
  GetGCPProjection : GDALDataset → Option String
  GetGeoTransform : GDALDataset → Option (Nat → ℚ)
  warp : GDALDataset → Option String → WarpOutcome

/-- The other collaborators of `readData`: the loaders
`osgDB::readHeightFieldFile`, `GDALOpen` and `osgDB::readNodeFile` (`none` is a
null result), the constructors `new SourceData(source)` and
`new osg::CoordinateSystemNode("WKT", wkt)`, `SpatialProperties::computeExtents`
and `_extents.expandBy(model->getBound())`. -/
structure Collaborators where
  readHeightFieldFile : String → Option HeightField
  GDALOpen : String → Option GDALDataset
  readNodeFile : String → Option Nat
  newSourceData : Source → SourceData
  newCoordinateSystemNode : Option String → CoordinateSystemPtr
  computeExtents : SpatialProperties → SpatialProperties
  expandBy : GeospatialExtents → Nat → GeospatialExtents

/-- The matrix `readData` sets from `geoTransform[0..5]`. -/
def geoTransformMatrix (geoTransform : Nat → ℚ) : Nat → Nat → ℚ :=
  matrixSet
    [[geoTransform 1, geoTransform 4, 0, 0],
     [geoTransform 2, geoTransform 5, 0, 0],
     [0, 0, 1, 0],
     [geoTransform 0, geoTransform 3, 0, 1]]

/-- The `SourceData` that `readData` builds from a heightfield `hf` (source lines
147-178); `hf->getVertex(0, hf->getNumRows() - 1)` is the origin moved by
`numRows - 1` intervals in `y`, the row being an `unsigned int`. -/
def readDataHeightField (co : Collaborators) (source : Source) (hf : HeightField) :
    SourceData :=
  let data := co.newSourceData source
  let vertexX : ℚ := hf.originX + hf.xInterval * 0
  let vertexY : ℚ := hf.originY + hf.yInterval * (((((hf.numRows : ℤ) - 1) % 2 ^ 32 : ℤ)) : ℚ)
  let geoTransform : Nat → ℚ := fun i =>
    if i = 0 then vertexX
    else if i = 3 then vertexY
    else if i = 1 then hf.xInterval
    else if i = 5 then -hf.yInterval
    else 0
  let data : SourceData :=
    { data with
      _dataType := source._dataType
      _hfDataset := some hf
      _numValuesX := (hf.numColumns : ℤ)
      _numValuesY := (hf.numRows : ℤ)
      _numValuesZ := 1
      _hasGCPs := false
      _cs := co.newCoordinateSystemNode (some "")
      _geoTransform := geoTransformMatrix geoTransform }
  { data with toSpatialProperties := co.computeExtents data.toSpatialProperties }

/-- The `SourceData` that `readData` builds from an open GDAL dataset (source
lines 184-278), `none` when the function returns `NULL` because the transformer
or the suggested warp output fails. `SHIFT_RASTER_BY_HALF_CELL` tells whether
the preprocessor symbol is defined. -/
def readDataGdal (SHIFT_RASTER_BY_HALF_CELL : Bool) (q : GDALQueries) (co : Collaborators)
    (source : Source) (gdalDataSet : GDALDataset) : Option SourceData :=
  let data := co.newSourceData source
  let pszSourceSRS : Option String :=
    match q.GetProjectionRef gdalDataSet with
    | some srs => if srs.length = 0 then q.GetGCPProjection gdalDataSet else some srs
    | none => q.GetGCPProjection gdalDataSet
  let data : SourceData :=
    { data with
      _dataType := source._dataType
      _gdalDataset := some gdalDataSet
      _numValuesX := q.GetRasterXSize gdalDataSet
      _numValuesY := q.GetRasterYSize gdalDataSet
      _numValuesZ := gdalDataSet.GetRasterCount
      _hasGCPs := decide (q.GetGCPCount gdalDataSet ≠ 0)
      _cs := co.newCoordinateSystemNode pszSourceSRS }
  let finish (m : Nat → Nat → ℚ) : SourceData :=
    { data with
      toSpatialProperties :=
        co.computeExtents { data.toSpatialProperties with _geoTransform := m } }
  match q.GetGeoTransform gdalDataSet with
  | some geoTransform =>
    let geoTransform : Nat → ℚ :=
      if SHIFT_RASTER_BY_HALF_CELL = true ∧ data._dataType = DataType.VECTOR then
        fun i =>
          if i = 0 then geoTransform 0 + (1 / 2) * geoTransform 1
          else if i = 3 then geoTransform 3 + (1 / 2) * geoTransform 5
          else geoTransform i
      else geoTransform
    some (finish (geoTransformMatrix geoTransform))
  | none =>
    if q.GetGCPCount gdalDataSet > 0 ∧ (q.GetGCPProjection gdalDataSet).isSome = true then
      match q.warp gdalDataSet pszSourceSRS with
      | WarpOutcome.noTransformer => none
      | WarpOutcome.noWarp => none
      | WarpOutcome.suggested adfDstGeoTransform _ _ =>
        some (finish (geoTransformMatrix adfDstGeoTransform))
    else
      some (finish (matrixSet [[1, 0, 0, 0], [0, 1, 0, 0], [0, 0, 1, 0], [0, 0, 0, 1]]))

/-- The `case(Source::MODEL)` block of `readData` (source lines 282-293) with the
`return 0` that follows the `switch`: the model is read and, when it is not
null, a `SourceData` is built in the local `data`, which the block never
returns. -/
def readDataModel (co : Collaborators) (source : Source) : Option SourceData :=
  match co.readNodeFile source._filename with
  | some model =>
    let data := co.newSourceData source
    let _data : SourceData :=
      { data with _model := some model, _extents := co.expandBy data._extents model }
    none
  | none => none

/-- `SourceData::readData`: `none` is the null pointer, for the argument and for
the result. The `IMAGE`/`HEIGHT_FIELD` block has no `break`: when it returns
nothing, control falls through to the `MODEL` block. -/
def readData (SHIFT_RASTER_BY_HALF_CELL : Bool) (q : GDALQueries) (co : Collaborators) :
    Option Source → Option SourceData
  | none => none
  | some source =>
    match source._type with
    | SourceType.MODEL => readDataModel co source
    | _ =>
      let hf : Option HeightField :=
        if source._type = SourceType.HEIGHT_FIELD ∧ source._dataType = DataType.VECTOR then
          match source._hfDataset with
          | some hf => some hf
          | none => co.readHeightFieldFile source._filename
        else none
      match hf with
      | some hf => some (readDataHeightField co source hf)
      | none =>
        let gdalDataSet : Option GDALDataset :=
          match source._gdalDataset with
          | some ds => some ds
          | none => co.GDALOpen source._filename
        match gdalDataSet with
        | some ds => readDataGdal SHIFT_RASTER_BY_HALF_CELL q co source ds
        | none => readDataModel co source

/-! ## `Source::needReproject` (Source.cpp)

`currentResolution` is the `double` square root of a sum of squares computed in
`double`.  The arithmetic is a parameter of the embedding: the rounding `fd` of
a `double` operation and the two tests `sqrt(x) < b` and `sqrt(x) > b`.  Over
the real numbers a square root is not a rational, so the exact tests are decided
on the squares; in IEEE arithmetic the square root is the `double` nearest to
the root and the tests compare it. -/

/-- The arithmetic of `needReproject`: the rounding of a `double` operation and
the tests `sqrt(x) < b` and `sqrt(x) > b`. -/
structure ResolutionArithmetic where
  fd : ℚ → ℚ
  sqrtBelow : ℚ → ℚ → Bool
  sqrtAbove : ℚ → ℚ → Bool

/-- `osg::square`. -/
def square (fd : ℚ → ℚ) (v : ℚ) : ℚ := fd (v * v)

/-- The test `sqrt(x) < b` over the real numbers. -/
def sqrtLess (x b : ℚ) : Bool := decide (0 < b ∧ x < b * b)

/-- The test `sqrt(x) > b` over the real numbers. -/
def sqrtGreater (x b : ℚ) : Bool := decide (b < 0 ∨ b * b < x)

/-- `sqrt(x)` for a `double` `x`: the `double` nearest to the square root, ties
to even.  The root of a positive `x` of binary exponent `e2` has the binary
exponent `e2 / 2`; its significand of 53 bits is the rounded root of `x` scaled
by the matching power of 4. -/
def sqrtBinary64 (x : ℚ) : ℚ :=
  if x ≤ 0 then 0
  else
    let e : ℤ := Int.log 2 x / 2
    let scaled : ℚ := x / (2 : ℚ) ^ (2 * (e - 52))
    let m : ℤ := (Nat.sqrt ⌊scaled⌋₊ : ℤ)
    let half : ℚ := (m : ℚ) * (m : ℚ) + (m : ℚ) + 1 / 4
    let rounded : ℤ :=
      if scaled < half then m
      else if half < scaled then m + 1
      else if m % 2 = 0 then m
      else m + 1
    (rounded : ℚ) * (2 : ℚ) ^ (e - 52)

/-- Exact arithmetic. -/
def exactResolution : ResolutionArithmetic :=
  { fd := id, sqrtBelow := sqrtLess, sqrtAbove := sqrtGreater }

/-- IEEE 754 binary64 arithmetic. -/
def binary64Resolution : ResolutionArithmetic :=
  { fd := roundBinary64
    sqrtBelow := fun x b => decide (sqrtBinary64 x < b)
    sqrtAbove := fun x b => decide (sqrtBinary64 x > b) }

/-- The argument of the square root in `currentResolution` (source lines
1125-1126). -/
def resolutionSquared (fd : ℚ → ℚ) (m : Nat → Nat → ℚ) : ℚ :=
  fd (fd (fd (square fd (m 0 0) + square fd (m 1 0)) + square fd (m 0 1)) + square fd (m 1 1))

/-- `Source::needReproject(cs, minResolution, maxResolution)`. -/
def Source.needReproject (ar : ResolutionArithmetic)
    (areCoordinateSystemEquivalent : CoordinateSystemPtr → CoordinateSystemPtr → Bool)
    (self : Source) (cs : CoordinateSystemPtr) (minResolution maxResolution : ℚ) : Bool :=
  match self._sourceData with
  | none => false
  | some sourceData =>
    if self._type = SourceType.MODEL then false
    else if sourceData._hasGCPs = true then true
    else if areCoordinateSystemEquivalent self._cs cs = false then true
    else if minResolution = 0 ∧ maxResolution = 0 then false
    else if ar.sqrtBelow (resolutionSquared ar.fd sourceData._geoTransform) minResolution
        = true then true
    else if ar.sqrtAbove (resolutionSquared ar.fd sourceData._geoTransform) maxResolution
        = true then true
    else false

/-- `Source::needReproject(cs)`. -/
def Source.needReprojectDefault (ar : ResolutionArithmetic)
    (areCoordinateSystemEquivalent : CoordinateSystemPtr → CoordinateSystemPtr → Bool)
    (self : Source) (cs : CoordinateSystemPtr) : Bool :=
  self.needReproject ar areCoordinateSystemEquivalent cs 0 0

/-! ## The band mapping of `Source::doReproject` (Source.cpp) -/

/-- The number of bands of the destination file (source line 1222). -/
def numDestinationBands (numSourceBands : ℤ) : ℤ :=
  if numSourceBands ≥ 3 then 4 else numSourceBands

/-- An `int` array from `CPLMalloc(allocated * sizeof(int))`: the number of
elements allocated and the contents by index. -/
structure IntArray where
  allocated : ℤ
  contents : ℤ → ℤ

/-- The assignment `array[i] = v`: `none` when `i` is not an element of the
allocation. -/
def IntArray.write (a : IntArray) (i v : ℤ) : Option IntArray :=
  if 0 ≤ i ∧ i < a.allocated then some { a with contents := Function.update a.contents i v }
  else none

/-- One iteration of the loop `for (i = 0; i < nBandCount; i++)` of the band
mapping over the pair `(panSrcBands, panDstBands)`: both arrays receive `i + 1`
at index `i`; `none` once a write has fallen outside its array. -/
def bandMappingStep (arrays : Option (IntArray × IntArray)) (i : Nat) :
    Option (IntArray × IntArray) :=
  arrays.bind fun a =>
    (a.1.write (i : ℤ) ((i : ℤ) + 1)).bind fun panSrcBands =>
      (a.2.write (i : ℤ) ((i : ℤ) + 1)).bind fun panDstBands =>
        some (panSrcBands, panDstBands)

/-- The band mapping set up by `doReproject` (source lines 1280-1289) for
`numSourceBands` source bands: `nBandCount = numSourceBands`, both arrays
allocated with `numDestinationBands` elements (contents `fresh` before the
loop); `none` when a write falls outside its array. -/
def setupBandMapping (fresh : ℤ → ℤ) (numSourceBands : ℤ) : Option (IntArray × IntArray) :=
  let nBandCount := numSourceBands
  let panSrcBands : IntArray :=
    { allocated := numDestinationBands numSourceBands, contents := fresh }
  let panDstBands : IntArray :=
    { allocated := numDestinationBands numSourceBands, contents := fresh }
  (List.range nBandCount.toNat).foldl bandMappingStep (some (panSrcBands, panDstBands))

/-! ## `Source::consolodateRequiredResolutions` (Source.cpp) -/

/-- `osg::minimum`. -/
def minimum (lhs rhs : ℚ) : ℚ := if lhs < rhs then lhs else rhs

/-- `osg::maximum`. -/
def maximum (lhs rhs : ℚ) : ℚ := if lhs > rhs then lhs else rhs

/-- The `while` loop of `consolodateRequiredResolutions`, run for `fuel`
iterations at most: `none` when the fuel runs out before the loop ends. -/
def doublingLoop (maxResX maxResY : ℚ) : Nat → ℚ → ℚ → List ResolutionPair →
    Option (List ResolutionPair)
  | 0, _, _, _ => none
  | fuel + 1, currResX, currResY, consolodated =>
    if currResX ≤ maxResX ∧ currResY ≤ maxResY then
      doublingLoop maxResX maxResY fuel (currResX * 2) (currResY * 2)
        (consolodated ++ [{ _resX := currResX, _resY := currResY }])
    else some consolodated

/-- `Source::consolodateRequiredResolutions` on the member
`_requiredResolutions`: the list after the call, `none` when the `while` loop
needs more than `fuel` iterations. -/
def consolodateRequiredResolutions (fuel : Nat) (_requiredResolutions : List ResolutionPair) :
    Option (List ResolutionPair) :=
  if _requiredResolutions.length ≤ 1 then some _requiredResolutions
  else
    match _requiredResolutions with
    | [] => some _requiredResolutions
    | first :: rest =>
      let minResX := rest.foldl (fun m p => minimum m p._resX) first._resX
      let minResY := rest.foldl (fun m p => minimum m p._resY) first._resY
      let maxResX := rest.foldl (fun m p => maximum m p._resX) first._resX
      let maxResY := rest.foldl (fun m p => maximum m p._resY) first._resY
      doublingLoop maxResX maxResY fuel minResX minResY []

/-- The cells `(c, r)` that the two nested loops of `heightLoop` visit, in the
order of the visits: column by column and, in a column, row by row. -/
def heightLoopCells (d : Window) : List (ℤ × ℤ) :=
  ((List.range d.width.toNat).map fun (c : Nat) =>
    (List.range d.height.toNat).map fun (r : Nat) =>
      ((d.x + (c : ℤ), d.y + (r : ℤ)) : ℤ × ℤ)).flatten

/-! ## Single-precision vertices

The vertex arrays of `extrude` hold `osg::Vec3` elements, three `float`s; the
operator `+=` of the element type adds component by component in single
precision. -/

/-- A `float` (IEEE 754 binary32) held as the rational it represents. -/
structure Binary32 where
  val : ℚ
deriving DecidableEq

/-- The sum of two `float`s: the exact sum rounded to binary32. -/
instance Binary32.instAdd : Add Binary32 :=
  ⟨fun a b => { val := roundBinary32 (a.val + b.val) }⟩

/-- A value-initialised `float`. -/
instance Binary32.instInhabited : Inhabited Binary32 :=
  ⟨{ val := 0 }⟩

/-- `osg::Vec3`, three `float`s, with the componentwise `+=`. -/
abbrev Vec3f := Binary32 × Binary32 × Binary32

/-! ## Scenario data -/

/-- A vertex `(x, y, z)` of `osg::Vec3Array`, over exact arithmetic. -/
abbrev Vec3 := ℚ × ℚ × ℚ

/-- Winding reversal of the triangles of an index list: the last two indices of
every triangle are exchanged. -/
def reverseTriangleIndices : List Nat → List Nat
  | a :: b :: c :: rest => a :: c :: b :: reverseTriangleIndices rest
  | _ => []

/-- Modelled from the spec: `ReversePrimitiveFunctor` (ReversePrimitiveFunctor.h
is not among the sources) on a triangle list, whose duplicate is
winding-reversed; this instance gives no valid duplicate for the other
primitive kinds.  It instantiates the `reverse` argument in the scenarios
below. -/
def reverseTriangleList (ps : PrimitiveSet) : Option PrimitiveSet :=
  if ps.mode = PrimitiveMode.TRIANGLES then
    some { ps with indices := reverseTriangleIndices ps.indices }
  else none

/-- A closed mesh: the tetrahedron, four triangles, every edge shared by two
of them. -/
def tetrahedron : Geometry Vec3 :=
  { vertexArray := [(0, 0, 0), (1, 0, 0), (0, 1, 0), (0, 0, 1)]
    primitiveSetList := [⟨PrimitiveMode.TRIANGLES, [0, 2, 1, 0, 1, 3, 1, 2, 3, 2, 0, 3]⟩] }

/-- The collector results on the tetrahedron: four triangles, no boundary
edge, extraction succeeds with no loop. -/
def tetrahedronEdges : EdgeCollector :=
  { triangleSetSize := 4, edgeloops := some [] }

/-- The unit square: four vertices, two triangles. -/
def unitSquare : Geometry Vec3 :=
  { vertexArray := [(0, 0, 0), (1, 0, 0), (1, 1, 0), (0, 1, 0)]
    primitiveSetList := [⟨PrimitiveMode.TRIANGLES, [0, 1, 2, 0, 2, 3]⟩] }

/-- The collector results on the unit square: two triangles, one boundary
loop of four edges. -/
def unitSquareEdges : EdgeCollector :=
  { triangleSetSize := 2, edgeloops := some [[0, 1, 2, 3]] }

/-- A square of four triangles around a centre vertex: five vertices, one
boundary loop of four edges that does not pass through vertex `0`. -/
def centredSquare : Geometry Vec3 :=
  { vertexArray := [(0, 0, 0), (1, 0, 0), (0, 1, 0), (-1, 0, 0), (0, -1, 0)]
    primitiveSetList := [⟨PrimitiveMode.TRIANGLES, [0, 1, 2, 0, 2, 3, 0, 3, 4, 0, 4, 1]⟩] }

/-- The collector results on the centred square. -/
def centredSquareEdges : EdgeCollector :=
  { triangleSetSize := 4, edgeloops := some [[1, 2, 3, 4]] }

/-- Two triangles that share only vertex `2`: four boundary edges meet there. -/
def bowTie : Geometry Vec3 :=
  { vertexArray := [(0, 0, 0), (0, 1, 0), (1, 1, 0), (2, 1, 0), (2, 2, 0)]
    primitiveSetList := [⟨PrimitiveMode.TRIANGLES, [0, 2, 1, 2, 3, 4]⟩] }

/-- The collector results on the bow tie: two triangles, loop extraction
fails. -/
def bowTieEdges : EdgeCollector :=
  { triangleSetSize := 2, edgeloops := none }

/-- The 2x2 heightfield with origin `(0, 0)`, unit intervals and heights
row 0 = `{0, 0}`, row 1 = `{0, 10}`. -/
def cornerField : HeightField :=
  { originX := 0, originY := 0, xInterval := 1, yInterval := 1
    numColumns := 2, numRows := 2, heights := [0, 0, 0, 10] }

/-- The destination extents `[0, 1] x [0, 1]`, not geographic. -/
def unitExtents : GeospatialExtents :=
  { xMin := 0, yMin := 0, xMax := 1, yMax := 1, _isGeographic := false }

/-- Source extents `[1, 2] x [0, 1]`, which touch `unitExtents` along `x = 1`. -/
def rightExtents : GeospatialExtents :=
  { xMin := 1, yMin := 0, xMax := 2, yMax := 1, _isGeographic := false }

/-- Source extents `[5, 6] x [0, 1]`, away from `unitExtents`. -/
def farExtents : GeospatialExtents :=
  { xMin := 5, yMin := 0, xMax := 6, yMax := 1, _isGeographic := false }

/-- A band of grey-index role without colour table, no-data value, offset or
scale, whose every pixel has value `v`. -/
def greyBand (v : Nat) : GDALRasterBand :=
  { pixel := fun _ _ => (v : ℚ), noDataValue := none, numValuesX := 2, numValuesY := 2
    toPixel := fun x y => (x, y)
    colorInterpretation := GDALColorInterp.GCI_GrayIndex, colorTable := none
    offset := none, scale := none, readWindow := fun _ => some (fun _ _ => v) }

/-- A dataset of three bands, none of which has the red, green or blue role. -/
def threeGreyBands : GDALDataset :=
  { bands := [greyBand 10, greyBand 20, greyBand 30] }

/-- A 4x4 image source over `rightExtents` that reads `threeGreyBands`. -/
def imageSource : SourceData :=
  { _cs := some 1, _geoTransform := fun _ _ => 0, _extents := rightExtents
    _numValuesX := 4, _numValuesY := 4, _numValuesZ := 3
    _gdalDataset := some threeGreyBands, _hfDataset := none, _spatialPropertiesMap := [] }

/-- A black 4x4 RGB destination image, 3 bytes a pixel, 12 bytes a row. -/
def blankImage : Image :=
  { s := 4, t := 4, rowSizeInBytes := 12, pixelSizeInBits := 24, numComponents := 3
    data := fun _ => 0 }

/-- A destination over `unitExtents` with the blank image and a heightfield of
one value. -/
def unitDestination : DestinationData :=
  { _image := some blankImage
    _heightField := some { originX := 0, originY := 0, xInterval := 1, yInterval := 1
                           numColumns := 1, numRows := 1, heights := [3] }
    _extents := unitExtents, verticalScale := 1 }

/-- Geographic source extents `[170, 190] x [0, 1]`, across the date line. -/
def datelineExtents : GeospatialExtents :=
  { xMin := 170, yMin := 0, xMax := 190, yMax := 1, _isGeographic := true }

/-- Geographic destination extents `[-180, 180] x [0, 1]`. -/
def worldExtents : GeospatialExtents :=
  { xMin := -180, yMin := 0, xMax := 180, yMax := 1, _isGeographic := true }

/-- A 2x2 source heightfield over `datelineExtents` of constant height `5`. -/
def datelineHeights : HeightField :=
  { originX := 170, originY := 0, xInterval := 20, yInterval := 1
    numColumns := 2, numRows := 2, heights := [5, 5, 5, 5] }

/-- A band over `datelineExtents` of constant value `5`, without no-data value,
offset or scale. -/
def datelineBand : GDALRasterBand :=
  { pixel := fun _ _ => 5, noDataValue := none, numValuesX := 2, numValuesY := 2
    toPixel := fun x y => ((x - 170) / 20, y)
    colorInterpretation := GDALColorInterp.GCI_GrayIndex, colorTable := none
    offset := none, scale := none, readWindow := fun _ => none }

/-- A height source that holds `datelineHeights` as its heightfield dataset. -/
def heightFieldSource : SourceData :=
  { _cs := some 1, _geoTransform := fun _ _ => 0, _extents := datelineExtents
    _numValuesX := 2, _numValuesY := 2, _numValuesZ := 1
    _gdalDataset := none, _hfDataset := some datelineHeights, _spatialPropertiesMap := [] }

/-- A height source that reads `datelineBand` through GDAL. -/
def bandSource : SourceData :=
  { _cs := some 1, _geoTransform := fun _ _ => 0, _extents := datelineExtents
    _numValuesX := 2, _numValuesY := 2, _numValuesZ := 1
    _gdalDataset := some { bands := [datelineBand] }, _hfDataset := none
    _spatialPropertiesMap := [] }

/-- A destination over `worldExtents`: one row of four heights `0`, at
longitudes `-180, -60, 60, 180`, in a data set of vertical scale
`verticalScale`. -/
def worldDestination (verticalScale : ℚ) : DestinationData :=
  { _image := none
    _heightField := some { originX := -180, originY := 0, xInterval := 120, yInterval := 1
                           numColumns := 4, numRows := 1, heights := [0, 0, 0, 0] }
    _extents := worldExtents, verticalScale := verticalScale }

/-- GDAL queries of a 4x4 dataset without geotransform, projection or
ground-control points. -/
def plainQueries : GDALQueries :=
  { GetRasterXSize := fun _ => 4, GetRasterYSize := fun _ => 4, GetGCPCount := fun _ => 0
    GetProjectionRef := fun _ => none, GetGCPProjection := fun _ => none
    GetGeoTransform := fun _ => none, warp := fun _ _ => WarpOutcome.noTransformer }

/-- Collaborators for which `osgDB::readNodeFile` loads a model (node `7`) from
every file, while `GDALOpen` and `osgDB::readHeightFieldFile` open nothing. -/
def modelLoaders : Collaborators :=
  { readHeightFieldFile := fun _ => none, GDALOpen := fun _ => none
    readNodeFile := fun _ => some 7, newSourceData := fun _ => imageSource
    newCoordinateSystemNode := fun _ => some 1, computeExtents := id
    expandBy := fun e _ => e }

/-- A source of type `MODEL`. -/
def modelSource : Source :=
  { _type := SourceType.MODEL, _dataType := DataType.RASTER, _filename := "model.osg"
    _cs := some 1, _sourceData := none, _gdalDataset := none, _hfDataset := none }

/-- A source of type `IMAGE` that holds no dataset. -/
def unopenedSource : Source :=
  { _type := SourceType.IMAGE, _dataType := DataType.RASTER, _filename := "image.tif"
    _cs := some 1, _sourceData := none, _gdalDataset := none, _hfDataset := none }

/-- An image source whose data has the geotransform of scale `(3, 4)`: its
`currentResolution` is `5`. -/
def scaledSource : Source :=
  { _type := SourceType.IMAGE, _dataType := DataType.RASTER, _filename := "image.tif"
    _cs := some 1
    _sourceData := some { imageSource with
      _geoTransform := matrixSet [[3, 0, 0, 0], [0, 4, 0, 0], [0, 0, 1, 0], [0, 0, 0, 1]] }
    _gdalDataset := none, _hfDataset := none }

/-- Two required resolutions, `(1, 1)` and `(5, 3)`. -/
def sampleResolutions : List ResolutionPair :=
  [{ _resX := 1, _resY := 1 }, { _resX := 5, _resY := 3 }]

/-- A destination heightfield of one row of four heights `1, 2, 3, 4`, at
longitudes `-180, -60, 60, 180`. -/
def worldHeights : HeightField :=
  { originX := -180, originY := 0, xInterval := 120, yInterval := 1
    numColumns := 4, numRows := 1, heights := [1, 2, 3, 4] }

/-- A triangle in single precision with a vertex at `x = 2^24 = 16777216`. -/
def farTriangle : Geometry Vec3f :=
  { vertexArray :=
      [({ val := 16777216 }, { val := 0 }, { val := 0 }),
       ({ val := 0 }, { val := 0 }, { val := 0 }),
       ({ val := 0 }, { val := 1 }, { val := 0 })]
    primitiveSetList := [{ mode := PrimitiveMode.TRIANGLES, indices := [0, 1, 2] }] }

/-- What the edge collector finds on `farTriangle`: one triangle, whose three
edges form the boundary loop `0, 1, 2`. -/
def farTriangleEdges : EdgeCollector :=
  { triangleSetSize := 1, edgeloops := some [[0, 1, 2]] }

/-- Destination extents of zero width, the segment `x = 1`, `0 ≤ y ≤ 1`. -/
def lineExtents : GeospatialExtents :=
  { xMin := 1, yMin := 0, xMax := 1, yMax := 1, _isGeographic := false }

/-- The intersection extent `[1 - 2^-30, 1] x [0, 1]`, a sliver at the right edge
of `unitExtents`. -/
def sliverExtents : GeospatialExtents :=
  { xMin := 1 - 1 / 1073741824, yMin := 0, xMax := 1, yMax := 1, _isGeographic := false }

/-- An image source whose data has the identity geotransform: the sum of the
squares is `2`. -/
def identitySource : Source :=
  { _type := SourceType.IMAGE, _dataType := DataType.RASTER, _filename := "image.tif"
    _cs := some 1
    _sourceData := some { imageSource with
      _geoTransform := matrixSet [[1, 0, 0, 0], [0, 1, 0, 0], [0, 0, 1, 0], [0, 0, 0, 1]] }
    _gdalDataset := none, _hfDataset := none }

/-- A source row of two RGBA pixels: `(10, 20, 30, 255)`, of full alpha, then
`(0, 0, 0, 0)`, transparent. -/
def solidThenClear : ℤ → Nat :=
  fun a => if a = 0 then 10 else if a = 1 then 20 else if a = 2 then 30
    else if a = 3 then 255 else 0

/-- A source row of two RGB pixels: `(10, 20, 30)`, then the black `(0, 0, 0)`. -/
def colourThenBlack : ℤ → Nat :=
  fun a => if a = 0 then 10 else if a = 1 then 20 else if a = 2 then 30 else 0

/-- A 4x4 image source over `rightExtents` that reads one grey band. -/
def greySource : SourceData :=
  { imageSource with _gdalDataset := some { bands := [greyBand 10] } }

/-! ## Lemmas on the array operators -/

theorem addRange_append {α : Type} [Add α] (e : α) (v w : List α) :
    addRange e 0 v.length (v ++ w) = v.map (fun x => x + e) ++ w := by
  induction v with
  | nil => cases w <;> simp [addRange]
  | cons x xs ih => simp [addRange, ih]

theorem length_addRange {α : Type} [Add α] (e : α) (b n : Nat) (xs : List α) :
    (addRange e b n xs).length = xs.length := by
  induction xs generalizing b n with
  | nil => simp [addRange]
  | cons x xs ih =>
    cases b <;> cases n <;> simp [addRange, ih]

theorem length_foldl_duplicateIndexStep {α : Type} [Inhabited α] (idx : List Nat)
    (st : List α × Nat) : (idx.foldl duplicateIndexStep st).1.length = st.1.length := by
  induction idx generalizing st with
  | nil => rfl
  | cons k ks ih => simp [List.foldl_cons, ih, duplicateIndexStep]

theorem length_duplicateIndex {α : Type} [Inhabited α] (idx : List Nat) (arr : List α) :
    (DuplicateIndexOperator.process idx arr).length = arr.length + idx.length := by
  simp [DuplicateIndexOperator.process, length_foldl_duplicateIndexStep]

theorem foldl_duplicateIndexStep {α : Type} [Inhabited α] (v : List α) (rest : List Nat) :
    ∀ done : List α, (∀ k ∈ rest, k < v.length) →
      rest.foldl duplicateIndexStep
          (v ++ done ++ List.replicate rest.length default, v.length + done.length)
        = (v ++ done ++ rest.map (fun k => v.getD k default),
            v.length + done.length + rest.length) := by
  induction rest with
  | nil => intro done _; simp
  | cons k ks ih =>
    intro done h
    have hk : k < v.length := h k (List.mem_cons_self _ _)
    have hks : ∀ k ∈ ks, k < v.length := fun j hj => h j (List.mem_cons_of_mem _ hj)
    have hget : (v ++ done ++ List.replicate (ks.length + 1) default).getD k default
        = v.getD k default := by
      simp [List.getD_eq_getElem?_getD, List.append_assoc, List.getElem?_append_left hk]
    have hset : (v ++ done ++ List.replicate (ks.length + 1) default).set
          (v.length + done.length) (v.getD k default)
        = v ++ (done ++ [v.getD k default]) ++ List.replicate ks.length default := by
      rw [← List.length_append, List.replicate_succ, List.set_append_right _ _ (le_refl _)]
      simp
    have := ih (done ++ [v.getD k default]) hks
    simp only [List.foldl_cons, duplicateIndexStep, List.length_cons, hget, hset]
    simp only [List.length_append, List.length_singleton, ← Nat.add_assoc] at this
    rw [this]
    simp [Nat.add_assoc, Nat.add_comm 1]

theorem duplicateIndex_append {α : Type} [Inhabited α] (v done : List α) (idx : List Nat)
    (h : ∀ k ∈ idx, k < v.length) :
    DuplicateIndexOperator.process idx (v ++ done)
      = v ++ done ++ idx.map (fun k => v.getD k default) := by
  have := foldl_duplicateIndexStep v idx done h
  simp only [DuplicateIndexOperator.process, List.length_append, this]

theorem duplicateLoops_append {α : Type} [Inhabited α] (v : List α) (loops : List (List Nat)) :
    ∀ (done : List α) (cur : Nat), (∀ l ∈ loops, ∀ k ∈ l, k < v.length) →
      (duplicateLoops loops cur (v ++ done)).1
        = v ++ done ++ loops.flatten.map (fun k => v.getD k default) := by
  induction loops with
  | nil => intro done cur _; simp [duplicateLoops]
  | cons l ls ih =>
    intro done cur h
    have hl : ∀ k ∈ l, k < v.length := h l (List.mem_cons_self _ _)
    have hls : ∀ l ∈ ls, ∀ k ∈ l, k < v.length := fun m hm => h m (List.mem_cons_of_mem _ hm)
    simp only [duplicateLoops, duplicateIndex_append v done l hl]
    rw [List.append_assoc, ih _ _ hls]
    simp

theorem length_duplicateLoops {α : Type} [Inhabited α] (loops : List (List Nat)) :
    ∀ (cur : Nat) (arr : List α),
      (duplicateLoops loops cur arr).1.length = arr.length + loops.flatten.length := by
  induction loops with
  | nil => intro cur arr; simp [duplicateLoops]
  | cons l ls ih =>
    intro cur arr
    simp [duplicateLoops, ih, length_duplicateIndex, Nat.add_assoc]

theorem length_interleave (o : List Nat) : ∀ x : List Nat, (interleave o x).length = 2 * o.length := by
  induction o with
  | nil => intro x; simp [interleave]
  | cons a o ih => intro x; simp [interleave, ih]; omega

theorem extrude_of_loops {α : Type} [Add α] [Inhabited α]
    (reverse : PrimitiveSet → Option PrimitiveSet) (ec : EdgeCollector) (self : ExtrudeVisitor)
    (geometry : Geometry α) (e : α) (loops : List (List Nat))
    (ht : ec.triangleSetSize ≠ 0) (hl : ec.edgeloops = some loops) :
    extrude reverse ec self geometry e
      = ({ self with _mode := Mode.Replace },
          extrudeWithMode reverse Mode.Replace geometry e loops) := by
  simp [extrude, ht, hl]

theorem vertexArray_replace {α : Type} [Add α] [Inhabited α]
    (reverse : PrimitiveSet → Option PrimitiveSet) (geometry : Geometry α) (e : α)
    (loops : List (List Nat)) (h : ∀ l ∈ loops, ∀ k ∈ l, k < geometry.vertexArray.length) :
    (extrudeWithMode reverse Mode.Replace geometry e loops).vertexArray
      = geometry.vertexArray.map (fun x => x + e)
          ++ loops.flatten.map (fun k => geometry.vertexArray.getD k default) := by
  have := duplicateLoops_append geometry.vertexArray loops [] geometry.vertexArray.length h
  simp only [List.append_nil] at this
  simp only [extrudeWithMode, extrudeVertices, ExtrudeRangeOperator.process, this,
    addRange_append]

theorem getElem?_interleave (o : List Nat) :
    ∀ (x : List Nat) (i : Nat), i < o.length → i < x.length →
      (interleave o x)[2 * i]? = o[i]? ∧ (interleave o x)[2 * i + 1]? = x[i]? := by
  induction o with
  | nil => intro x i h; simp at h
  | cons a o ih =>
    intro x i hi hx
    cases x with
    | nil => simp at hx
    | cons b x =>
      cases i with
      | zero => simp [interleave]
      | succ i =>
        have h1 : i < o.length := by simpa using hi
        have h2 : i < x.length := by simpa using hx
        have := ih x i h1 h2
        have e1 : 2 * (i + 1) = 2 * i + 1 + 1 := by ring
        have e2 : 2 * (i + 1) + 1 = 2 * i + 1 + 1 + 1 := by ring
        simp only [interleave, List.tail_cons, e1, e2, List.getElem?_cons_succ]
        exact this

theorem extrudeWithMode_no_loops {α : Type} [Add α] [Inhabited α]
    (reverse : PrimitiveSet → Option PrimitiveSet) (geometry : Geometry α) (e : α) :
    extrudeWithMode reverse Mode.Replace geometry e []
      = { vertexArray := geometry.vertexArray.map (fun x => x + e)
          primitiveSetList := geometry.primitiveSetList.filterMap reverse } := by
  have hv := vertexArray_replace reverse geometry e [] (by simp)
  have hp : (extrudeWithMode reverse Mode.Replace geometry e []).primitiveSetList
      = geometry.primitiveSetList.filterMap reverse := by
    simp [extrudeWithMode, extrudeVertices, makeTopPrimitives, linkEdgeloops, duplicateLoops]
  cases hr : extrudeWithMode reverse Mode.Replace geometry e [] with
  | mk va psl =>
    rw [hr] at hv hp
    simp only at hv hp
    simp [hv, hp]

theorem extrudeWithMode_unitSquare (reverse : PrimitiveSet → Option PrimitiveSet) :
    extrudeWithMode reverse Mode.Replace unitSquare ((0, 0, 1) : Vec3) [[0, 1, 2, 3]]
      = { vertexArray := [(0, 0, 1), (1, 0, 1), (1, 1, 1), (0, 1, 1),
                          (0, 0, 0), (1, 0, 0), (1, 1, 0), (0, 1, 0)]
          primitiveSetList :=
            (reverse ⟨PrimitiveMode.TRIANGLES, [0, 1, 2, 0, 2, 3]⟩).toList
              ++ [⟨PrimitiveMode.TRIANGLE_STRIP, [4, 0, 5, 1, 6, 2, 7, 3, 4, 0]⟩] } := by
  have hv := vertexArray_replace reverse unitSquare ((0, 0, 1) : Vec3) [[0, 1, 2, 3]]
    (by simp [unitSquare])
  have hp : (extrudeWithMode reverse Mode.Replace unitSquare ((0, 0, 1) : Vec3)
      [[0, 1, 2, 3]]).primitiveSetList
      = (reverse ⟨PrimitiveMode.TRIANGLES, [0, 1, 2, 0, 2, 3]⟩).toList
          ++ [⟨PrimitiveMode.TRIANGLE_STRIP, [4, 0, 5, 1, 6, 2, 7, 3, 4, 0]⟩] := by
    cases hr : reverse ⟨PrimitiveMode.TRIANGLES, [0, 1, 2, 0, 2, 3]⟩ <;>
      simp [extrudeWithMode, extrudeVertices, makeTopPrimitives, linkEdgeloops, duplicateLoops,
        unitSquare, hr, linkAsTriangleStrip, interleave, List.range_succ]
  cases hr : extrudeWithMode reverse Mode.Replace unitSquare ((0, 0, 1) : Vec3) [[0, 1, 2, 3]] with
  | mk va psl =>
    rw [hr] at hv hp
    simp only at hv hp
    rw [hv, hp]
    simp [unitSquare]

/-! ## Lemmas on the sampler -/

theorem truncate_natCast (n : Nat) : truncate (n : ℚ) = (n : ℤ) := by
  simp [truncate]

theorem cornerIndices_natCast (numColumns numRows i j : Nat) (hi : i < numColumns)
    (hj : j < numRows) :
    cornerIndices numColumns numRows (i : ℚ) (j : ℚ) = ((j : ℤ), (j : ℤ), (i : ℤ), (i : ℤ)) := by
  have h1 : max (min (j : ℤ) ((numRows : ℤ) - 1)) 0 = (j : ℤ) := by omega
  have h2 : max (min (i : ℤ) ((numColumns : ℤ) - 1)) 0 = (i : ℤ) := by omega
  have h3 : max (j : ℤ) 0 = (j : ℤ) := by omega
  have h4 : max (i : ℤ) 0 = (i : ℤ) := by omega
  simp [cornerIndices, h1, h2, h3, h4]

theorem cornerIndices_bounds (numColumns numRows : ℤ) (c r : ℚ) (hc : 1 ≤ numColumns)
    (hr : 1 ≤ numRows) :
    0 ≤ (cornerIndices numColumns numRows c r).1
      ∧ (cornerIndices numColumns numRows c r).1 ≤ (cornerIndices numColumns numRows c r).2.1
      ∧ (cornerIndices numColumns numRows c r).2.1 ≤ numRows - 1
      ∧ 0 ≤ (cornerIndices numColumns numRows c r).2.2.1
      ∧ (cornerIndices numColumns numRows c r).2.2.1
          ≤ (cornerIndices numColumns numRows c r).2.2.2
      ∧ (cornerIndices numColumns numRows c r).2.2.2 ≤ numColumns - 1 := by
  simp only [cornerIndices]
  generalize ⌊r⌋ = fr
  generalize ⌈r⌉ = cr
  generalize ⌊c⌋ = fc
  generalize ⌈c⌉ = cc
  split_ifs <;> omega

theorem toGrid_gridPoint (hf : HeightField) (i j : Nat) (hx : hf.xInterval ≠ 0)
    (hy : hf.yInterval ≠ 0) :
    hf.toGrid (hf.originX + i * hf.xInterval) (hf.originY + j * hf.yInterval)
      = ((i : ℚ), (j : ℚ)) := by
  simp only [HeightField.toGrid, Prod.mk.injEq]
  constructor <;> field_simp

/-! ## Extrusion: the claims -/

/-- C1 (amended): for a mesh with at least one triangle and no boundary loop,
`extrude` appends no vertex and no side-wall strip, but translates every vertex
by the extrusion vector and replaces the primitive-set list by the reversed
duplicates of its primitives; `extrude` is a no-op when the collector finds no
triangle. -/
theorem extrude_closed_mesh {α : Type} [Add α] [Inhabited α]
    (reverse : PrimitiveSet → Option PrimitiveSet) (ec : EdgeCollector) (self : ExtrudeVisitor)
    (geometry : Geometry α) (e : α)
    (ht : ec.triangleSetSize ≠ 0) (hl : ec.edgeloops = some []) :
    (extrude reverse ec self geometry e).2
        = { vertexArray := geometry.vertexArray.map (fun x => x + e)
            primitiveSetList := geometry.primitiveSetList.filterMap reverse }
      ∧ extrude reverse { ec with triangleSetSize := 0 } self geometry e = (self, geometry) := by
  constructor
  · rw [extrude_of_loops reverse ec self geometry e [] ht hl]
    exact extrudeWithMode_no_loops reverse geometry e
  · simp [extrude]

/-- Witness of C1 (amended) on the tetrahedron, extruded by `(0, 0, 1)`. -/
theorem extrude_closed_mesh_witness :
    (extrude reverseTriangleList tetrahedronEdges ⟨Mode.Replace⟩ tetrahedron (0, 0, 1)).2
      = { vertexArray := tetrahedron.vertexArray.map (fun x => x + ((0, 0, 1) : Vec3))
          primitiveSetList := tetrahedron.primitiveSetList.filterMap reverseTriangleList } :=
  (extrude_closed_mesh reverseTriangleList tetrahedronEdges ⟨Mode.Replace⟩ tetrahedron (0, 0, 1)
    (by decide) rfl).1

/-- C1 as stated fails: whatever the reversal functor, extruding the closed
tetrahedron by `(0, 0, 1)` does not leave the mesh unchanged (vertex `0` moves
from `(0, 0, 0)` to `(0, 0, 1)`). -/
theorem extrude_closed_mesh_not_noop :
    ¬ ∃ reverse : PrimitiveSet → Option PrimitiveSet,
        (extrude reverse tetrahedronEdges ⟨Mode.Replace⟩ tetrahedron (0, 0, 1)).2
          = tetrahedron := by
  rintro ⟨reverse, h⟩
  rw [extrude_of_loops reverse tetrahedronEdges ⟨Mode.Replace⟩ tetrahedron (0, 0, 1) []
    (by decide) rfl] at h
  have h0 : extrudeWithMode reverse Mode.Replace tetrahedron ((0, 0, 1) : Vec3) []
      = tetrahedron := h
  have h1 := extrudeWithMode_no_loops reverse tetrahedron ((0, 0, 1) : Vec3)
  rw [h0] at h1
  have h2 := congrArg (fun g : Geometry Vec3 => g.vertexArray[0]?) h1
  simp only [tetrahedron, List.map_cons, List.getElem?_cons_zero, Option.some.injEq] at h2
  have h3 := congrArg (fun v : Vec3 => v.2.2) h2
  norm_num at h3

/-- C2: when boundary-loop extraction fails, `extrude` returns with the visitor
and the mesh (vertex array and primitive-set list) exactly as before the
call. -/
theorem extrude_extraction_failure {α : Type} [Add α] [Inhabited α]
    (reverse : PrimitiveSet → Option PrimitiveSet) (ec : EdgeCollector) (self : ExtrudeVisitor)
    (geometry : Geometry α) (e : α) (hl : ec.edgeloops = none) :
    extrude reverse ec self geometry e = (self, geometry) := by
  simp [extrude, hl]

/-- Witness of C2 on the bow tie. -/
theorem extrude_extraction_failure_witness :
    extrude reverseTriangleList bowTieEdges ⟨Mode.Merge⟩ bowTie (0, 0, 1)
      = (⟨Mode.Merge⟩, bowTie) :=
  extrude_extraction_failure reverseTriangleList bowTieEdges ⟨Mode.Merge⟩ bowTie (0, 0, 1) rfl

/-- C3: with one boundary loop of `L ≥ 1` indices on a mesh of `N` vertices,
`extrude` leaves `N + L` vertices and its primitive-set list ends in exactly one
new primitive after the top primitives, a `TRIANGLE_STRIP` of `2L + 2`
indices. -/
theorem extrude_single_loop_counts {α : Type} [Add α] [Inhabited α]
    (reverse : PrimitiveSet → Option PrimitiveSet) (ec : EdgeCollector) (self : ExtrudeVisitor)
    (geometry : Geometry α) (e : α) (idx : List Nat)
    (ht : ec.triangleSetSize ≠ 0) (hl : ec.edgeloops = some [idx]) (_hL : 1 ≤ idx.length) :
    (extrude reverse ec self geometry e).1._mode = Mode.Replace
      ∧ (extrude reverse ec self geometry e).2.vertexArray.length
          = geometry.vertexArray.length + idx.length
      ∧ ∃ strip : PrimitiveSet,
          (extrude reverse ec self geometry e).2.primitiveSetList
              = makeTopPrimitives reverse true geometry.primitiveSetList ++ [strip]
            ∧ strip.mode = PrimitiveMode.TRIANGLE_STRIP
            ∧ strip.indices.length = 2 * idx.length + 2 := by
  rw [extrude_of_loops reverse ec self geometry e [idx] ht hl]
  refine ⟨rfl, ?_, ?_⟩
  · simp [extrudeWithMode, extrudeVertices, ExtrudeRangeOperator.process, length_addRange,
      length_duplicateLoops]
  · refine ⟨linkAsTriangleStrip ((List.range idx.length).map
      (fun i => geometry.vertexArray.length + i)) idx, ?_, rfl, ?_⟩
    · simp [extrudeWithMode, extrudeVertices, linkEdgeloops, duplicateLoops]
    · simp [linkAsTriangleStrip, length_interleave]

/-- Witness of C3 on the centred square (`N = 5`, `L = 4`). -/
theorem extrude_single_loop_counts_witness :
    (extrude reverseTriangleList centredSquareEdges ⟨Mode.Replace⟩ centredSquare
        (0, 0, 1)).2.vertexArray.length = 5 + 4 :=
  (extrude_single_loop_counts reverseTriangleList centredSquareEdges ⟨Mode.Replace⟩
    centredSquare (0, 0, 1) [1, 2, 3, 4] (by decide) rfl (by decide)).2.1

/-- C4: in Replace mode, with every loop index below the vertex count `N`,
every original slot `i < N` holds `v[i] + e` after `extrude`, and the appended
slots hold, in loop order, the old values of the loop vertices: slot `N + p`
holds `v[k]` for the `p`-th loop index `k`; for a single loop `idx`, slot
`N + j` holds `v[idx[j]]`. -/
theorem extrude_replace_vertices {α : Type} [Add α] [Inhabited α]
    (reverse : PrimitiveSet → Option PrimitiveSet) (ec : EdgeCollector) (self : ExtrudeVisitor)
    (geometry : Geometry α) (e : α) (loops : List (List Nat))
    (ht : ec.triangleSetSize ≠ 0) (hl : ec.edgeloops = some loops)
    (hidx : ∀ l ∈ loops, ∀ k ∈ l, k < geometry.vertexArray.length) :
    (∀ (i : Nat) (v : α), geometry.vertexArray[i]? = some v →
        (extrude reverse ec self geometry e).2.vertexArray[i]? = some (v + e))
      ∧ (∀ (p k : Nat) (v : α), loops.flatten[p]? = some k → geometry.vertexArray[k]? = some v →
          (extrude reverse ec self geometry e).2.vertexArray[geometry.vertexArray.length + p]?
            = some v)
      ∧ (∀ idx : List Nat, loops = [idx] → ∀ (j k : Nat) (v : α), idx[j]? = some k →
          geometry.vertexArray[k]? = some v →
          (extrude reverse ec self geometry e).2.vertexArray[geometry.vertexArray.length + j]?
            = some v) := by
  rw [extrude_of_loops reverse ec self geometry e loops ht hl]
  have hv := vertexArray_replace reverse geometry e loops hidx
  have key : ∀ (p k : Nat) (v : α), loops.flatten[p]? = some k →
      geometry.vertexArray[k]? = some v →
      (extrudeWithMode reverse Mode.Replace geometry e loops).vertexArray[
        geometry.vertexArray.length + p]? = some v := by
    intro p k v hp hk
    have hsub : geometry.vertexArray.length + p
        - (List.map (fun x => x + e) geometry.vertexArray).length = p := by simp
    rw [hv, List.getElem?_append_right (by simp), hsub, List.getElem?_map, hp]
    simp [List.getD_eq_getElem?_getD, hk]
  refine ⟨?_, key, ?_⟩
  · intro i v hi
    have hlt : i < geometry.vertexArray.length := (List.getElem?_eq_some_iff.1 hi).1
    rw [hv, List.getElem?_append_left (by simpa using hlt)]
    simp [hi]
  · intro idx hidx1 j k v hj hk
    subst hidx1
    exact key j k v (by simpa using hj) hk

/-- Witness of C4 on the centred square: slot `0` is translated, and slot `5`
keeps the old value of loop vertex `1`. -/
theorem extrude_replace_vertices_witness :
    (extrude reverseTriangleList centredSquareEdges ⟨Mode.Replace⟩ centredSquare
        (0, 0, 1)).2.vertexArray[0]? = some (((0, 0, 0) : Vec3) + (0, 0, 1))
      ∧ (extrude reverseTriangleList centredSquareEdges ⟨Mode.Replace⟩ centredSquare
        (0, 0, 1)).2.vertexArray[5 + 0]? = some ((1, 0, 0) : Vec3) :=
  have h := extrude_replace_vertices reverseTriangleList centredSquareEdges ⟨Mode.Replace⟩
    centredSquare ((0, 0, 1) : Vec3) [[1, 2, 3, 4]] (by decide) rfl
    (by simp [centredSquare])
  ⟨h.1 0 (0, 0, 0) rfl, h.2.1 0 1 (1, 0, 0) rfl rfl⟩

/-- C5: for index arrays `o` and `x` of the same length `L ≥ 1`,
`linkAsTriangleStrip o x` is a `TRIANGLE_STRIP` of `2L + 2` indices `s` with
`s[2i] = o[i]` and `s[2i+1] = x[i]` for every `i < L`, closed by `s[2L] = o[0]`
and `s[2L+1] = x[0]`. -/
theorem linkAsTriangleStrip_interleaves (o x : List Nat) (hlen : o.length = x.length)
    (hL : 1 ≤ o.length) :
    (linkAsTriangleStrip o x).mode = PrimitiveMode.TRIANGLE_STRIP
      ∧ (linkAsTriangleStrip o x).indices.length = 2 * o.length + 2
      ∧ (∀ i, i < o.length →
          (linkAsTriangleStrip o x).indices[2 * i]? = o[i]?
            ∧ (linkAsTriangleStrip o x).indices[2 * i + 1]? = x[i]?)
      ∧ (linkAsTriangleStrip o x).indices[2 * o.length]? = o[0]?
      ∧ (linkAsTriangleStrip o x).indices[2 * o.length + 1]? = x[0]? := by
  have hlenI : (interleave o x).length = 2 * o.length := length_interleave o x
  refine ⟨rfl, by simp [linkAsTriangleStrip, hlenI], ?_, ?_, ?_⟩
  · intro i hi
    have h := getElem?_interleave o x i hi (hlen ▸ hi)
    have b1 : 2 * i < (interleave o x).length := by omega
    have b2 : 2 * i + 1 < (interleave o x).length := by omega
    simp only [linkAsTriangleStrip, List.getElem?_append_left b1, List.getElem?_append_left b2]
    exact h
  · cases o with
    | nil => simp at hL
    | cons a o =>
      simp only [linkAsTriangleStrip]
      rw [List.getElem?_append_right (by omega)]
      simp [hlenI]
  · cases x with
    | nil => simp only [List.length_nil] at hlen; omega
    | cons b x =>
      simp only [linkAsTriangleStrip]
      rw [List.getElem?_append_right (by omega)]
      simp [hlenI]

/-- Witness of C5: a loop of three indices. -/
theorem linkAsTriangleStrip_interleaves_witness :
    (linkAsTriangleStrip [4, 5, 6] [0, 1, 2]).indices = [4, 0, 5, 1, 6, 2, 4, 0]
      ∧ (linkAsTriangleStrip [4, 5, 6] [0, 1, 2]).indices.length = 2 * 3 + 2 :=
  ⟨by decide, (linkAsTriangleStrip_interleaves [4, 5, 6] [0, 1, 2] (by decide) (by decide)).2.1⟩

/-- C6 (amended): the unit square extruded by `(0, 0, 1)` has 8 vertices, the 4
original slots at `z = 1` and the 4 appended slots at `z = 0`; its
primitive-set list holds the reversed duplicate of the 2 triangles (when the
reversal is valid) followed by 1 triangle strip of 10 indices, and nothing
else: the list of the original primitives is replaced. -/
theorem extrude_unitSquare (reverse : PrimitiveSet → Option PrimitiveSet)
    (self : ExtrudeVisitor) :
    (extrude reverse unitSquareEdges self unitSquare (0, 0, 1)).2
      = { vertexArray := [(0, 0, 1), (1, 0, 1), (1, 1, 1), (0, 1, 1),
                          (0, 0, 0), (1, 0, 0), (1, 1, 0), (0, 1, 0)]
          primitiveSetList :=
            (reverse ⟨PrimitiveMode.TRIANGLES, [0, 1, 2, 0, 2, 3]⟩).toList
              ++ [⟨PrimitiveMode.TRIANGLE_STRIP, [4, 0, 5, 1, 6, 2, 7, 3, 4, 0]⟩] } := by
  rw [extrude_of_loops reverse unitSquareEdges self unitSquare (0, 0, 1) [[0, 1, 2, 3]]
    (by decide) rfl]
  exact extrudeWithMode_unitSquare reverse

/-- C6 as stated fails: whatever the reversal functor, the primitive-set list of
the extruded unit square is not made of the original primitive set, a top
primitive set and a strip. -/
theorem extrude_unitSquare_drops_originals :
    ¬ ∃ (reverse : PrimitiveSet → Option PrimitiveSet) (top strip : PrimitiveSet),
        List.Perm
          (extrude reverse unitSquareEdges ⟨Mode.Replace⟩ unitSquare (0, 0, 1)).2.primitiveSetList
          (unitSquare.primitiveSetList ++ [top, strip]) := by
  rintro ⟨reverse, top, strip, h⟩
  have hlen := h.length_eq
  rw [extrude_of_loops reverse unitSquareEdges ⟨Mode.Replace⟩ unitSquare (0, 0, 1)
    [[0, 1, 2, 3]] (by decide) rfl, extrudeWithMode_unitSquare reverse] at hlen
  cases hr : reverse ⟨PrimitiveMode.TRIANGLES, [0, 1, 2, 0, 2, 3]⟩ <;>
    simp [hr, unitSquare] at hlen

/-- C7: on the centred square (`N = 5` vertices, `P = 1` primitive, one loop of
4 indices) with `_mode = Merge` on entry, `extrude` overwrites the mode and runs
the Replace branch: 9 vertices instead of `2N = 10`, and a primitive-set list of
the reversed duplicate and the strip, without the pre-existing primitive; the
Merge branch itself, had it run, gives the 10 vertices and keeps the
pre-existing primitive in front of its duplicate. -/
theorem extrude_merge_runs_replace (reverse : PrimitiveSet → Option PrimitiveSet) :
    (extrude reverse centredSquareEdges ⟨Mode.Merge⟩ centredSquare (0, 0, 1)).1
        = ⟨Mode.Replace⟩
      ∧ (extrude reverse centredSquareEdges ⟨Mode.Merge⟩ centredSquare
          (0, 0, 1)).2.vertexArray.length = 9
      ∧ (extrude reverse centredSquareEdges ⟨Mode.Merge⟩ centredSquare
          (0, 0, 1)).2.primitiveSetList
          = (reverse ⟨PrimitiveMode.TRIANGLES, [0, 1, 2, 0, 2, 3, 0, 3, 4, 0, 4, 1]⟩).toList
              ++ [⟨PrimitiveMode.TRIANGLE_STRIP, [5, 1, 6, 2, 7, 3, 8, 4, 5, 1]⟩]
      ∧ (extrudeWithMode reverse Mode.Merge centredSquare ((0, 0, 1) : Vec3)
          [[1, 2, 3, 4]]).vertexArray.length = 10
      ∧ (extrudeWithMode reverse Mode.Merge centredSquare ((0, 0, 1) : Vec3)
          [[1, 2, 3, 4]]).primitiveSetList
          = [⟨PrimitiveMode.TRIANGLES, [5, 6, 7, 5, 7, 8, 5, 8, 9, 5, 9, 6]⟩]
              ++ (reverse ⟨PrimitiveMode.TRIANGLES,
                    [5, 6, 7, 5, 7, 8, 5, 8, 9, 5, 9, 6]⟩).toList
              ++ [⟨PrimitiveMode.TRIANGLE_STRIP, [6, 1, 7, 2, 8, 3, 9, 4, 6, 1]⟩] := by
  rw [extrude_of_loops reverse centredSquareEdges ⟨Mode.Merge⟩ centredSquare (0, 0, 1)
    [[1, 2, 3, 4]] (by decide) rfl]
  refine ⟨rfl, ?_, ?_, ?_, ?_⟩
  · simp [extrudeWithMode, extrudeVertices, ExtrudeRangeOperator.process, length_addRange,
      length_duplicateLoops, centredSquare]
  · cases hr : reverse ⟨PrimitiveMode.TRIANGLES, [0, 1, 2, 0, 2, 3, 0, 3, 4, 0, 4, 1]⟩ <;>
      simp [extrudeWithMode, extrudeVertices, makeTopPrimitives, linkEdgeloops, duplicateLoops,
        centredSquare, hr, linkAsTriangleStrip, interleave, List.range_succ]
  · simp [extrudeWithMode, extrudeVertices, ExtrudeRangeOperator.process, length_addRange,
      DuplicateOperator.process, centredSquare]
  · cases hr : reverse ⟨PrimitiveMode.TRIANGLES, [5, 6, 7, 5, 7, 8, 5, 8, 9, 5, 9, 6]⟩ <;>
      simp [extrudeWithMode, extrudeVertices, makeTopPrimitives, linkEdgeloops, OffsetIndices,
        centredSquare, hr, linkAsTriangleStrip, interleave]

/-! ## Bilinear sampling: the claims -/

/-- C8: at an exact grid point `(i, j)` of a heightfield with non-zero
intervals, `getInterpolatedValue` returns `getHeight(i, j)`: both fractional
remainders are `0`, so the lower-left corner has weight `1` and the other three
corners weight `0`. -/
theorem getInterpolatedValue_gridPoint (hf : HeightField) (i j : Nat)
    (hx : hf.xInterval ≠ 0) (hy : hf.yInterval ≠ 0)
    (hi : i < hf.numColumns) (hj : j < hf.numRows) :
    getInterpolatedValue hf (hf.originX + i * hf.xInterval) (hf.originY + j * hf.yInterval)
        = hf.getHeight i j
      ∧ remainders (hf.toGrid (hf.originX + i * hf.xInterval) (hf.originY + j * hf.yInterval)).1
          (hf.toGrid (hf.originX + i * hf.xInterval) (hf.originY + j * hf.yInterval)).2 = (0, 0)
      ∧ cornerWeights 0 0 = (1, 0, 0, 0) := by
  have hg := toGrid_gridPoint hf i j hx hy
  have hk := cornerIndices_natCast hf.numColumns hf.numRows i j hi hj
  have hrem : remainders (i : ℚ) (j : ℚ) = (0, 0) := by
    simp [remainders, truncate_natCast]
  refine ⟨?_, ?_, ?_⟩
  · simp only [getInterpolatedValue, hg, hk, hrem, Int.toNat_ofNat, blend]
    ring
  · rw [hg]; exact hrem
  · simp [cornerWeights]

/-- Witness of C8: grid point `(1, 1)` of the 2x2 corner field. -/
theorem getInterpolatedValue_gridPoint_witness :
    getInterpolatedValue cornerField
        (cornerField.originX + (1 : Nat) * cornerField.xInterval)
        (cornerField.originY + (1 : Nat) * cornerField.yInterval)
      = cornerField.getHeight 1 1 :=
  (getInterpolatedValue_gridPoint cornerField 1 1 (by simp [cornerField]) (by simp [cornerField])
    (by decide) (by decide)).1

/-- C9: the 2x2 heightfield with origin `(0, 0)`, unit intervals and heights
`{0, 0}` / `{0, 10}` sampled at `(0.5, 0.5)` gives `2.5` (every intermediate
value, `0.5`, `0.25`, `10`, `2.5`, is a binary fraction, so the exact result is
also the floating-point one). -/
theorem getInterpolatedValue_cornerField :
    getInterpolatedValue cornerField (1 / 2) (1 / 2) = 5 / 2 := by
  have hfl : ⌊(1 / 2 : ℚ)⌋ = 0 := by rw [Int.floor_eq_iff]; norm_num
  have hce : ⌈(1 / 2 : ℚ)⌉ = 1 := by rw [Int.ceil_eq_iff]; norm_num
  have hpos : (0 : ℚ) ≤ 1 / 2 := by norm_num
  have hk : cornerIndices 2 2 (1 / 2 : ℚ) (1 / 2 : ℚ) = (0, 1, 0, 1) := by
    simp only [cornerIndices, hfl, hce]
    rfl
  have hrem : remainders (1 / 2 : ℚ) (1 / 2 : ℚ) = (1 / 2, 1 / 2) := by
    simp only [remainders, truncate, if_pos hpos, hfl]
    norm_num
  have hg : cornerField.toGrid (1 / 2) (1 / 2) = (1 / 2, 1 / 2) := by
    simp [HeightField.toGrid, cornerField]
  simp only [getInterpolatedValue, hg]
  rw [show (cornerField.numColumns : ℤ) = 2 from rfl, show (cornerField.numRows : ℤ) = 2 from rfl,
    hk, hrem]
  simp only [blend, HeightField.getHeight, cornerField]
  norm_num

theorem RoundsLikeDouble.zero {fd : ℚ → ℚ} (h : RoundsLikeDouble fd) : fd 0 = 0 := h.2.1

theorem RoundsLikeDouble.nonneg {fd : ℚ → ℚ} (h : RoundsLikeDouble fd) (x : ℚ) (hx : 0 ≤ x) :
    0 ≤ fd x := by
  have := h.1 hx
  rwa [h.zero] at this

theorem RoundsLikeDouble.le_mul {fd : ℚ → ℚ} (h : RoundsLikeDouble fd) (x : ℚ)
    (hx : x = 0 ∨ 1 / 2 ^ 1022 ≤ x) : fd x ≤ x * (1 + 1 / 2 ^ 53) := by
  rcases hx with rfl | hx
  · rw [h.zero]; norm_num
  · have hx0 : 0 < x := lt_of_lt_of_le (by positivity) hx
    have h1 := h.2.2 x (by rwa [abs_of_pos hx0])
    rw [abs_of_pos hx0] at h1
    have h2 := (abs_le.1 h1).2
    have : x * (1 + 1 / 2 ^ 53) = x + x / 2 ^ 53 := by ring
    linarith

/-- A width of at least `2^-1021` is rounded to a divisor of the normal
range. -/
theorem RoundsLikeDouble.normal {fd : ℚ → ℚ} (h : RoundsLikeDouble fd) (x : ℚ)
    (hx : 1 / 2 ^ 1021 ≤ x) : 1 / 2 ^ 1022 ≤ fd x := by
  have hx0 : 0 < x := lt_of_lt_of_le (by positivity) hx
  have hx1 : (1 : ℚ) / 2 ^ 1022 ≤ x := le_trans (by norm_num) hx
  have h1 := h.2.2 x (by rwa [abs_of_pos hx0])
  rw [abs_of_pos hx0] at h1
  have h2 := (abs_le.1 h1).1
  have h3 : x / 2 ^ 53 ≤ x / 2 := by
    apply div_le_div_of_nonneg_left hx0.le (by norm_num) (by norm_num)
  have h4 : (1 : ℚ) / 2 ^ 1022 = 1 / 2 ^ 1021 / 2 := by norm_num
  linarith

theorem RoundsLikeFloat.int {fl : ℚ → ℚ} (h : RoundsLikeFloat fl) (n : ℤ)
    (hn : |(n : ℚ)| ≤ 2 ^ 24) : fl (n : ℚ) = (n : ℚ) := by
  have := h.2 n (n : ℚ) hn
  rw [sub_self, abs_zero] at this
  have h0 := abs_nonneg (fl (n : ℚ) - (n : ℚ))
  have : fl (n : ℚ) - (n : ℚ) = 0 := abs_eq_zero.1 (le_antisymm this h0)
  linarith

theorem roundsLikeDouble_id : RoundsLikeDouble id :=
  ⟨monotone_id, rfl, fun x _ => by simp only [id, sub_self, abs_zero]; positivity⟩

theorem roundsLikeFloat_id : RoundsLikeFloat id :=
  ⟨monotone_id, fun n x _ => by simp only [id, sub_self, abs_zero]; exact abs_nonneg _⟩

theorem roundHalfEven_intCast (m : ℤ) : roundHalfEven (m : ℚ) = m := by
  simp [roundHalfEven]

theorem roundBinary32_eq : roundBinary32 = roundBinary 23 (-126) := rfl

theorem roundBinary64_eq : roundBinary64 = roundBinary 52 (-1022) := rfl

theorem roundHalfEven_bounds (y : ℚ) :
    ⌊y⌋ ≤ roundHalfEven y ∧ roundHalfEven y ≤ ⌊y⌋ + 1 := by
  unfold roundHalfEven
  split_ifs <;> constructor <;> omega

theorem roundHalfEven_nearest (y : ℚ) (m : ℤ) :
    |(roundHalfEven y : ℚ) - y| ≤ |(m : ℚ) - y| := by
  have hf1 := Int.floor_le y
  have hf2 := Int.lt_floor_add_one y
  have h3 := le_abs_self ((m : ℚ) - y)
  have h4 := neg_le_abs ((m : ℚ) - y)
  rcases le_or_lt m ⌊y⌋ with hm | hm
  · have hmq : (m : ℚ) ≤ (⌊y⌋ : ℚ) := by exact_mod_cast hm
    unfold roundHalfEven
    split_ifs <;> push_cast <;> rw [abs_le] <;> constructor <;> linarith
  · have hmq : (⌊y⌋ : ℚ) + 1 ≤ (m : ℚ) := by exact_mod_cast hm
    unfold roundHalfEven
    split_ifs <;> push_cast <;> rw [abs_le] <;> constructor <;> linarith

theorem roundHalfEven_half (y : ℚ) : |(roundHalfEven y : ℚ) - y| ≤ 1 / 2 := by
  have hf1 := Int.floor_le y
  have hf2 := Int.lt_floor_add_one y
  unfold roundHalfEven
  split_ifs <;> push_cast <;> rw [abs_le] <;> constructor <;> linarith

theorem roundHalfEven_mono {a b : ℚ} (h : a ≤ b) : roundHalfEven a ≤ roundHalfEven b := by
  have hfl : ⌊a⌋ ≤ ⌊b⌋ := Int.floor_mono h
  rcases eq_or_lt_of_le hfl with heq | hlt
  · simp only [roundHalfEven, heq]
    split_ifs <;> first | omega | (exfalso; linarith)
  · have h1 := (roundHalfEven_bounds a).2
    have h2 := (roundHalfEven_bounds b).1
    omega

theorem roundHalfEven_neg (y : ℚ) : roundHalfEven (-y) = -roundHalfEven y := by
  by_cases hy : ((⌊y⌋ : ℤ) : ℚ) = y
  · rw [← hy, ← Int.cast_neg, roundHalfEven_intCast, roundHalfEven_intCast]
  · have hf1 := Int.floor_le y
    have hf2 := Int.lt_floor_add_one y
    have hlt : ((⌊y⌋ : ℤ) : ℚ) < y := lt_of_le_of_ne hf1 hy
    have hfn : ⌊-y⌋ = -⌊y⌋ - 1 := by
      rw [Int.floor_eq_iff]
      push_cast
      constructor <;> linarith
    simp only [roundHalfEven, hfn]
    push_cast
    split_ifs <;> first | omega | (exfalso; linarith)


theorem roundBinary_neg (p : ℕ) (emin : ℤ) (q : ℚ) :
    roundBinary p emin (-q) = -roundBinary p emin q := by
  by_cases hq : q = 0
  · simp [roundBinary, hq]
  · have hq2 : -q ≠ 0 := neg_ne_zero.2 hq
    simp only [roundBinary, if_neg hq, if_neg hq2, abs_neg, neg_div, roundHalfEven_neg]
    push_cast
    ring

theorem roundBinary_nonneg (p : ℕ) (emin : ℤ) (q : ℚ) (hq : 0 ≤ q) :
    0 ≤ roundBinary p emin q := by
  by_cases h0 : q = 0
  · simp [roundBinary, h0]
  · simp only [roundBinary, if_neg h0]
    apply mul_nonneg _ (by positivity)
    have h1 : (0 : ℚ) ≤ q / (2 : ℚ) ^ (max (Int.log 2 |q|) emin - (p : ℤ)) := by positivity
    have h2 := roundHalfEven_mono h1
    rw [show (0 : ℚ) = ((0 : ℤ) : ℚ) by norm_num, roundHalfEven_intCast] at h2
    exact_mod_cast h2

theorem two_pow_mul_zpow (k : ℕ) (a b : ℤ) (h : a + (k : ℤ) = b) :
    ((2 ^ k : ℤ) : ℚ) * (2 : ℚ) ^ a = (2 : ℚ) ^ b := by
  push_cast
  rw [← zpow_natCast, ← zpow_add₀ (by norm_num : (2 : ℚ) ≠ 0), ← h, add_comm]

/-- A positive value is rounded to at most the power of two above it. -/
theorem roundBinary_le_pow (p : ℕ) (emin : ℤ) (q : ℚ) (hq : 0 < q) :
    roundBinary p emin q ≤ (2 : ℚ) ^ (max (Int.log 2 |q|) emin + 1) := by
  have hb : 1 < 2 := by norm_num
  have h1 : q < (2 : ℚ) ^ (Int.log 2 |q| + 1) := by
    have := Int.lt_zpow_succ_log_self hb |q|
    rw [abs_of_pos hq] at this ⊢
    exact_mod_cast this
  have h2 : (2 : ℚ) ^ (Int.log 2 |q| + 1) ≤ (2 : ℚ) ^ (max (Int.log 2 |q|) emin + 1) :=
    zpow_le_zpow_right₀ (by norm_num) (by have := le_max_left (Int.log 2 |q|) emin; omega)
  simp only [roundBinary, if_neg hq.ne']
  generalize max (Int.log 2 |q|) emin = e at *
  have hg : (0 : ℚ) < (2 : ℚ) ^ (e - (p : ℤ)) := by positivity
  have h3 : q / (2 : ℚ) ^ (e - (p : ℤ)) ≤ ((2 ^ (p + 1) : ℤ) : ℚ) := by
    rw [div_le_iff₀ hg, two_pow_mul_zpow (p + 1) (e - (p : ℤ)) (e + 1) (by push_cast; ring)]
    linarith
  have h4 := roundHalfEven_mono h3
  rw [roundHalfEven_intCast] at h4
  calc (roundHalfEven (q / (2 : ℚ) ^ (e - (p : ℤ))) : ℚ) * (2 : ℚ) ^ (e - (p : ℤ))
      ≤ ((2 ^ (p + 1) : ℤ) : ℚ) * (2 : ℚ) ^ (e - (p : ℤ)) :=
        mul_le_mul_of_nonneg_right (by exact_mod_cast h4) hg.le
    _ = (2 : ℚ) ^ (e + 1) := two_pow_mul_zpow (p + 1) _ _ (by push_cast; ring)

/-- A positive value of the normal range is rounded to at least the power of
two below it. -/
theorem roundBinary_pow_le (p : ℕ) (emin : ℤ) (q : ℚ) (hq : 0 < q)
    (h : (2 : ℚ) ^ (max (Int.log 2 |q|) emin) ≤ q) :
    (2 : ℚ) ^ (max (Int.log 2 |q|) emin) ≤ roundBinary p emin q := by
  simp only [roundBinary, if_neg hq.ne']
  generalize max (Int.log 2 |q|) emin = e at *
  have hg : (0 : ℚ) < (2 : ℚ) ^ (e - (p : ℤ)) := by positivity
  have h3 : ((2 ^ p : ℤ) : ℚ) ≤ q / (2 : ℚ) ^ (e - (p : ℤ)) := by
    rw [le_div_iff₀ hg, two_pow_mul_zpow p (e - (p : ℤ)) e (by ring)]
    exact h
  have h4 := roundHalfEven_mono h3
  rw [roundHalfEven_intCast] at h4
  calc (2 : ℚ) ^ e = ((2 ^ p : ℤ) : ℚ) * (2 : ℚ) ^ (e - (p : ℤ)) :=
        (two_pow_mul_zpow p _ _ (by ring)).symm
    _ ≤ (roundHalfEven (q / (2 : ℚ) ^ (e - (p : ℤ))) : ℚ) * (2 : ℚ) ^ (e - (p : ℤ)) :=
        mul_le_mul_of_nonneg_right (by exact_mod_cast h4) hg.le

theorem roundBinary_mono_pos (p : ℕ) (emin : ℤ) (a b : ℚ) (ha : 0 < a) (hab : a ≤ b) :
    roundBinary p emin a ≤ roundBinary p emin b := by
  have hb : 0 < b := lt_of_lt_of_le ha hab
  have h2 : 1 < 2 := by norm_num
  have hlog : Int.log 2 |a| ≤ Int.log 2 |b| := by
    apply Int.log_mono_right (abs_pos.2 ha.ne')
    rw [abs_of_pos ha, abs_of_pos hb]
    exact hab
  have hle : max (Int.log 2 |a|) emin ≤ max (Int.log 2 |b|) emin := max_le_max hlog le_rfl
  rcases eq_or_lt_of_le hle with heq | hlt
  · simp only [roundBinary, if_neg ha.ne', if_neg hb.ne', heq]
    have hg : (0 : ℚ) < (2 : ℚ) ^ (max (Int.log 2 |b|) emin - (p : ℤ)) := by positivity
    apply mul_le_mul_of_nonneg_right _ hg.le
    have := roundHalfEven_mono (div_le_div_of_nonneg_right hab hg.le)
    exact_mod_cast this
  · have hnorm : max (Int.log 2 |b|) emin = Int.log 2 |b| := by
      have := le_max_right (Int.log 2 |a|) emin
      rcases max_choice (Int.log 2 |b|) emin with h | h
      · exact h
      · omega
    have hbl : (2 : ℚ) ^ (max (Int.log 2 |b|) emin) ≤ b := by
      rw [hnorm]
      have := Int.zpow_log_le_self h2 (abs_pos.2 hb.ne')
      rw [abs_of_pos hb] at this ⊢
      exact_mod_cast this
    calc roundBinary p emin a ≤ (2 : ℚ) ^ (max (Int.log 2 |a|) emin + 1) :=
          roundBinary_le_pow p emin a ha
      _ ≤ (2 : ℚ) ^ (max (Int.log 2 |b|) emin) :=
          zpow_le_zpow_right₀ (by norm_num) (by omega)
      _ ≤ roundBinary p emin b := roundBinary_pow_le p emin b hb hbl

theorem roundBinary_mono (p : ℕ) (emin : ℤ) : Monotone (roundBinary p emin) := by
  intro a b hab
  rcases lt_or_le 0 a with ha | ha
  · exact roundBinary_mono_pos p emin a b ha hab
  · have h1 : roundBinary p emin a ≤ 0 := by
      have := roundBinary_nonneg p emin (-a) (by linarith)
      rw [roundBinary_neg] at this
      linarith
    rcases lt_or_le b 0 with hb | hb
    · have := roundBinary_mono_pos p emin (-b) (-a) (by linarith) (by linarith)
      rw [roundBinary_neg, roundBinary_neg] at this
      linarith
    · exact h1.trans (roundBinary_nonneg p emin b hb)

/-- In the normal range the rounding has a relative error of at most
`2^-(p+1)`. -/
theorem roundBinary_relative (p : ℕ) (emin : ℤ) (q : ℚ) (h : (2 : ℚ) ^ emin ≤ |q|) :
    |roundBinary p emin q - q| ≤ |q| / 2 ^ (p + 1) := by
  have h2 : 1 < 2 := by norm_num
  have hpos : 0 < |q| := lt_of_lt_of_le (by positivity) h
  have hq : q ≠ 0 := abs_pos.1 hpos
  have hlog : emin ≤ Int.log 2 |q| := (Int.zpow_le_iff_le_log h2 hpos).1 (by exact_mod_cast h)
  have hL : (2 : ℚ) ^ (Int.log 2 |q|) ≤ |q| := by
    have := Int.zpow_log_le_self h2 hpos
    exact_mod_cast this
  simp only [roundBinary, if_neg hq, max_eq_left hlog]
  generalize Int.log 2 |q| = e at *
  have hg : (0 : ℚ) < (2 : ℚ) ^ (e - (p : ℤ)) := by positivity
  have hsplit : (2 : ℚ) ^ e = (2 : ℚ) ^ p * (2 : ℚ) ^ (e - (p : ℤ)) := by
    have := two_pow_mul_zpow p (e - (p : ℤ)) e (by ring)
    push_cast at this
    exact this.symm
  have hy : q / (2 : ℚ) ^ (e - (p : ℤ)) * (2 : ℚ) ^ (e - (p : ℤ)) = q :=
    div_mul_cancel₀ q hg.ne'
  have hmul : (roundHalfEven (q / (2 : ℚ) ^ (e - (p : ℤ))) : ℚ) * (2 : ℚ) ^ (e - (p : ℤ)) - q
      = ((roundHalfEven (q / (2 : ℚ) ^ (e - (p : ℤ))) : ℚ) - q / (2 : ℚ) ^ (e - (p : ℤ)))
        * (2 : ℚ) ^ (e - (p : ℤ)) := by
    rw [sub_mul, hy]
  rw [hmul, abs_mul, abs_of_pos hg, le_div_iff₀ (by positivity)]
  have hhalf := roundHalfEven_half (q / (2 : ℚ) ^ (e - (p : ℤ)))
  have hp : (0 : ℚ) < (2 : ℚ) ^ p := by positivity
  calc |(roundHalfEven (q / (2 : ℚ) ^ (e - (p : ℤ))) : ℚ) - q / (2 : ℚ) ^ (e - (p : ℤ))|
        * (2 : ℚ) ^ (e - (p : ℤ)) * 2 ^ (p + 1)
      ≤ 1 / 2 * (2 : ℚ) ^ (e - (p : ℤ)) * 2 ^ (p + 1) := by
        apply mul_le_mul_of_nonneg_right _ (by positivity)
        exact mul_le_mul_of_nonneg_right hhalf hg.le
    _ = (2 : ℚ) ^ e := by rw [hsplit, pow_succ]; ring
    _ ≤ |q| := hL

/-- No integer of magnitude up to `2^(p+1)` is nearer to `x` than the rounded
`x`: each of them is a value of the format. -/
theorem roundBinary_nearest_pos (p : ℕ) (emin : ℤ) (hemin : emin ≤ (p : ℤ)) (n : ℤ) (x : ℚ)
    (hx : 0 < x) (hn : |(n : ℚ)| ≤ 2 ^ (p + 1)) :
    |roundBinary p emin x - x| ≤ |(n : ℚ) - x| := by
  have h2 : 1 < 2 := by norm_num
  have hax : |x| = x := abs_of_pos hx
  simp only [roundBinary, if_neg hx.ne']
  set e : ℤ := max (Int.log 2 |x|) emin with he
  have hg : (0 : ℚ) < (2 : ℚ) ^ (e - (p : ℤ)) := by positivity
  have hy : x / (2 : ℚ) ^ (e - (p : ℤ)) * (2 : ℚ) ^ (e - (p : ℤ)) = x :=
    div_mul_cancel₀ x hg.ne'
  have hmul : ∀ m : ℚ, m * (2 : ℚ) ^ (e - (p : ℤ)) - x
      = (m - x / (2 : ℚ) ^ (e - (p : ℤ))) * (2 : ℚ) ^ (e - (p : ℤ)) := by
    intro m
    rw [sub_mul, hy]
  rcases le_or_lt e (p : ℤ) with hep | hep
  · -- every integer is on the grid of `x`
    obtain ⟨k, hk⟩ : ∃ k : ℕ, (k : ℤ) = (p : ℤ) - e := ⟨((p : ℤ) - e).toNat, by omega⟩
    have hone : ((2 ^ k : ℤ) : ℚ) * (2 : ℚ) ^ (e - (p : ℤ)) = 1 := by
      rw [two_pow_mul_zpow k (e - (p : ℤ)) 0 (by omega)]
      simp
    have hm : ((n * 2 ^ k : ℤ) : ℚ) * (2 : ℚ) ^ (e - (p : ℤ)) = (n : ℚ) := by
      rw [Int.cast_mul, mul_assoc, hone, mul_one]
    have hnear := roundHalfEven_nearest (x / (2 : ℚ) ^ (e - (p : ℤ))) (n * 2 ^ k)
    rw [hmul, abs_mul, abs_of_pos hg, ← hm, hmul, abs_mul, abs_of_pos hg]
    exact mul_le_mul_of_nonneg_right hnear hg.le
  · -- `x` is at least `2^(p+1)`, and `2^e` is on its grid
    have hnorm : e = Int.log 2 |x| := by
      rcases max_choice (Int.log 2 |x|) emin with h | h
      · rw [he, h]
      · rw [he, h] at hep
        omega
    have hL : (2 : ℚ) ^ e ≤ x := by
      rw [hnorm]
      have := Int.zpow_log_le_self h2 (abs_pos.2 hx.ne')
      rw [hax] at this ⊢
      exact_mod_cast this
    have hpe : (2 : ℚ) ^ (p + 1) ≤ (2 : ℚ) ^ e := by
      rw [← zpow_natCast]
      exact zpow_le_zpow_right₀ (by norm_num) (by push_cast; omega)
    have hgrid : ((2 ^ p : ℤ) : ℚ) * (2 : ℚ) ^ (e - (p : ℤ)) = (2 : ℚ) ^ e :=
      two_pow_mul_zpow p _ _ (by ring)
    have hnear := roundHalfEven_nearest (x / (2 : ℚ) ^ (e - (p : ℤ))) (2 ^ p)
    have h1 : |(roundHalfEven (x / (2 : ℚ) ^ (e - (p : ℤ))) : ℚ) * (2 : ℚ) ^ (e - (p : ℤ)) - x|
        ≤ |(2 : ℚ) ^ e - x| := by
      rw [hmul, abs_mul, abs_of_pos hg, ← hgrid, hmul, abs_mul, abs_of_pos hg]
      exact mul_le_mul_of_nonneg_right hnear hg.le
    have h3 : |(2 : ℚ) ^ e - x| = x - (2 : ℚ) ^ e := by
      rw [abs_of_nonpos (by linarith)]
      ring
    have h4 : (n : ℚ) ≤ (2 : ℚ) ^ (p + 1) := (le_abs_self _).trans hn
    have h5 := neg_le_abs ((n : ℚ) - x)
    linarith

theorem roundBinary_nearest (p : ℕ) (emin : ℤ) (hemin : emin ≤ (p : ℤ)) (n : ℤ) (x : ℚ)
    (hn : |(n : ℚ)| ≤ 2 ^ (p + 1)) :
    |roundBinary p emin x - x| ≤ |(n : ℚ) - x| := by
  rcases lt_trichotomy x 0 with hx | hx | hx
  · have := roundBinary_nearest_pos p emin hemin (-n) (-x) (by linarith)
      (by push_cast; rwa [abs_neg])
    rw [roundBinary_neg] at this
    have e1 : -roundBinary p emin x - -x = -(roundBinary p emin x - x) := by ring
    have e2 : ((-n : ℤ) : ℚ) - -x = -((n : ℚ) - x) := by push_cast; ring
    rwa [e1, e2, abs_neg, abs_neg] at this
  · subst hx
    simp [roundBinary]
  · exact roundBinary_nearest_pos p emin hemin n x hx hn

/-- IEEE 754 binary32 round-to-nearest-even is a rounding of conversions to
`float`. -/
theorem roundsLikeFloat_binary32 : RoundsLikeFloat roundBinary32 := by
  rw [roundBinary32_eq]
  exact ⟨roundBinary_mono 23 (-126), fun n x hn =>
    roundBinary_nearest 23 (-126) (by norm_num) n x (by norm_num at hn ⊢; exact hn)⟩

/-- IEEE 754 binary64 round-to-nearest-even is a rounding of `double`
operations. -/
theorem roundsLikeDouble_binary64 : RoundsLikeDouble roundBinary64 := by
  rw [roundBinary64_eq]
  refine ⟨roundBinary_mono 52 (-1022), by simp [roundBinary], fun x hx => ?_⟩
  have e : ((1022 : ℕ) : ℤ) = 1022 := rfl
  exact roundBinary_relative 52 (-1022) x (by
    rw [zpow_neg, ← one_div, ← e, zpow_natCast]
    exact hx)

theorem truncate_intCast (k : ℤ) : truncate ((k : ℤ) : ℚ) = k := by
  simp only [truncate]
  split_ifs <;> simp

theorem floorInt_some (v : ℚ) (h0 : 0 ≤ v) (h1 : v < 2147483648) :
    floorInt (some v) = ⌊v⌋ := by
  have a : 0 ≤ ⌊v⌋ := Int.floor_nonneg.2 h0
  have b : ⌊v⌋ < 2147483648 := by
    have : ((⌊v⌋ : ℤ) : ℚ) < ((2147483648 : ℤ) : ℚ) := by
      have := Int.floor_le v
      push_cast
      linarith
    exact_mod_cast this
  simp only [floorInt, Option.map_some', floatToInt, truncate_intCast]
  rw [if_pos (by omega)]

theorem ceilInt_some (v : ℚ) (h0 : 0 ≤ v) (h1 : v ≤ 2147483647) :
    ceilInt (some v) = ⌈v⌉ := by
  have a : 0 ≤ ⌈v⌉ := Int.ceil_nonneg h0
  have b : ⌈v⌉ ≤ 2147483647 := by
    apply Int.ceil_le.2
    push_cast
    exact h1
  simp only [ceilInt, Option.map_some', floatToInt, truncate_intCast]
  rw [if_pos (by omega)]

/-- One axis of the window mapping under IEEE-like rounding: for a size `n` up
to `2^24`, a divisor `den` of the normal range and numerators
`0 ≤ num ≤ num' ≤ den`, both proportions are defined, ordered and within
`[0, n + 1)`. -/
theorem windowProportion_bounds (fl fd : ℚ → ℚ) (hfl : RoundsLikeFloat fl)
    (hfd : RoundsLikeDouble fd) (n : ℤ) (hn0 : 0 ≤ n) (hn : n ≤ 16777216) (num num' den : ℚ)
    (h0 : 0 ≤ num) (h1 : num ≤ num') (h2 : num' ≤ den) (hnormal : 1 / 2 ^ 1022 ≤ den) :
    ∃ v v' : ℚ, windowProportion fl fd n num den = some v
      ∧ windowProportion fl fd n num' den = some v'
      ∧ 0 ≤ v ∧ v ≤ v' ∧ v' < (n : ℚ) + 1 := by
  have hden : 0 < den := lt_of_lt_of_le (by positivity) hnormal
  have hnq0 : (0 : ℚ) ≤ (n : ℚ) := by exact_mod_cast hn0
  have hnq : (n : ℚ) ≤ 16777216 := by exact_mod_cast hn
  have hn01 : (n : ℚ) = 0 ∨ 1 ≤ (n : ℚ) := by
    rcases eq_or_lt_of_le hn0 with h | h
    · left; rw [← h]; norm_num
    · right; exact_mod_cast h
  have hnabs : |(n : ℚ)| ≤ 2 ^ 24 := by rw [abs_of_nonneg hnq0]; norm_num; exact hnq
  have hfn : fl (n : ℚ) = (n : ℚ) := hfl.int n hnabs
  have hfl0 : fl 0 = 0 := by
    have := hfl.int 0 (by norm_num)
    simpa using this
  refine ⟨fl (fd (fd (fl (n : ℚ) * num) / den)), fl (fd (fd (fl (n : ℚ) * num') / den)),
    by simp only [windowProportion, if_neg hden.ne'],
    by simp only [windowProportion, if_neg hden.ne'], ?_, ?_, ?_⟩
  · rw [hfn]
    have a : 0 ≤ fd ((n : ℚ) * num) := hfd.nonneg _ (mul_nonneg hnq0 h0)
    have b : 0 ≤ fd (fd ((n : ℚ) * num) / den) := hfd.nonneg _ (div_nonneg a hden.le)
    have := hfl.1 b
    rwa [hfl0] at this
  · rw [hfn]
    apply hfl.1
    apply hfd.1
    apply div_le_div_of_nonneg_right _ hden.le
    apply hfd.1
    exact mul_le_mul_of_nonneg_left h1 hnq0
  · rw [hfn]
    set u : ℚ := 1 + 1 / 2 ^ 53 with hu
    have hu0 : 0 ≤ u := by rw [hu]; positivity
    have p1 : fd ((n : ℚ) * num') ≤ fd ((n : ℚ) * den) :=
      hfd.1 (mul_le_mul_of_nonneg_left h2 hnq0)
    have p2 : fd ((n : ℚ) * den) ≤ (n : ℚ) * den * u := by
      apply hfd.le_mul
      rcases hn01 with h | h
      · left; rw [h, zero_mul]
      · right
        calc (1 : ℚ) / 2 ^ 1022 ≤ den := hnormal
          _ = 1 * den := (one_mul den).symm
          _ ≤ (n : ℚ) * den := mul_le_mul_of_nonneg_right h hden.le
    have p3 : fd ((n : ℚ) * num') / den ≤ (n : ℚ) * u := by
      rw [div_le_iff₀ hden]
      calc fd ((n : ℚ) * num') ≤ (n : ℚ) * den * u := p1.trans p2
        _ = (n : ℚ) * u * den := by ring
    have p4 : fd (fd ((n : ℚ) * num') / den) ≤ fd ((n : ℚ) * u) := hfd.1 p3
    have p5 : fd ((n : ℚ) * u) ≤ (n : ℚ) * u * u := by
      apply hfd.le_mul
      rcases hn01 with h | h
      · left; rw [h, zero_mul]
      · right
        have hu1 : (1 : ℚ) ≤ u := by rw [hu]; norm_num
        calc (1 : ℚ) / 2 ^ 1022 ≤ 1 * 1 := by norm_num
          _ ≤ (n : ℚ) * u := mul_le_mul h hu1 (by norm_num) hnq0
    have p6 : fl (fd (fd ((n : ℚ) * num') / den)) ≤ fl ((n : ℚ) * u * u) :=
      hfl.1 (p4.trans p5)
    have p7 := hfl.2 n ((n : ℚ) * u * u) hnabs
    have hx : (n : ℚ) ≤ (n : ℚ) * u * u := by
      have : (n : ℚ) * u * u = (n : ℚ) + (n : ℚ) * (u * u - 1) := by ring
      rw [this]
      have : 0 ≤ u * u - 1 := by rw [hu]; norm_num
      nlinarith
    rw [abs_of_nonpos (by linarith : (n : ℚ) - (n : ℚ) * u * u ≤ 0)] at p7
    have p8 := (abs_le.1 p7).2
    have hsmall : (n : ℚ) * u * u - (n : ℚ) ≤ 16777216 * (u * u - 1) := by
      have : (n : ℚ) * u * u - (n : ℚ) = (n : ℚ) * (u * u - 1) := by ring
      rw [this]
      apply mul_le_mul_of_nonneg_right hnq
      rw [hu]; norm_num
    have hval : (16777216 : ℚ) * (u * u - 1) < 1 / 4 := by rw [hu]; norm_num
    have hX : (n : ℚ) * u * u - (n : ℚ) < 1 / 4 := lt_of_le_of_lt hsmall hval
    generalize (n : ℚ) * u * u = X at p6 p8 hX
    linarith

/-- The clamps of one axis of the window mapping once both proportions are
ordered and within `[0, n + 1)`. -/
theorem axis_bounds (n : ℤ) (hn : n ≤ 16777216) (v v' : ℚ) (h0 : 0 ≤ v)
    (h1 : v ≤ v') (h2 : v' < (n : ℚ) + 1) :
    0 ≤ max (floorInt (some v)) 0
      ∧ 0 ≤ min (ceilInt (some v')) n - max (floorInt (some v)) 0
      ∧ min (ceilInt (some v')) n - max (floorInt (some v)) 0 ≤ n
      ∧ max (floorInt (some v)) 0 + (min (ceilInt (some v')) n - max (floorInt (some v)) 0)
          ≤ n := by
  have hnq : (n : ℚ) ≤ 16777216 := by exact_mod_cast hn
  rw [floorInt_some v h0 (by linarith), ceilInt_some v' (h0.trans h1) (by linarith)]
  have a0 : 0 ≤ ⌊v⌋ := Int.floor_nonneg.2 h0
  have a1 : ⌊v⌋ ≤ ⌈v'⌉ := by
    have : ((⌊v⌋ : ℤ) : ℚ) ≤ ((⌈v'⌉ : ℤ) : ℚ) :=
      le_trans (Int.floor_le v) (le_trans h1 (Int.le_ceil v'))
    exact_mod_cast this
  have a2 : ⌊v⌋ ≤ n := by
    have : ⌊v⌋ < n + 1 := by
      rw [Int.floor_lt]
      push_cast
      linarith
    omega
  omega

theorem intersection_valid_iff (d e : GeospatialExtents) (xoffset : ℚ) :
    (d.intersection e xoffset).valid = true ↔
      max d.xMin (e.xMin + xoffset) ≤ min d.xMax (e.xMax + xoffset)
        ∧ max d.yMin e.yMin ≤ min d.yMax e.yMax := by
  simp [GeospatialExtents.valid, GeospatialExtents.intersection]

/-- The clamps alone: whatever the rounding and the extents, the origin of the
destination window is not negative and its far edge does not pass the buffer. -/
theorem destWindow_clamps (fl fd : ℚ → ℚ) (s t : ℤ) (d_bb ib : GeospatialExtents) :
    0 ≤ (destWindow fl fd s t d_bb ib).x ∧ 0 ≤ (destWindow fl fd s t d_bb ib).y
      ∧ (destWindow fl fd s t d_bb ib).x + (destWindow fl fd s t d_bb ib).width ≤ s
      ∧ (destWindow fl fd s t d_bb ib).y + (destWindow fl fd s t d_bb ib).height ≤ t := by
  simp only [destWindow]
  refine ⟨le_max_right _ _, le_max_right _ _, ?_, ?_⟩ <;> omega

theorem destWindow_bounds (fl fd : ℚ → ℚ) (hfl : RoundsLikeFloat fl) (hfd : RoundsLikeDouble fd)
    (s t : ℤ) (d_bb ib : GeospatialExtents) (hs : 0 ≤ s) (ht : 0 ≤ t)
    (hs2 : s ≤ 16777216) (ht2 : t ≤ 16777216)
    (hx : 1 / 2 ^ 1021 ≤ d_bb.xMax - d_bb.xMin) (hy : 1 / 2 ^ 1021 ≤ d_bb.yMax - d_bb.yMin)
    (h1 : d_bb.xMin ≤ ib.xMin) (h2 : ib.xMin ≤ ib.xMax) (h3 : ib.xMax ≤ d_bb.xMax)
    (h4 : d_bb.yMin ≤ ib.yMin) (h5 : ib.yMin ≤ ib.yMax) (h6 : ib.yMax ≤ d_bb.yMax) :
    0 ≤ (destWindow fl fd s t d_bb ib).x ∧ 0 ≤ (destWindow fl fd s t d_bb ib).y
      ∧ 0 ≤ (destWindow fl fd s t d_bb ib).width ∧ (destWindow fl fd s t d_bb ib).width ≤ s
      ∧ 0 ≤ (destWindow fl fd s t d_bb ib).height ∧ (destWindow fl fd s t d_bb ib).height ≤ t
      ∧ (destWindow fl fd s t d_bb ib).x + (destWindow fl fd s t d_bb ib).width ≤ s
      ∧ (destWindow fl fd s t d_bb ib).y + (destWindow fl fd s t d_bb ib).height ≤ t := by
  obtain ⟨v, v', e1, e2, a1, a2, a3⟩ := windowProportion_bounds fl fd hfl hfd s hs hs2
    (fd (ib.xMin - d_bb.xMin)) (fd (ib.xMax - d_bb.xMin)) (fd (d_bb.xMax - d_bb.xMin))
    (hfd.nonneg _ (by linarith)) (hfd.1 (by linarith)) (hfd.1 (by linarith))
    (hfd.normal _ hx)
  obtain ⟨z, z', e3, e4, b1, b2, b3⟩ := windowProportion_bounds fl fd hfl hfd t ht ht2
    (fd (ib.yMin - d_bb.yMin)) (fd (ib.yMax - d_bb.yMin)) (fd (d_bb.yMax - d_bb.yMin))
    (hfd.nonneg _ (by linarith)) (hfd.1 (by linarith)) (hfd.1 (by linarith))
    (hfd.normal _ hy)
  obtain ⟨x1, x2, x3, x4⟩ := axis_bounds s hs2 v v' a1 a2 a3
  obtain ⟨y1, y2, y3, y4⟩ := axis_bounds t ht2 z z' b1 b2 b3
  simp only [destWindow, e1, e2, e3, e4]
  exact ⟨x1, y1, x2, x3, y2, y3, x4, y4⟩

theorem sourceWindow_bounds (fl fd : ℚ → ℚ) (hfl : RoundsLikeFloat fl)
    (hfd : RoundsLikeDouble fd) (nx ny : ℤ) (s_bb ib : GeospatialExtents) (xoffset : ℚ)
    (hnx : 0 ≤ nx) (hny : 0 ≤ ny) (hnx2 : nx ≤ 16777216) (hny2 : ny ≤ 16777216)
    (hrep1 : fd s_bb.xMin = s_bb.xMin) (hrep2 : fd s_bb.xMax = s_bb.xMax)
    (hx : 1 / 2 ^ 1021 ≤ s_bb.xMax - s_bb.xMin) (hy : 1 / 2 ^ 1021 ≤ s_bb.yMax - s_bb.yMin)
    (h1 : s_bb.xMin + xoffset ≤ ib.xMin) (h2 : ib.xMin ≤ ib.xMax)
    (h3 : ib.xMax ≤ s_bb.xMax + xoffset)
    (h4 : s_bb.yMin ≤ ib.yMin) (h5 : ib.yMin ≤ ib.yMax) (h6 : ib.yMax ≤ s_bb.yMax) :
    0 ≤ (sourceWindow fl fd nx ny s_bb ib xoffset).x
      ∧ 0 ≤ (sourceWindow fl fd nx ny s_bb ib xoffset).y
      ∧ 0 ≤ (sourceWindow fl fd nx ny s_bb ib xoffset).width
      ∧ 0 ≤ (sourceWindow fl fd nx ny s_bb ib xoffset).height
      ∧ (sourceWindow fl fd nx ny s_bb ib xoffset).x
          + (sourceWindow fl fd nx ny s_bb ib xoffset).width ≤ nx
      ∧ (sourceWindow fl fd nx ny s_bb ib xoffset).y
          + (sourceWindow fl fd nx ny s_bb ib xoffset).height ≤ ny := by
  have r1 : s_bb.xMin ≤ fd (ib.xMin - xoffset) := by
    have := hfd.1 (show s_bb.xMin ≤ ib.xMin - xoffset by linarith)
    rwa [hrep1] at this
  have r2 : fd (ib.xMin - xoffset) ≤ fd (ib.xMax - xoffset) := hfd.1 (by linarith)
  have r3 : fd (ib.xMax - xoffset) ≤ s_bb.xMax := by
    have := hfd.1 (show ib.xMax - xoffset ≤ s_bb.xMax by linarith)
    rwa [hrep2] at this
  obtain ⟨v, v', e1, e2, a1, a2, a3⟩ := windowProportion_bounds fl fd hfl hfd nx hnx hnx2
    (fd (fd (ib.xMin - xoffset) - s_bb.xMin)) (fd (fd (ib.xMax - xoffset) - s_bb.xMin))
    (fd (s_bb.xMax - s_bb.xMin))
    (hfd.nonneg _ (by linarith)) (hfd.1 (by linarith)) (hfd.1 (by linarith))
    (hfd.normal _ hx)
  obtain ⟨z, z', e3, e4, b1, b2, b3⟩ := windowProportion_bounds fl fd hfl hfd ny hny hny2
    (fd (ib.yMin - s_bb.yMin)) (fd (ib.yMax - s_bb.yMin)) (fd (s_bb.yMax - s_bb.yMin))
    (hfd.nonneg _ (by linarith)) (hfd.1 (by linarith)) (hfd.1 (by linarith))
    (hfd.normal _ hy)
  obtain ⟨x1, x2, x3, x4⟩ := axis_bounds nx hnx2 v v' a1 a2 a3
  obtain ⟨y1, y2, y3, y4⟩ := axis_bounds ny hny2 z z' b1 b2 b3
  simp only [sourceWindow, e1, e2, e3, e4]
  exact ⟨x1, y1, x2, y2, x4, y4⟩

/-! ## Lemmas on the composite loop -/

theorem update4_apply (m : ℤ → Nat) (p : ℤ) (v0 v1 v2 v3 : Nat) :
    Function.update (Function.update (Function.update (Function.update m p v0)
        (p + 1) v1) (p + 2) v2) (p + 3) v3 p = v0
      ∧ Function.update (Function.update (Function.update (Function.update m p v0)
        (p + 1) v1) (p + 2) v2) (p + 3) v3 (p + 1) = v1
      ∧ Function.update (Function.update (Function.update (Function.update m p v0)
        (p + 1) v1) (p + 2) v2) (p + 3) v3 (p + 2) = v2
      ∧ Function.update (Function.update (Function.update (Function.update m p v0)
        (p + 1) v1) (p + 2) v2) (p + 3) v3 (p + 3) = v3 := by
  simp [Function.update]

theorem update3_apply (m : ℤ → Nat) (p : ℤ) (v0 v1 v2 : Nat) :
    Function.update (Function.update (Function.update m p v0) (p + 1) v1) (p + 2) v2 p = v0
      ∧ Function.update (Function.update (Function.update m p v0) (p + 1) v1) (p + 2) v2
          (p + 1) = v1
      ∧ Function.update (Function.update (Function.update m p v0) (p + 1) v1) (p + 2) v2
          (p + 2) = v2
      ∧ ∀ q : ℤ, q ≠ p → q ≠ p + 1 → q ≠ p + 2 →
          Function.update (Function.update (Function.update m p v0) (p + 1) v1) (p + 2) v2 q
            = m q := by
  refine ⟨by simp [Function.update], by simp [Function.update], by simp [Function.update], ?_⟩
  intro q h0 h1 h2
  simp [Function.update, h0, h1, h2]

theorem blendChannel_exact (a d s : Nat) (ha0 : 0 < a) (ha : a < 255) (hd : d < 256)
    (hs : s < 256) :
    blendChannel id ((a : ℚ) / 255) (1 - (a : ℚ) / 255) d s
        = ⌊(1 - (a : ℚ) / 255) * (d : ℚ) + ((a : ℚ) / 255) * (s : ℚ)⌋.toNat
      ∧ min d s ≤ blendChannel id ((a : ℚ) / 255) (1 - (a : ℚ) / 255) d s
      ∧ blendChannel id ((a : ℚ) / 255) (1 - (a : ℚ) / 255) d s ≤ max d s := by
  have hrs0 : (0 : ℚ) < (a : ℚ) / 255 := by positivity
  have hrs1 : (a : ℚ) / 255 < 1 := by
    rw [div_lt_one (by norm_num)]; exact_mod_cast ha
  set rs : ℚ := (a : ℚ) / 255 with hrs
  set v : ℚ := (1 - rs) * (d : ℚ) + rs * (s : ℚ) with hv
  have hmin : ((min d s : ℕ) : ℚ) ≤ v := by
    have h1 : ((min d s : ℕ) : ℚ) ≤ (d : ℚ) := by exact_mod_cast Nat.min_le_left d s
    have h2 : ((min d s : ℕ) : ℚ) ≤ (s : ℚ) := by exact_mod_cast Nat.min_le_right d s
    have e : ((min d s : ℕ) : ℚ) = (1 - rs) * ((min d s : ℕ) : ℚ) + rs * ((min d s : ℕ) : ℚ) := by
      ring
    rw [e, hv]
    exact add_le_add (mul_le_mul_of_nonneg_left h1 (by linarith))
      (mul_le_mul_of_nonneg_left h2 hrs0.le)
  have hmax : v ≤ ((max d s : ℕ) : ℚ) := by
    have h1 : (d : ℚ) ≤ ((max d s : ℕ) : ℚ) := by exact_mod_cast Nat.le_max_left d s
    have h2 : (s : ℚ) ≤ ((max d s : ℕ) : ℚ) := by exact_mod_cast Nat.le_max_right d s
    have e : ((max d s : ℕ) : ℚ) = (1 - rs) * ((max d s : ℕ) : ℚ) + rs * ((max d s : ℕ) : ℚ) := by
      ring
    rw [e, hv]
    exact add_le_add (mul_le_mul_of_nonneg_left h1 (by linarith))
      (mul_le_mul_of_nonneg_left h2 hrs0.le)
  have hv0 : (0 : ℚ) ≤ v := le_trans (by exact_mod_cast Nat.zero_le _) hmin
  have hfl_lo : ((min d s : ℕ) : ℤ) ≤ ⌊v⌋ := by
    rw [Int.le_floor]; exact_mod_cast hmin
  have hfl_hi : ⌊v⌋ ≤ ((max d s : ℕ) : ℤ) := by
    have : ((⌊v⌋ : ℤ) : ℚ) ≤ (((max d s : ℕ) : ℤ) : ℚ) := by
      refine le_trans (Int.floor_le v) ?_
      exact_mod_cast hmax
    exact_mod_cast this
  have hmax256 : max d s < 256 := max_lt hd hs
  have hb : blendChannel id rs (1 - rs) d s = ⌊v⌋.toNat := by
    simp only [blendChannel, id, truncate, if_pos hv0, toByte, ← hv]
    congr 1
    omega
  rw [hb]
  refine ⟨rfl, ?_, ?_⟩ <;> omega

theorem log2_eq (q : ℚ) (e : ℤ) (hq : 0 < q) (h1 : (2 : ℚ) ^ e ≤ q) (h2 : q < (2 : ℚ) ^ (e + 1)) :
    Int.log 2 q = e := by
  have hb : 1 < 2 := by norm_num
  apply le_antisymm
  · have := (Int.lt_zpow_iff_log_lt hb hq).1 (by exact_mod_cast h2)
    omega
  · exact (Int.zpow_le_iff_le_log hb hq).1 (by exact_mod_cast h1)

theorem roundBinary32_eval (q : ℚ) (e m : ℤ) (hq : 0 < q) (h1 : (2 : ℚ) ^ e ≤ q)
    (h2 : q < (2 : ℚ) ^ (e + 1)) (he : -126 ≤ e)
    (hm : roundHalfEven (q / (2 : ℚ) ^ (e - 23)) = m) :
    roundBinary32 q = (m : ℚ) * (2 : ℚ) ^ (e - 23) := by
  have hlog : Int.log 2 |q| = e := by rw [abs_of_pos hq]; exact log2_eq q e hq h1 h2
  simp only [roundBinary32, if_neg hq.ne', hlog, max_eq_left he, hm]

theorem roundHalfEven_down (q : ℚ) (f : ℤ) (h1 : (f : ℚ) ≤ q) (h2 : q < (f : ℚ) + 1 / 2) :
    roundHalfEven q = f := by
  have hf : ⌊q⌋ = f := by rw [Int.floor_eq_iff]; constructor <;> linarith
  simp only [roundHalfEven, hf]
  rw [if_pos (by linarith)]

theorem roundHalfEven_up (q : ℚ) (f : ℤ) (h1 : (f : ℚ) + 1 / 2 < q) (h2 : q < (f : ℚ) + 1) :
    roundHalfEven q = f + 1 := by
  have hf : ⌊q⌋ = f := by rw [Int.floor_eq_iff]; constructor <;> linarith
  simp only [roundHalfEven, hf]
  rw [if_neg (by linarith), if_pos (by linarith)]

theorem roundHalfEven_tie_even (q : ℚ) (f : ℤ) (h1 : q = (f : ℚ) + 1 / 2) (h2 : f % 2 = 0) :
    roundHalfEven q = f := by
  have hf : ⌊q⌋ = f := by rw [Int.floor_eq_iff]; constructor <;> linarith
  simp only [roundHalfEven, hf]
  rw [if_neg (by linarith), if_neg (by linarith), if_pos h2]

theorem blend_binary32_eval :
    roundBinary32 ((65 : ℚ) / 255) = 8553091 / 33554432
      ∧ roundBinary32 (1 - 8553091 / 33554432) = 6250335 / 8388608
      ∧ roundBinary32 (6250335 / 8388608 * 3) = 4687751 / 2097152
      ∧ roundBinary32 (8553091 / 33554432 * 3) = 3207409 / 4194304
      ∧ roundBinary32 (4687751 / 2097152 + 3207409 / 4194304) = 12582911 / 4194304 := by
  refine ⟨?_, ?_, ?_, ?_, ?_⟩
  · rw [roundBinary32_eval _ (-2) 8553091 (by norm_num) (by norm_num) (by norm_num) (by norm_num)
      (by rw [show (8553091 : ℤ) = 8553090 + 1 from rfl]
          apply roundHalfEven_up <;> norm_num)]
    norm_num
  · rw [roundBinary32_eval _ (-1) 12500670 (by norm_num) (by norm_num) (by norm_num)
      (by norm_num) (by apply roundHalfEven_tie_even <;> norm_num)]
    norm_num
  · rw [roundBinary32_eval _ 1 9375502 (by norm_num) (by norm_num) (by norm_num)
      (by norm_num) (by apply roundHalfEven_tie_even <;> norm_num)]
    norm_num
  · rw [roundBinary32_eval _ (-1) 12829636 (by norm_num) (by norm_num) (by norm_num)
      (by norm_num) (by apply roundHalfEven_tie_even <;> norm_num)]
    norm_num
  · rw [roundBinary32_eval _ 1 12582911 (by norm_num) (by norm_num) (by norm_num)
      (by norm_num) (by apply roundHalfEven_down <;> norm_num)]
    norm_num

theorem blendChannel_binary32 :
    blendChannel roundBinary32 (roundBinary32 (((65 : ℕ) : ℚ) / 255))
      (roundBinary32 (1 - roundBinary32 (((65 : ℕ) : ℚ) / 255))) 3 3 = 2 := by
  obtain ⟨e1, e2, e3, e4, e5⟩ := blend_binary32_eval
  have ht : truncate (12582911 / 4194304 : ℚ) = 2 := by
    simp only [truncate]
    rw [if_pos (by norm_num), Int.floor_eq_iff]
    norm_num
  simp only [blendChannel, Nat.cast_ofNat]
  rw [e1, e2, e3, e4, e5, ht]
  rfl

/-! ## Lemmas on `readImage` and `readHeightField` -/

theorem readImageProbe_invalid (fl fd : ℚ → ℚ) (fresh : ℤ → Nat) (self : SourceData)
    (s_bb d_bb : GeospatialExtents) (xoffset : ℚ) (image : Image)
    (h : (d_bb.intersection s_bb xoffset).valid = false) :
    readImageProbe fl fd fresh self s_bb d_bb xoffset image = some (image, []) := by
  simp [readImageProbe, h]

theorem readImageProbes_invalid (fl fd : ℚ → ℚ) (fresh : ℤ → Nat) (self : SourceData)
    (s_bb d_bb : GeospatialExtents) (offsets : List ℚ) :
    ∀ (image : Image) (reads : List ReadRequest),
      (∀ xoffset ∈ offsets, (d_bb.intersection s_bb xoffset).valid = false) →
      readImageProbes fl fd fresh self s_bb d_bb offsets image reads = some (image, reads) := by
  induction offsets with
  | nil => intro image reads _; rfl
  | cons x xs ih =>
    intro image reads h
    have hx := h x (List.mem_cons_self _ _)
    have hxs : ∀ xoffset ∈ xs, (d_bb.intersection s_bb xoffset).valid = false :=
      fun y hy => h y (List.mem_cons_of_mem _ hy)
    simp only [readImageProbes, readImageProbe_invalid fl fd fresh self s_bb d_bb x image hx,
      Option.some_bind, List.append_nil]
    exact ih image reads hxs

theorem readHeightFieldProbes_invalid (fl fd : ℚ → ℚ) (self : SourceData) (s_bb d_bb : GeospatialExtents)
    (verticalScale : ℚ) (offsets : List ℚ) :
    ∀ st : HeightField × List (ℚ × ℚ),
      (∀ xoffset ∈ offsets, (d_bb.intersection s_bb xoffset).valid = false) →
      readHeightFieldProbes fl fd self s_bb d_bb verticalScale offsets st = some st := by
  induction offsets with
  | nil => intro st _; rfl
  | cons x xs ih =>
    intro st h
    have hx := h x (List.mem_cons_self _ _)
    have hxs : ∀ xoffset ∈ xs, (d_bb.intersection s_bb xoffset).valid = false :=
      fun y hy => h y (List.mem_cons_of_mem _ hy)
    unfold readHeightFieldProbes
    simp only [hx, if_true]
    exact ih st hxs

theorem foldl_id {α β : Type} (l : List β) (a : α) : l.foldl (fun st _ => st) a = a := by
  induction l with
  | nil => rfl
  | cons x xs ih => simp [ih]

theorem compositeImage_degenerate (fl : ℚ → ℚ) (hasAlpha destination_hasAlpha : Bool)
    (pixelSpace destination_pixelSpace destWidth destHeight : ℤ)
    (tempImage destination : ℤ → Nat) (destinationRowPtr destinationRowDelta : ℤ)
    (h : destWidth ≤ 0 ∨ destHeight ≤ 0) :
    compositeImage fl hasAlpha destination_hasAlpha pixelSpace destination_pixelSpace destWidth
      destHeight tempImage destination destinationRowPtr destinationRowDelta = destination := by
  rcases h with h | h
  · have hw : destWidth.toNat = 0 := by omega
    simp only [compositeImage, compositeRow, hw, List.range_zero, List.foldl_nil]
    exact foldl_id _ _
  · have hh : destHeight.toNat = 0 := by omega
    simp only [compositeImage, hh, List.range_zero, List.foldl_nil]

theorem readSize_cases (w d : Window) :
    ((readSize w d).1 = true ∧ (readSize w d).2.1 = w.width ∧ (readSize w d).2.2 = w.height
        ∧ 2 ≤ w.width ∧ 2 ≤ w.height)
      ∨ ((readSize w d).1 = false ∧ (readSize w d).2.1 = d.width
        ∧ (readSize w d).2.2 = d.height) := by
  unfold readSize
  dsimp only
  split_ifs with h
  · left
    simp only [decide_eq_true_eq] at h
    exact ⟨rfl, rfl, rfl, h.2.1, h.2.2⟩
  · right
    exact ⟨rfl, rfl, rfl⟩

theorem length_readBands (ds : GDALDataset) (_numValuesY : ℤ) (w : Window)
    (readWidth readHeight pixelSpace : ℤ) (tempImage : ℤ → Nat) (h : 3 ≤ ds.GetRasterCount) :
    (readBands ds _numValuesY w readWidth readHeight pixelSpace tempImage).2.map
        (fun r => (r.band, r.bufOffset))
      = if 4 ≤ ds.GetRasterCount then [(1, 0), (2, 1), (3, 2), (4, 3)]
        else [(1, 0), (2, 1), (3, 2)] := by
  have bandOf : ∀ (band : Option GDALRasterBand) (b : Nat) (k : ℤ) (t : ℤ → Nat),
      ((readBand band b _numValuesY w readWidth readHeight pixelSpace k t).2.band,
        (readBand band b _numValuesY w readWidth readHeight pixelSpace k t).2.bufOffset)
        = (b, k) := by
    intro band b k t
    unfold readBand
    cases band with
    | none => rfl
    | some bd =>
      dsimp only
      cases bd.readWindow _ <;> rfl
  have b1 := bandOf (ds.GetRasterBand 1) 1 0
  have b2 := bandOf (ds.GetRasterBand 2) 2 1
  have b3 := bandOf (ds.GetRasterBand 3) 3 2
  have b4 := bandOf (ds.GetRasterBand 4) 4 3
  unfold readBands
  by_cases h4 : 4 ≤ ds.GetRasterCount
  · simp [h, h4, b1, b2, b3, b4]
  · simp [h, h4, b1, b2, b3]

/-- The requests of `readBands`, by band and buffer offset, for every kind of
source. -/
theorem readBands_requests (ds : GDALDataset) (_numValuesY : ℤ) (w : Window)
    (readWidth readHeight pixelSpace : ℤ) (tempImage : ℤ → Nat) :
    (readBands ds _numValuesY w readWidth readHeight pixelSpace tempImage).2.map
        (fun r => (r.band, r.bufOffset))
      = if 3 ≤ ds.GetRasterCount then
          (if 4 ≤ ds.GetRasterCount then [(1, 0), (2, 1), (3, 2), (4, 3)]
            else [(1, 0), (2, 1), (3, 2)])
        else if 1 ≤ ds.GetRasterCount
            ∧ ((ds.GetRasterBand 1).bind (fun b => b.colorTable)).isSome = true then [(1, 0)]
        else if ds.GetRasterCount = 1 then [(1, 0), (1, 1), (1, 2)]
        else [] := by
  have bandOf : ∀ (band : Option GDALRasterBand) (b : Nat) (k : ℤ) (t : ℤ → Nat),
      ((readBand band b _numValuesY w readWidth readHeight pixelSpace k t).2.band,
        (readBand band b _numValuesY w readWidth readHeight pixelSpace k t).2.bufOffset)
        = (b, k) := by
    intro band b k t
    unfold readBand
    cases band with
    | none => rfl
    | some bd =>
      dsimp only
      cases bd.readWindow _ <;> rfl
  by_cases h3 : 3 ≤ ds.GetRasterCount
  · rw [if_pos h3]
    exact length_readBands ds _numValuesY w readWidth readHeight pixelSpace tempImage h3
  · rw [if_neg h3]
    by_cases h1 : 1 ≤ ds.GetRasterCount
    · cases hct : (ds.GetRasterBand 1).bind (fun b => b.colorTable) with
      | some ct =>
        unfold readBands
        simp [h3, h1, hct, bandOf]
      | none =>
        by_cases h11 : ds.GetRasterCount = 1
        · unfold readBands
          simp [h3, h11, hct, bandOf]
        · unfold readBands
          simp [h3, h1, h11, hct]
    · have h11 : ¬ ds.GetRasterCount = 1 := by omega
      unfold readBands
      simp [h3, h1, h11]

/-! ## Window mapping and probing: the claims -/

/-- C11 (amended): for a destination buffer of `S` columns and `T` rows, both at
most `2^24`, destination extents of width and height at least `2^-1021` and a
valid intersection of them with the shifted source extents (zero-area
intersections included), the destination window of `readImage` and
`readHeightField` satisfies `0 ≤ destWidth ≤ S`, `0 ≤ destHeight ≤ T`,
`destX ≥ 0`, `destY ≥ 0`, `destX + destWidth ≤ S` and `destY + destHeight ≤ T`,
in every arithmetic whose conversions to `float` are monotone and to nearest
and whose `double` operations are monotone with a relative error of at most
`2^-53` on the normal range; IEEE 754 round-to-nearest-even arithmetic below
the overflow threshold and exact arithmetic are two. -/
theorem destWindow_within_buffer (fl fd : ℚ → ℚ) (S T : Nat) (d_bb s_bb : GeospatialExtents)
    (xoffset : ℚ) (hfl : RoundsLikeFloat fl) (hfd : RoundsLikeDouble fd)
    (hS : S ≤ 16777216) (hT : T ≤ 16777216)
    (hx : 1 / 2 ^ 1021 ≤ d_bb.xMax - d_bb.xMin) (hy : 1 / 2 ^ 1021 ≤ d_bb.yMax - d_bb.yMin)
    (hv : (d_bb.intersection s_bb xoffset).valid = true) :
    0 ≤ (destWindow fl fd S T d_bb (d_bb.intersection s_bb xoffset)).width
      ∧ (destWindow fl fd S T d_bb (d_bb.intersection s_bb xoffset)).width ≤ S
      ∧ 0 ≤ (destWindow fl fd S T d_bb (d_bb.intersection s_bb xoffset)).height
      ∧ (destWindow fl fd S T d_bb (d_bb.intersection s_bb xoffset)).height ≤ T
      ∧ 0 ≤ (destWindow fl fd S T d_bb (d_bb.intersection s_bb xoffset)).x
      ∧ 0 ≤ (destWindow fl fd S T d_bb (d_bb.intersection s_bb xoffset)).y
      ∧ (destWindow fl fd S T d_bb (d_bb.intersection s_bb xoffset)).x
          + (destWindow fl fd S T d_bb (d_bb.intersection s_bb xoffset)).width ≤ S
      ∧ (destWindow fl fd S T d_bb (d_bb.intersection s_bb xoffset)).y
          + (destWindow fl fd S T d_bb (d_bb.intersection s_bb xoffset)).height ≤ T := by
  obtain ⟨h1, h2⟩ := (intersection_valid_iff d_bb s_bb xoffset).1 hv
  have hb := destWindow_bounds fl fd hfl hfd S T d_bb (d_bb.intersection s_bb xoffset)
    (Int.natCast_nonneg S) (Int.natCast_nonneg T) (by exact_mod_cast hS) (by exact_mod_cast hT)
    hx hy (le_max_left _ _) h1 (min_le_left _ _) (le_max_left _ _) h2 (min_le_left _ _)
  obtain ⟨b1, b2, b3, b4, b5, b6, b7, b8⟩ := hb
  exact ⟨b3, b4, b5, b6, b1, b2, b7, b8⟩

/-- Witness of C11 (amended): a 4x4 buffer over `[0, 1] x [0, 1]` and a source
that touches it along `x = 1` (a zero-area intersection), in IEEE
arithmetic. -/
theorem destWindow_within_buffer_witness :
    0 ≤ (destWindow roundBinary32 roundBinary64 (4 : Nat) (4 : Nat) unitExtents
          (unitExtents.intersection rightExtents 0)).width
      ∧ (destWindow roundBinary32 roundBinary64 (4 : Nat) (4 : Nat) unitExtents
          (unitExtents.intersection rightExtents 0)).width ≤ (4 : Nat) :=
  have h := destWindow_within_buffer roundBinary32 roundBinary64 4 4 unitExtents rightExtents 0
    roundsLikeFloat_binary32 roundsLikeDouble_binary64 (by decide) (by decide)
    (by norm_num [unitExtents]) (by norm_num [unitExtents]) (by decide!)
  ⟨h.1, h.2.1⟩

/-- C11 as stated fails: for the destination extents of zero width `x = 1`,
whose intersection with `[1, 2] x [0, 1]` is valid, the proportions of the x axis
divide by zero and the casts give `destX = 0` and `destWidth = INT_MIN` for a
4x4 buffer, in IEEE arithmetic. -/
theorem destWindow_zero_width :
    (lineExtents.intersection rightExtents 0).valid = true
      ∧ (destWindow roundBinary32 roundBinary64 4 4 lineExtents
          (lineExtents.intersection rightExtents 0)).x = 0
      ∧ (destWindow roundBinary32 roundBinary64 4 4 lineExtents
          (lineExtents.intersection rightExtents 0)).width = -2147483648 := by
  have hden : roundBinary64 (lineExtents.xMax - lineExtents.xMin) = 0 := by
    simp [lineExtents, roundBinary64]
  refine ⟨by decide!, ?_, ?_⟩
  · simp only [destWindow, windowProportion, hden, if_true]
    decide
  · simp only [destWindow, windowProportion, hden, if_true]
    decide

/-- C12: when the intersection of the destination extents with the source
extents is invalid at every probed x offset, `readImage` and `readHeightField`
return normally, leave the destination (every byte of the image, every height)
unchanged and issue no source read. -/
theorem read_no_overlap (fl fd : ℚ → ℚ) (fresh : ℤ → Nat) (self : SourceData)
    (s_bb : GeospatialExtents) (destination : DestinationData)
    (h : ∀ xoffset ∈ probeOffsets s_bb destination._extents,
      (destination._extents.intersection s_bb xoffset).valid = false) :
    readImage fl fd fresh self s_bb destination = some (destination, [])
      ∧ readHeightField fl fd self s_bb destination = some (destination, []) := by
  constructor
  · unfold readImage
    cases himg : destination._image with
    | none => rfl
    | some image =>
      simp only [readImageProbes_invalid fl fd fresh self s_bb destination._extents _ image [] h,
        Option.map_some']
      rw [← himg]
  · unfold readHeightField
    cases hhf : destination._heightField with
    | none => rfl
    | some hf =>
      simp only [readHeightFieldProbes_invalid fl fd self s_bb destination._extents
        destination.verticalScale _ (hf, []) h, Option.map_some']
      rw [← hhf]

/-- Witness of C12: the unit destination and a source over `[5, 6] x [0, 1]`. -/
theorem read_no_overlap_witness :
    readImage id id (fun _ => 0) imageSource farExtents unitDestination = some (unitDestination, [])
      ∧ readHeightField id id imageSource farExtents unitDestination = some (unitDestination, []) :=
  read_no_overlap id id (fun _ => 0) imageSource farExtents unitDestination (by decide!)

/-- C13: on a geographic destination `[-180, 180]` and a heightfield source
across the date line `[170, 190]`, the probed offsets are `-360` and `0` and the
intersection is valid at both, but `readHeightField` returns after the first
probe: only the height at longitude `-180` is written and the source is sampled
once, whereas the raster-band path on the same data processes both probes and
also writes the height at longitude `180`. -/
theorem readHeightField_dateline :
    probeOffsets datelineExtents worldExtents = [-360, 0]
      ∧ (worldExtents.intersection datelineExtents (-360)).valid = true
      ∧ (worldExtents.intersection datelineExtents 0).valid = true
      ∧ (readHeightField id id heightFieldSource datelineExtents (worldDestination 1)).map
          (fun r => (r.1._heightField.map (fun hf => hf.heights), r.2))
          = some (some [5, 0, 0, 0], [(180, 0)])
      ∧ (readHeightField id id bandSource datelineExtents (worldDestination 1)).map
          (fun r => (r.1._heightField.map (fun hf => hf.heights), r.2))
          = some (some [5, 0, 0, 5], [(180, 0), (180, 0)]) := by
  refine ⟨by decide!, by decide!, by decide!, by decide!, by decide!⟩

/-! ## Lemmas on the composite loops -/

theorem foldl_flatMap_eq {α β σ : Type} (f : α → List β) (g : σ → β → σ) (l : List α) :
    ∀ init : σ, (l.flatMap f).foldl g init = l.foldl (fun st a => (f a).foldl g st) init := by
  induction l with
  | nil => intro init; rfl
  | cons a rest ih =>
    intro init
    simp only [List.flatMap_cons, List.foldl_append, List.foldl_cons, ih]

/-- The composite loops as one pass over their iterations. -/
theorem compositeImage_cells (fl : ℚ → ℚ) (hasAlpha destination_hasAlpha : Bool)
    (pixelSpace destination_pixelSpace destWidth destHeight : ℤ)
    (tempImage destination : ℤ → Nat) (destinationRowPtr destinationRowDelta : ℤ) :
    compositeImage fl hasAlpha destination_hasAlpha pixelSpace destination_pixelSpace destWidth
        destHeight tempImage destination destinationRowPtr destinationRowDelta
      = (compositeCells destWidth destHeight).foldl
          (fun dest p => compositePixel fl hasAlpha destination_hasAlpha tempImage
            (sourceColumnOffset pixelSpace destWidth p.1 p.2) dest
            (destinationColumnPtr destinationRowPtr destinationRowDelta destination_pixelSpace
              p.1 p.2))
          destination := by
  simp only [compositeImage, compositeRow, compositeCells, List.product, foldl_flatMap_eq,
    List.foldl_map, sourceColumnOffset, destinationColumnPtr]

theorem mem_compositeCells (destWidth destHeight : ℤ) (p : Nat × Nat) :
    p ∈ compositeCells destWidth destHeight
      ↔ (p.1 : ℤ) < destHeight ∧ (p.2 : ℤ) < destWidth := by
  obtain ⟨r, c⟩ := p
  simp only [compositeCells, List.pair_mem_product, List.mem_range]
  omega

theorem nodup_compositeCells (destWidth destHeight : ℤ) :
    (compositeCells destWidth destHeight).Nodup :=
  List.Nodup.product (List.nodup_range _) (List.nodup_range _)

/-- An iteration of the composite loops writes nothing outside the
`writtenBytes` bytes that start at `destinationColumnPtr`. -/
theorem compositePixel_frame (fl : ℚ → ℚ) (hasAlpha destination_hasAlpha : Bool)
    (source : ℤ → Nat) (sp : ℤ) (destination : ℤ → Nat) (dp a : ℤ)
    (ha : a < dp ∨ dp + writtenBytes hasAlpha destination_hasAlpha ≤ a) :
    compositePixel fl hasAlpha destination_hasAlpha source sp destination dp a
      = destination a := by
  have h0 : a ≠ dp := by
    rcases ha with h | h
    · omega
    · unfold writtenBytes at h; split_ifs at h <;> omega
  have h1 : a ≠ dp + 1 := by
    rcases ha with h | h
    · omega
    · unfold writtenBytes at h; split_ifs at h <;> omega
  have h2 : a ≠ dp + 2 := by
    rcases ha with h | h
    · omega
    · unfold writtenBytes at h; split_ifs at h <;> omega
  have h3 : hasAlpha = true → destination_hasAlpha = true → a ≠ dp + 3 := by
    intro e1 e2
    rcases ha with h | h
    · omega
    · simp only [writtenBytes, e1, e2, and_self, if_true] at h
      omega
  unfold compositePixel
  cases hasAlpha <;> cases destination_hasAlpha <;>
    simp only [Bool.false_eq_true, if_false, if_true] <;>
    split_ifs <;>
    simp [Function.update, h0, h1, h2, h3]

/-- What an iteration of the composite loops writes depends on the destination
only through the bytes it can write. -/
theorem compositePixel_local (fl : ℚ → ℚ) (hasAlpha destination_hasAlpha : Bool)
    (source : ℤ → Nat) (sp : ℤ) (d1 d2 : ℤ → Nat) (dp : ℤ)
    (hagree : ∀ a, dp ≤ a → a < dp + writtenBytes hasAlpha destination_hasAlpha → d1 a = d2 a)
    (a : ℤ) (ha1 : dp ≤ a) (ha2 : a < dp + writtenBytes hasAlpha destination_hasAlpha) :
    compositePixel fl hasAlpha destination_hasAlpha source sp d1 dp a
      = compositePixel fl hasAlpha destination_hasAlpha source sp d2 dp a := by
  have w3 : 3 ≤ writtenBytes hasAlpha destination_hasAlpha := by
    unfold writtenBytes; split_ifs <;> omega
  have e0 : d1 dp = d2 dp := hagree dp (by omega) (by omega)
  have e1 : d1 (dp + 1) = d2 (dp + 1) := hagree (dp + 1) (by omega) (by omega)
  have e2 : d1 (dp + 2) = d2 (dp + 2) := hagree (dp + 2) (by omega) (by omega)
  have ea : d1 a = d2 a := hagree a ha1 ha2
  have e3 : hasAlpha = true → destination_hasAlpha = true → d1 (dp + 3) = d2 (dp + 3) := by
    intro h1 h2
    apply hagree (dp + 3) (by omega)
    simp only [writtenBytes, h1, h2, and_self, if_true]
    omega
  unfold compositePixel
  cases hasAlpha <;> cases destination_hasAlpha <;>
    simp only [Bool.false_eq_true, if_false, if_true] <;>
    split_ifs <;>
    simp [Function.update, e0, e1, e2, ea, e3]

/-- Two different iterations of the composite loops have disjoint destination
pixels when the pixels are `ps > 0` bytes apart and a row of `W` pixels fits
between two rows. -/
theorem pixel_disjoint (base delta ps W : ℤ) (r c r' c' : Nat) (hps : 0 < ps)
    (hD : W * ps ≤ -delta) (hc : (c : ℤ) < W) (hc' : (c' : ℤ) < W)
    (hne : (r, c) ≠ (r', c')) (a : ℤ)
    (h1 : base + (r : ℤ) * delta + (c : ℤ) * ps ≤ a)
    (h2 : a < base + (r : ℤ) * delta + (c : ℤ) * ps + ps) :
    a < base + (r' : ℤ) * delta + (c' : ℤ) * ps
      ∨ base + (r' : ℤ) * delta + (c' : ℤ) * ps + ps ≤ a := by
  have c0 : 0 ≤ (c : ℤ) * ps := mul_nonneg (Int.natCast_nonneg c) hps.le
  have c0' : 0 ≤ (c' : ℤ) * ps := mul_nonneg (Int.natCast_nonneg c') hps.le
  have c1 : (c : ℤ) * ps + ps ≤ W * ps := by
    have := mul_le_mul_of_nonneg_right (show (c : ℤ) + 1 ≤ W by omega) hps.le
    linarith
  have c1' : (c' : ℤ) * ps + ps ≤ W * ps := by
    have := mul_le_mul_of_nonneg_right (show (c' : ℤ) + 1 ≤ W by omega) hps.le
    linarith
  have hdelta : delta ≤ 0 := by linarith
  rcases Nat.lt_trichotomy r r' with hr | hr | hr
  · right
    have : ((r' : ℤ) - (r : ℤ) - 1) * delta ≤ 0 :=
      mul_nonpos_of_nonneg_of_nonpos (by omega) hdelta
    have e : ((r' : ℤ) - (r : ℤ) - 1) * delta = (r' : ℤ) * delta - (r : ℤ) * delta - delta := by
      ring
    linarith
  · subst hr
    have hcc : c ≠ c' := fun h => hne (by rw [h])
    rcases Nat.lt_or_gt_of_ne hcc with h | h
    · left
      have := mul_le_mul_of_nonneg_right (show (c : ℤ) + 1 ≤ (c' : ℤ) by omega) hps.le
      linarith
    · right
      have := mul_le_mul_of_nonneg_right (show (c' : ℤ) + 1 ≤ (c : ℤ) by omega) hps.le
      linarith
  · left
    have : ((r : ℤ) - (r' : ℤ) - 1) * delta ≤ 0 :=
      mul_nonpos_of_nonneg_of_nonpos (by omega) hdelta
    have e : ((r : ℤ) - (r' : ℤ) - 1) * delta = (r : ℤ) * delta - (r' : ℤ) * delta - delta := by
      ring
    linarith

theorem foldl_frame (step : (ℤ → Nat) → Nat × Nat → (ℤ → Nat)) (T : ℤ → Prop)
    (l : List (Nat × Nat)) (hframe : ∀ y ∈ l, ∀ (d : ℤ → Nat) (a : ℤ), T a → step d y a = d a) :
    ∀ (d : ℤ → Nat) (a : ℤ), T a → (l.foldl step d) a = d a := by
  induction l with
  | nil => intro d a _; rfl
  | cons y rest ih =>
    intro d a ha
    rw [List.foldl_cons, ih (fun z hz => hframe z (List.mem_cons_of_mem _ hz)) _ a ha]
    exact hframe y (List.mem_cons_self _ _) d a ha

/-- After the composite loops, the bytes of the destination pixel of an
iteration are what that iteration alone makes of the original destination,
when the destination pixels do not overlap. -/
theorem compositeImage_pixel (fl : ℚ → ℚ) (hasAlpha destination_hasAlpha : Bool)
    (pixelSpace destination_pixelSpace destWidth destHeight : ℤ)
    (tempImage destination : ℤ → Nat) (destinationRowPtr destinationRowDelta : ℤ)
    (row col : Nat) (hrow : (row : ℤ) < destHeight) (hcol : (col : ℤ) < destWidth)
    (hps : writtenBytes hasAlpha destination_hasAlpha ≤ destination_pixelSpace)
    (hrows : destWidth * destination_pixelSpace ≤ -destinationRowDelta)
    (k : ℤ) (hk0 : 0 ≤ k) (hk : k < destination_pixelSpace) :
    compositeImage fl hasAlpha destination_hasAlpha pixelSpace destination_pixelSpace destWidth
        destHeight tempImage destination destinationRowPtr destinationRowDelta
        (destinationColumnPtr destinationRowPtr destinationRowDelta destination_pixelSpace
          row col + k)
      = compositePixel fl hasAlpha destination_hasAlpha tempImage
          (sourceColumnOffset pixelSpace destWidth row col) destination
          (destinationColumnPtr destinationRowPtr destinationRowDelta destination_pixelSpace
            row col)
          (destinationColumnPtr destinationRowPtr destinationRowDelta destination_pixelSpace
            row col + k) := by
  have w3 : 3 ≤ writtenBytes hasAlpha destination_hasAlpha := by
    unfold writtenBytes; split_ifs <;> omega
  have hpos : 0 < destination_pixelSpace := by omega
  rw [compositeImage_cells]
  set step : (ℤ → Nat) → Nat × Nat → (ℤ → Nat) := fun dest p =>
    compositePixel fl hasAlpha destination_hasAlpha tempImage
      (sourceColumnOffset pixelSpace destWidth p.1 p.2) dest
      (destinationColumnPtr destinationRowPtr destinationRowDelta destination_pixelSpace
        p.1 p.2) with hstep
  set dp := destinationColumnPtr destinationRowPtr destinationRowDelta destination_pixelSpace
    row col with hdp
  have hmem : (row, col) ∈ compositeCells destWidth destHeight :=
    (mem_compositeCells destWidth destHeight (row, col)).2 ⟨hrow, hcol⟩
  obtain ⟨s, t, hsplit⟩ := List.append_of_mem hmem
  have hnd := nodup_compositeCells destWidth destHeight
  rw [hsplit] at hnd
  have hns : (row, col) ∉ s := fun h =>
    (List.nodup_append.1 hnd).2.2 h (List.mem_cons_self _ _)
  have hnt : (row, col) ∉ t := (List.nodup_cons.1 (List.nodup_append.1 hnd).2.1).1
  have hother : ∀ y ∈ compositeCells destWidth destHeight, y ≠ (row, col) →
      ∀ (d : ℤ → Nat) (a : ℤ), (dp ≤ a ∧ a < dp + destination_pixelSpace) →
        step d y a = d a := by
    intro y hy hne d a ha
    obtain ⟨r', c'⟩ := y
    have hy' := (mem_compositeCells destWidth destHeight (r', c')).1 hy
    have hdis := pixel_disjoint destinationRowPtr destinationRowDelta destination_pixelSpace
      destWidth row col r' c' hpos hrows hcol hy'.2 (Ne.symm hne) a
      (by simpa [hdp, destinationColumnPtr] using ha.1)
      (by simpa [hdp, destinationColumnPtr] using ha.2)
    simp only [hstep]
    apply compositePixel_frame
    simp only [destinationColumnPtr]
    rcases hdis with h | h
    · exact Or.inl h
    · exact Or.inr (by omega)
  have hs : ∀ y ∈ s, ∀ (d : ℤ → Nat) (a : ℤ), (dp ≤ a ∧ a < dp + destination_pixelSpace) →
      step d y a = d a := by
    intro y hy
    apply hother y (by rw [hsplit]; exact List.mem_append_left _ hy)
    intro h
    exact hns (h ▸ hy)
  have ht : ∀ y ∈ t, ∀ (d : ℤ → Nat) (a : ℤ), (dp ≤ a ∧ a < dp + destination_pixelSpace) →
      step d y a = d a := by
    intro y hy
    apply hother y (by rw [hsplit]; exact List.mem_append_right _ (List.mem_cons_of_mem _ hy))
    intro h
    exact hnt (h ▸ hy)
  have hT : dp ≤ dp + k ∧ dp + k < dp + destination_pixelSpace := ⟨by omega, by omega⟩
  rw [hsplit, List.foldl_append, List.foldl_cons,
    foldl_frame step _ t ht _ (dp + k) hT]
  have hagree : ∀ a, dp ≤ a → a < dp + destination_pixelSpace →
      (s.foldl step destination) a = destination a :=
    fun a h1 h2 => foldl_frame step _ s hs destination a ⟨h1, h2⟩
  by_cases hw : dp + k < dp + writtenBytes hasAlpha destination_hasAlpha
  · exact compositePixel_local fl hasAlpha destination_hasAlpha tempImage _ _ destination dp
      (fun a h1 h2 => hagree a h1 (by omega)) (dp + k) (by omega) hw
  · simp only [hstep]
    rw [compositePixel_frame fl hasAlpha destination_hasAlpha tempImage _ _ dp (dp + k)
        (Or.inr (by omega)),
      compositePixel_frame fl hasAlpha destination_hasAlpha tempImage _ destination dp (dp + k)
        (Or.inr (by omega))]
    exact hagree (dp + k) (by omega) (by omega)

theorem compositePixel_alpha (fl : ℚ → ℚ) (destination_hasAlpha : Bool) (source : ℤ → Nat)
    (sp : ℤ) (destination : ℤ → Nat) (dp : ℤ) :
    (source (sp + 3) = 0 →
        compositePixel fl true destination_hasAlpha source sp destination dp = destination)
      ∧ (source (sp + 3) = 255 →
        compositePixel fl true destination_hasAlpha source sp destination dp dp = source sp
          ∧ compositePixel fl true destination_hasAlpha source sp destination dp (dp + 1)
              = source (sp + 1)
          ∧ compositePixel fl true destination_hasAlpha source sp destination dp (dp + 2)
              = source (sp + 2)
          ∧ (destination_hasAlpha = true →
              compositePixel fl true destination_hasAlpha source sp destination dp (dp + 3)
                = 255)) := by
  constructor
  · intro h
    simp [compositePixel, h]
  · intro h
    cases destination_hasAlpha <;> simp [compositePixel, h, Function.update]

theorem compositePixel_noAlpha (fl : ℚ → ℚ) (destination_hasAlpha : Bool) (source : ℤ → Nat)
    (sp : ℤ) (destination : ℤ → Nat) (dp : ℤ) :
    (source sp = 0 ∧ source (sp + 1) = 0 ∧ source (sp + 2) = 0 →
        compositePixel fl false destination_hasAlpha source sp destination dp = destination)
      ∧ (¬ (source sp = 0 ∧ source (sp + 1) = 0 ∧ source (sp + 2) = 0) →
        compositePixel fl false destination_hasAlpha source sp destination dp dp = source sp
          ∧ compositePixel fl false destination_hasAlpha source sp destination dp (dp + 1)
              = source (sp + 1)
          ∧ compositePixel fl false destination_hasAlpha source sp destination dp (dp + 2)
              = source (sp + 2)
          ∧ ∀ q : ℤ, q ≠ dp → q ≠ dp + 1 → q ≠ dp + 2 →
              compositePixel fl false destination_hasAlpha source sp destination dp q
                = destination q) := by
  constructor
  · rintro ⟨h0, h1, h2⟩
    simp [compositePixel, h0, h1, h2]
  · intro h
    have hc : source sp ≠ 0 ∨ source (sp + 1) ≠ 0 ∨ source (sp + 2) ≠ 0 := by
      by_contra hcon
      push_neg at hcon
      exact h hcon
    have hr : compositePixel fl false destination_hasAlpha source sp destination dp
        = Function.update (Function.update (Function.update destination dp (source sp))
            (dp + 1) (source (sp + 1))) (dp + 2) (source (sp + 2)) := by
      simp only [compositePixel, Bool.false_eq_true, if_false, if_pos hc]
    rw [hr]
    obtain ⟨u0, u1, u2, u3⟩ := update3_apply destination dp (source sp) (source (sp + 1))
      (source (sp + 2))
    exact ⟨u0, u1, u2, u3⟩

/-! ## The composite loop: the claims -/

/-- C14 (amended): in the composite loop of `readImage` with a source that
carries alpha, over a destination whose pixels are at least 3 bytes apart (4
when its format has 4 components) and whose rows are at least `destWidth` pixels
apart, after the loops: for every source pixel with alpha `0` every byte of the
corresponding destination pixel is unchanged, and for every source pixel with
alpha `255` the R, G, B bytes of the corresponding destination pixel are the
source R, G, B and, when the destination format has 4 components, its alpha is
`255`. -/
theorem compositeImage_alpha (fl : ℚ → ℚ) (destination_hasAlpha : Bool)
    (pixelSpace destination_pixelSpace destWidth destHeight : ℤ)
    (tempImage destination : ℤ → Nat) (destinationRowPtr destinationRowDelta : ℤ)
    (row col : Nat) (hrow : (row : ℤ) < destHeight) (hcol : (col : ℤ) < destWidth)
    (hps : writtenBytes true destination_hasAlpha ≤ destination_pixelSpace)
    (hrows : destWidth * destination_pixelSpace ≤ -destinationRowDelta) :
    (tempImage (sourceColumnOffset pixelSpace destWidth row col + 3) = 0 →
        ∀ k : ℤ, 0 ≤ k → k < destination_pixelSpace →
          compositeImage fl true destination_hasAlpha pixelSpace destination_pixelSpace
              destWidth destHeight tempImage destination destinationRowPtr destinationRowDelta
              (destinationColumnPtr destinationRowPtr destinationRowDelta
                destination_pixelSpace row col + k)
            = destination (destinationColumnPtr destinationRowPtr destinationRowDelta
                destination_pixelSpace row col + k))
      ∧ (tempImage (sourceColumnOffset pixelSpace destWidth row col + 3) = 255 →
        (∀ k : ℤ, 0 ≤ k → k < 3 →
          compositeImage fl true destination_hasAlpha pixelSpace destination_pixelSpace
              destWidth destHeight tempImage destination destinationRowPtr destinationRowDelta
              (destinationColumnPtr destinationRowPtr destinationRowDelta
                destination_pixelSpace row col + k)
            = tempImage (sourceColumnOffset pixelSpace destWidth row col + k))
          ∧ (destination_hasAlpha = true →
            compositeImage fl true destination_hasAlpha pixelSpace destination_pixelSpace
                destWidth destHeight tempImage destination destinationRowPtr
                destinationRowDelta
                (destinationColumnPtr destinationRowPtr destinationRowDelta
                  destination_pixelSpace row col + 3)
              = 255)) := by
  have w3 : 3 ≤ writtenBytes true destination_hasAlpha := by
    unfold writtenBytes; split_ifs <;> omega
  have hbody := compositePixel_alpha fl destination_hasAlpha tempImage
    (sourceColumnOffset pixelSpace destWidth row col) destination
    (destinationColumnPtr destinationRowPtr destinationRowDelta destination_pixelSpace row col)
  constructor
  · intro h0 k hk0 hk
    rw [compositeImage_pixel fl true destination_hasAlpha pixelSpace destination_pixelSpace
      destWidth destHeight tempImage destination destinationRowPtr destinationRowDelta row col
      hrow hcol hps hrows k hk0 hk, hbody.1 h0]
  · intro h255
    obtain ⟨b0, b1, b2, b3⟩ := hbody.2 h255
    constructor
    · intro k hk0 hk
      rw [compositeImage_pixel fl true destination_hasAlpha pixelSpace destination_pixelSpace
        destWidth destHeight tempImage destination destinationRowPtr destinationRowDelta row col
        hrow hcol hps hrows k hk0 (by omega)]
      have hk3 : k = 0 ∨ k = 1 ∨ k = 2 := by omega
      rcases hk3 with rfl | rfl | rfl
      · simpa using b0
      · exact b1
      · exact b2
    · intro hda
      have h4 : (3 : ℤ) < destination_pixelSpace := by
        simp only [writtenBytes, hda, and_self, if_true] at hps
        omega
      rw [compositeImage_pixel fl true destination_hasAlpha pixelSpace destination_pixelSpace
        destWidth destHeight tempImage destination destinationRowPtr destinationRowDelta row col
        hrow hcol hps hrows 3 (by omega) h4]
      exact b3 hda

/-- Witness of C14 (amended): a row of two RGBA pixels over a destination of
4-byte pixels; the transparent second pixel leaves its destination pixel
unchanged. -/
theorem compositeImage_alpha_witness :
    compositeImage id true true 4 4 2 1 solidThenClear (fun _ => 7) 0 (-8)
        (destinationColumnPtr 0 (-8) 4 0 1 + 0) = 7 :=
  (compositeImage_alpha id true 4 4 2 1 solidThenClear (fun _ => 7) 0 (-8) 0 1 (by decide)
    (by decide) (by decide) (by decide)).1 (by decide) 0 (by decide) (by decide)

/-- C14 as stated fails over a destination of 2-byte pixels: in a row of two
pixels the second source pixel has alpha `0`, yet the first byte of its
destination pixel changes from `7` to `30`, the blue byte the full-alpha first
pixel writes. -/
theorem compositeImage_alpha_overlap :
    solidThenClear (sourceColumnOffset 4 2 0 1 + 3) = 0
      ∧ compositeImage id true false 4 2 2 1 solidThenClear (fun _ => 7) 0 (-4)
          (destinationColumnPtr 0 (-4) 2 0 1) = 30 := by
  constructor <;> decide

/-- C15 (amended): for a source alpha `0 < a < 255`, over exact arithmetic each
destination colour channel becomes the truncation of
`(1 - a/255)*d + (a/255)*s`, which lies between `min(d, s)` and `max(d, s)`
inclusive; when the destination format carries alpha, the destination alpha
becomes `max(destination alpha, a)` whatever the rounding, so it never
decreases. -/
theorem compositePixel_blend (fl : ℚ → ℚ) (source : ℤ → Nat) (sp : ℤ) (destination : ℤ → Nat)
    (dp : ℤ) (k : ℤ) (ha0 : 0 < source (sp + 3)) (ha : source (sp + 3) < 255)
    (hk : k = 0 ∨ k = 1 ∨ k = 2) (hs : source (sp + k) < 256) (hd : destination (dp + k) < 256) :
    (∀ destination_hasAlpha : Bool,
        compositePixel id true destination_hasAlpha source sp destination dp (dp + k)
            = ⌊(1 - (source (sp + 3) : ℚ) / 255) * (destination (dp + k) : ℚ)
                + ((source (sp + 3) : ℚ) / 255) * (source (sp + k) : ℚ)⌋.toNat
          ∧ min (destination (dp + k)) (source (sp + k))
              ≤ compositePixel id true destination_hasAlpha source sp destination dp (dp + k)
          ∧ compositePixel id true destination_hasAlpha source sp destination dp (dp + k)
              ≤ max (destination (dp + k)) (source (sp + k)))
      ∧ compositePixel fl true true source sp destination dp (dp + 3)
          = max (destination (dp + 3)) (source (sp + 3))
      ∧ destination (dp + 3)
          ≤ compositePixel fl true true source sp destination dp (dp + 3) := by
  have hne0 : source (sp + 3) ≠ 0 := by omega
  have hne255 : source (sp + 3) ≠ 255 := by omega
  have hb := blendChannel_exact (source (sp + 3)) (destination (dp + k)) (source (sp + k))
    ha0 ha hd hs
  have halpha : compositePixel fl true true source sp destination dp (dp + 3)
      = max (destination (dp + 3)) (source (sp + 3)) := by
    simp [compositePixel, hne0, hne255, Function.update]
  refine ⟨?_, halpha, ?_⟩
  · intro destination_hasAlpha
    have hval : compositePixel id true destination_hasAlpha source sp destination dp (dp + k)
        = blendChannel id ((source (sp + 3) : ℚ) / 255) (1 - (source (sp + 3) : ℚ) / 255)
            (destination (dp + k)) (source (sp + k)) := by
      rcases hk with rfl | rfl | rfl <;> cases destination_hasAlpha <;>
        simp [compositePixel, hne0, hne255, Function.update]
    rw [hval]
    exact hb
  · rw [halpha]; exact le_max_left _ _

/-- Witness of C15 (amended): the source pixel `(200, 0, 0, 51)` over a
destination of bytes `100`: channel 0 becomes `⌊0.8 * 100 + 0.2 * 200⌋ = 120`. -/
theorem compositePixel_blend_witness :
    compositePixel id true false (fun k => if k = 3 then 51 else if k = 0 then 200 else 0) 0
        (fun _ => 100) 0 (0 + 0)
      = ⌊(1 - ((51 : ℕ) : ℚ) / 255) * ((100 : ℕ) : ℚ) + (((51 : ℕ) : ℚ) / 255) * ((200 : ℕ) : ℚ)⌋.toNat :=
  ((compositePixel_blend id (fun k => if k = 3 then 51 else if k = 0 then 200 else 0) 0
    (fun _ => 100) 0 0 (by decide) (by decide) (Or.inl rfl) (by decide) (by decide)).1 false).1

/-- C15 as stated fails in single precision: with IEEE 754 binary32 arithmetic
the source pixel `(3, 3, 3, 65)` blended over the destination pixel `(3, 3, 3)`
gives channel value `2`, below `min(3, 3)` and different from the truncation of
`(1 - 65/255)*3 + (65/255)*3 = 3`. -/
theorem compositePixel_blend_binary32 :
    compositePixel roundBinary32 true false (fun k => if k = 3 then 65 else 3) 0
        (fun _ => 3) 0 0 = 2
      ∧ ¬ (min 3 3 ≤ compositePixel roundBinary32 true false (fun k => if k = 3 then 65 else 3) 0
        (fun _ => 3) 0 0) := by
  have h : compositePixel roundBinary32 true false (fun k => if k = 3 then 65 else 3) 0
      (fun _ => 3) 0 0
      = blendChannel roundBinary32 (roundBinary32 (((65 : ℕ) : ℚ) / 255))
          (roundBinary32 (1 - roundBinary32 (((65 : ℕ) : ℚ) / 255))) 3 3 := by
    simp [compositePixel, Function.update]
  rw [h, blendChannel_binary32]
  exact ⟨rfl, by decide⟩

/-- C16 (amended): in the composite loop of `readImage` with a source that
carries no alpha channel, over a destination whose pixels are at least 3 bytes
apart and whose rows are at least `destWidth` pixels apart, after the loops:
for every source pixel with `R = G = B = 0` every byte of the corresponding
destination pixel is unchanged, and for every other source pixel the R, G, B
bytes of the corresponding destination pixel are the source R, G, B while its
other bytes, the alpha byte of a destination with 4 components included, are
unchanged. -/
theorem compositeImage_noAlpha (fl : ℚ → ℚ) (destination_hasAlpha : Bool)
    (pixelSpace destination_pixelSpace destWidth destHeight : ℤ)
    (tempImage destination : ℤ → Nat) (destinationRowPtr destinationRowDelta : ℤ)
    (row col : Nat) (hrow : (row : ℤ) < destHeight) (hcol : (col : ℤ) < destWidth)
    (hps : 3 ≤ destination_pixelSpace)
    (hrows : destWidth * destination_pixelSpace ≤ -destinationRowDelta) :
    ((tempImage (sourceColumnOffset pixelSpace destWidth row col) = 0
          ∧ tempImage (sourceColumnOffset pixelSpace destWidth row col + 1) = 0
          ∧ tempImage (sourceColumnOffset pixelSpace destWidth row col + 2) = 0) →
        ∀ k : ℤ, 0 ≤ k → k < destination_pixelSpace →
          compositeImage fl false destination_hasAlpha pixelSpace destination_pixelSpace
              destWidth destHeight tempImage destination destinationRowPtr destinationRowDelta
              (destinationColumnPtr destinationRowPtr destinationRowDelta
                destination_pixelSpace row col + k)
            = destination (destinationColumnPtr destinationRowPtr destinationRowDelta
                destination_pixelSpace row col + k))
      ∧ (¬ (tempImage (sourceColumnOffset pixelSpace destWidth row col) = 0
          ∧ tempImage (sourceColumnOffset pixelSpace destWidth row col + 1) = 0
          ∧ tempImage (sourceColumnOffset pixelSpace destWidth row col + 2) = 0) →
        (∀ k : ℤ, 0 ≤ k → k < 3 →
          compositeImage fl false destination_hasAlpha pixelSpace destination_pixelSpace
              destWidth destHeight tempImage destination destinationRowPtr destinationRowDelta
              (destinationColumnPtr destinationRowPtr destinationRowDelta
                destination_pixelSpace row col + k)
            = tempImage (sourceColumnOffset pixelSpace destWidth row col + k))
          ∧ ∀ k : ℤ, 3 ≤ k → k < destination_pixelSpace →
            compositeImage fl false destination_hasAlpha pixelSpace destination_pixelSpace
                destWidth destHeight tempImage destination destinationRowPtr
                destinationRowDelta
                (destinationColumnPtr destinationRowPtr destinationRowDelta
                  destination_pixelSpace row col + k)
              = destination (destinationColumnPtr destinationRowPtr destinationRowDelta
                  destination_pixelSpace row col + k)) := by
  have hw : writtenBytes false destination_hasAlpha ≤ destination_pixelSpace := by
    simp only [writtenBytes, Bool.false_eq_true, false_and, if_false]
    exact hps
  have hbody := compositePixel_noAlpha fl destination_hasAlpha tempImage
    (sourceColumnOffset pixelSpace destWidth row col) destination
    (destinationColumnPtr destinationRowPtr destinationRowDelta destination_pixelSpace row col)
  constructor
  · intro h0 k hk0 hk
    rw [compositeImage_pixel fl false destination_hasAlpha pixelSpace destination_pixelSpace
      destWidth destHeight tempImage destination destinationRowPtr destinationRowDelta row col
      hrow hcol hw hrows k hk0 hk, hbody.1 h0]
  · intro hne
    obtain ⟨b0, b1, b2, b3⟩ := hbody.2 hne
    constructor
    · intro k hk0 hk
      rw [compositeImage_pixel fl false destination_hasAlpha pixelSpace destination_pixelSpace
        destWidth destHeight tempImage destination destinationRowPtr destinationRowDelta row col
        hrow hcol hw hrows k hk0 (by omega)]
      have hk3 : k = 0 ∨ k = 1 ∨ k = 2 := by omega
      rcases hk3 with rfl | rfl | rfl
      · simpa using b0
      · exact b1
      · exact b2
    · intro k hk3 hk
      rw [compositeImage_pixel fl false destination_hasAlpha pixelSpace destination_pixelSpace
        destWidth destHeight tempImage destination destinationRowPtr destinationRowDelta row col
        hrow hcol hw hrows k (by omega) hk]
      exact b3 _ (by omega) (by omega) (by omega)

/-- Witness of C16 (amended): a row of two RGB pixels over a destination of
4-byte pixels; the black second pixel leaves its destination pixel unchanged. -/
theorem compositeImage_noAlpha_witness :
    compositeImage id false true 3 4 2 1 colourThenBlack (fun _ => 9) 0 (-8)
        (destinationColumnPtr 0 (-8) 4 0 1 + 0) = 9 :=
  (compositeImage_noAlpha id true 3 4 2 1 colourThenBlack (fun _ => 9) 0 (-8) 0 1 (by decide)
    (by decide) (by decide) (by decide)).1 (by decide) 0 (by decide) (by decide)

/-- C16 as stated fails over a destination of 2-byte pixels: in a row of two
pixels the second source pixel is black, yet the first byte of its destination
pixel changes from `9` to `30`, the blue byte the first pixel writes. -/
theorem compositeImage_noAlpha_overlap :
    (colourThenBlack (sourceColumnOffset 3 2 0 1) = 0
        ∧ colourThenBlack (sourceColumnOffset 3 2 0 1 + 1) = 0
        ∧ colourThenBlack (sourceColumnOffset 3 2 0 1 + 2) = 0)
      ∧ compositeImage id false false 3 2 2 1 colourThenBlack (fun _ => 9) 0 (-4)
          (destinationColumnPtr 0 (-4) 2 0 1) = 30 := by
  refine ⟨⟨?_, ?_, ?_⟩, ?_⟩ <;> decide

/-! ## Band choice, band defaults, cache and degenerate windows: the claims -/

/-- C18 (amended): when the selected band reports no no-data value, no offset
and no scale, `readHeightField` uses no-data `0`, offset `0` and, as scale, the
vertical scale of the destination data set: each written height is the
interpolated value times that vertical scale (the interpolated value itself
when the vertical scale is `1`), and a sample whose interpolated value is `0` is
not written. -/
theorem bandParameters_defaults (band : GDALRasterBand) (verticalScale xoffset : ℚ)
    (st : HeightField × List (ℚ × ℚ)) (c r : ℤ)
    (h1 : band.noDataValue = none) (h2 : band.offset = none) (h3 : band.scale = none) :
    bandParameters band verticalScale = (0, 0, verticalScale)
      ∧ (sampleBand band (bandParameters band verticalScale).1
            (bandParameters band verticalScale).2.1 (bandParameters band verticalScale).2.2
            xoffset st c r).1
          = (if getInterpolatedValueBand band.toRasterBand
                (st.1.originX + st.1.xInterval * (c : ℚ) - xoffset)
                (st.1.originY + st.1.yInterval * (r : ℚ)) ≠ 0 then
              st.1.setHeight c.toNat r.toNat
                (getInterpolatedValueBand band.toRasterBand
                  (st.1.originX + st.1.xInterval * (c : ℚ) - xoffset)
                  (st.1.originY + st.1.yInterval * (r : ℚ)) * verticalScale)
            else st.1)
      ∧ (verticalScale = 1 →
          getInterpolatedValueBand band.toRasterBand
            (st.1.originX + st.1.xInterval * (c : ℚ) - xoffset)
            (st.1.originY + st.1.yInterval * (r : ℚ)) ≠ 0 →
          (sampleBand band (bandParameters band verticalScale).1
            (bandParameters band verticalScale).2.1 (bandParameters band verticalScale).2.2
            xoffset st c r).1
          = st.1.setHeight c.toNat r.toNat
              (getInterpolatedValueBand band.toRasterBand
                (st.1.originX + st.1.xInterval * (c : ℚ) - xoffset)
                (st.1.originY + st.1.yInterval * (r : ℚ)))) := by
  have hp : bandParameters band verticalScale = (0, 0, verticalScale) := by
    simp [bandParameters, h1, h2, h3]
  refine ⟨hp, ?_, ?_⟩
  · rw [hp]
    simp only [sampleBand, zero_add]
  · intro hv hne
    rw [hp]
    simp only [sampleBand, zero_add, hv, mul_one, if_pos hne]

/-- Witness of C18 (amended): the band without metadata in a data set of
vertical scale `2`. -/
theorem bandParameters_defaults_witness :
    bandParameters datelineBand 2 = (0, 0, 2) :=
  (bandParameters_defaults datelineBand 2 0
    ({ originX := 0, originY := 0, xInterval := 1, yInterval := 1, numColumns := 1, numRows := 1
       heights := [0] }, []) 0 0 rfl rfl rfl).1

/-- C18 as stated fails: for the band without no-data value, offset and scale
in a data set of vertical scale `2`, the scale used is `2`, and the heights
written are `10` where the interpolated value is `5`. -/
theorem readHeightField_uses_vertical_scale :
    datelineBand.noDataValue = none ∧ datelineBand.offset = none ∧ datelineBand.scale = none
      ∧ bandParameters datelineBand 2 = (0, 0, 2)
      ∧ getInterpolatedValueBand datelineBand.toRasterBand 180 0 = 5
      ∧ (readHeightField id id bandSource datelineExtents (worldDestination 2)).map
          (fun r => (r.1._heightField.map (fun hf => hf.heights), r.2))
          = some (some [10, 0, 0, 10], [(180, 0), (180, 0)]) := by
  refine ⟨rfl, rfl, rfl, by decide!, by decide!, by decide!⟩

/-- C19: for a coordinate system that is not a key of the cache and is
equivalent to the own one of the source, `computeSpatialProperties` returns the
own properties of the source and leaves the source data, cache included,
unchanged; for a coordinate system that is a key of the cache it returns the
stored entry and leaves the source data, cache included, unchanged; in both
cases a second call returns the same. -/
theorem computeSpatialProperties_cache
    (areCoordinateSystemEquivalent : CoordinateSystemPtr → CoordinateSystemPtr → Bool)
    (warp : SourceData → CoordinateSystemPtr → WarpOutcome)
    (computeExtents : SpatialProperties → SpatialProperties)
    (self : SourceData) (cs : CoordinateSystemPtr) :
    (findProperties cs self._spatialPropertiesMap = none →
        areCoordinateSystemEquivalent self._cs cs = true →
        computeSpatialProperties areCoordinateSystemEquivalent warp computeExtents self cs
          = (self.toSpatialProperties, self))
      ∧ (∀ sp : SpatialProperties, findProperties cs self._spatialPropertiesMap = some sp →
        computeSpatialProperties areCoordinateSystemEquivalent warp computeExtents self cs
          = (sp, self))
      ∧ ((findProperties cs self._spatialPropertiesMap ≠ none
            ∨ areCoordinateSystemEquivalent self._cs cs = true) →
        computeSpatialProperties areCoordinateSystemEquivalent warp computeExtents
            (computeSpatialProperties areCoordinateSystemEquivalent warp computeExtents
              self cs).2 cs
          = computeSpatialProperties areCoordinateSystemEquivalent warp computeExtents
              self cs) := by
  have hA : findProperties cs self._spatialPropertiesMap = none →
      areCoordinateSystemEquivalent self._cs cs = true →
      computeSpatialProperties areCoordinateSystemEquivalent warp computeExtents self cs
        = (self.toSpatialProperties, self) := by
    intro h1 h2
    simp [computeSpatialProperties, h1, h2]
  have hB : ∀ sp : SpatialProperties, findProperties cs self._spatialPropertiesMap = some sp →
      computeSpatialProperties areCoordinateSystemEquivalent warp computeExtents self cs
        = (sp, self) := by
    intro sp h1
    simp [computeSpatialProperties, h1]
  refine ⟨hA, hB, ?_⟩
  intro h
  cases hf : findProperties cs self._spatialPropertiesMap with
  | some sp =>
    rw [hB sp hf]
    exact hB sp hf
  | none =>
    rcases h with h | h
    · exact absurd hf h
    · rw [hA hf h]
      exact hA hf h

/-- Witness of C19: a cache that holds an entry for the coordinate system
`some 7`. -/
theorem computeSpatialProperties_cache_witness :
    (computeSpatialProperties (fun _ _ => false) (fun _ _ => WarpOutcome.noTransformer) id
      { imageSource with _spatialPropertiesMap := [(some 7, bandSource.toSpatialProperties)] }
      (some 7)).1 = bandSource.toSpatialProperties :=
  congrArg Prod.fst
    ((computeSpatialProperties_cache (fun _ _ => false) (fun _ _ => WarpOutcome.noTransformer) id
      { imageSource with _spatialPropertiesMap := [(some 7, bandSource.toSpatialProperties)] }
      (some 7)).2.1 bandSource.toSpatialProperties (by simp [findProperties]))

/-- C20 (amended): a probe of `readImage` whose destination window is
degenerate (`destWidth = 0` or `destHeight = 0`) leaves the destination image
unchanged, because the composite loop runs no iteration; the probe is not
skipped: the source band reads are issued all the same, bands 1, 2, 3 (and 4)
for a source of three bands or more, band 1 once for a colour-table source,
band 1 three times for a grey-scale source, and none only for a source that
has no such bands. -/
theorem readImageProbe_degenerate (fl fd : ℚ → ℚ) (fresh : ℤ → Nat) (self : SourceData)
    (ds : GDALDataset) (s_bb d_bb : GeospatialExtents) (xoffset : ℚ) (image : Image)
    (hv : (d_bb.intersection s_bb xoffset).valid = true) (hds : self._gdalDataset = some ds)
    (hd : (destWindow fl fd image.s image.t d_bb (d_bb.intersection s_bb xoffset)).width = 0
      ∨ (destWindow fl fd image.s image.t d_bb (d_bb.intersection s_bb xoffset)).height = 0) :
    ∃ reads : List ReadRequest,
      readImageProbe fl fd fresh self s_bb d_bb xoffset image = some (image, reads)
        ∧ (3 ≤ ds.GetRasterCount →
            reads.map (fun r => (r.band, r.bufOffset))
              = if 4 ≤ ds.GetRasterCount then [(1, 0), (2, 1), (3, 2), (4, 3)]
                else [(1, 0), (2, 1), (3, 2)])
        ∧ (ds.GetRasterCount < 3 → 1 ≤ ds.GetRasterCount →
            ((ds.GetRasterBand 1).bind (fun b => b.colorTable)).isSome = true →
            reads.map (fun r => (r.band, r.bufOffset)) = [(1, 0)])
        ∧ (ds.GetRasterCount = 1 →
            (ds.GetRasterBand 1).bind (fun b => b.colorTable) = none →
            reads.map (fun r => (r.band, r.bufOffset)) = [(1, 0), (1, 1), (1, 2)])
        ∧ (hasImageBands ds = false → reads = []) := by
  set ib := d_bb.intersection s_bb xoffset with hib
  set w := sourceWindow fl fd self._numValuesX self._numValuesY s_bb ib xoffset with hw
  set d := destWindow fl fd image.s image.t d_bb ib with hdw
  have hprobe : readImageProbe fl fd fresh self s_bb d_bb xoffset image
      = readImageWindow fl fresh ds self._numValuesY w d image := by
    simp [readImageProbe, ← hib, hv, hds]
  rw [hprobe]
  have hdeg : d.width ≤ 0 ∨ d.height ≤ 0 := by
    rcases hd with h | h
    · left; omega
    · right; omega
  have hzero : d.width * d.height = 0 := by
    rcases hd with h | h <;> simp [h]
  by_cases hb : hasImageBands ds = true
  · have hps : (0 : ℤ) < (if decide (ds.GetRasterCount ≥ 4) = true then 4 else 3) * 1 := by
      split_ifs <;> norm_num
    set ps : ℤ := (if decide (ds.GetRasterCount ≥ 4) = true then 4 else 3) * 1 with hpsdef
    have halloc : ¬ ((readSize w d).2.1 * (readSize w d).2.2 * ps < 0) := by
      rcases readSize_cases w d with ⟨_, e1, e2, g1, g2⟩ | ⟨_, e1, e2⟩
      · rw [e1, e2]
        have : 0 ≤ w.width * w.height := mul_nonneg (by omega) (by omega)
        have := mul_nonneg this hps.le
        omega
      · rw [e1, e2, hzero]
        simp
    have halloc2 : ¬ (d.width * d.height * ps < 0) := by
      rw [hzero]; simp
    have hreq := readBands_requests ds self._numValuesY w (readSize w d).2.1 (readSize w d).2.2
      ps fresh
    refine ⟨(readBands ds self._numValuesY w (readSize w d).2.1 (readSize w d).2.2 ps fresh).2,
      ?_, ?_, ?_, ?_, ?_⟩
    · unfold readImageWindow
      simp only [hb, if_true, ← hpsdef, if_neg halloc, halloc2, and_false, if_false,
        compositeImage_degenerate _ _ _ _ _ _ _ _ _ _ _ hdeg]
    · intro h3
      rw [hreq, if_pos h3]
    · intro h3 h1 hct
      rw [hreq, if_neg (by omega), if_pos ⟨h1, hct⟩]
    · intro h1 hct
      rw [hreq, if_neg (by omega), if_neg (by simp [hct]), if_pos h1]
    · intro hn
      rw [hn] at hb
      exact absurd hb (by simp)
  · have hb' : hasImageBands ds = false := by simpa using hb
    have hnot : ∀ {P : Prop}, hasImageBands ds = true → P := fun h => absurd h hb
    refine ⟨[], ?_, ?_, ?_, ?_, fun _ => rfl⟩
    · unfold readImageWindow
      simp [hb']
    · intro h3
      apply hnot
      unfold hasImageBands
      simp [h3]
    · intro _ h1 hct
      apply hnot
      unfold hasImageBands
      simp [h1, hct]
    · intro h1 _
      apply hnot
      unfold hasImageBands
      simp [h1]

/-- Witness of C20 (amended): the source of three bands that touches the
destination along `x = 1`, whose destination window has width `0`, and the
same with a source of one grey band. -/
theorem readImageProbe_degenerate_witness :
    (∃ reads : List ReadRequest,
      readImageProbe id id (fun _ => 0) imageSource rightExtents unitExtents 0 blankImage
          = some (blankImage, reads)
        ∧ reads.map (fun r => (r.band, r.bufOffset)) = [(1, 0), (2, 1), (3, 2)])
      ∧ ∃ reads : List ReadRequest,
        readImageProbe id id (fun _ => 0) greySource rightExtents unitExtents 0 blankImage
            = some (blankImage, reads)
          ∧ reads.map (fun r => (r.band, r.bufOffset)) = [(1, 0), (1, 1), (1, 2)] :=
  by
  obtain ⟨reads, h1, h2, _⟩ := readImageProbe_degenerate id id (fun _ => 0) imageSource
    threeGreyBands rightExtents unitExtents 0 blankImage (by decide!) rfl (Or.inl (by decide!))
  obtain ⟨reads2, g1, _, _, g4, _⟩ := readImageProbe_degenerate id id (fun _ => 0) greySource
    { bands := [greyBand 10] } rightExtents unitExtents 0 blankImage (by decide!) rfl
    (Or.inl (by decide!))
  exact ⟨⟨reads, h1, h2 (by decide)⟩, ⟨reads2, g1, g4 (by decide) rfl⟩⟩

/-- C20 as stated fails: the probe of the source that touches the destination
along `x = 1` has the degenerate windows `windowWidth = 0` and `destWidth = 0`,
and three `RasterIO` requests are issued for it. -/
theorem readImageProbe_degenerate_reads :
    (sourceWindow id id 4 4 rightExtents (unitExtents.intersection rightExtents 0) 0).width = 0
      ∧ (destWindow id id 4 4 unitExtents (unitExtents.intersection rightExtents 0)).width = 0
      ∧ (readImageProbe id id (fun _ => 0) imageSource rightExtents unitExtents 0 blankImage).map
          (fun r => r.2.map (fun q => (q.band, q.xSize, q.bufXSize)))
          = some [(1, 0, 0), (2, 0, 0), (3, 0, 0)] := by
  refine ⟨by decide!, by decide!, by decide!⟩

/-! ## Lemmas on the cache and on the resampling coordinates -/

theorem findProperties_assign (cs : CoordinateSystemPtr) (sp : SpatialProperties)
    (m : List (CoordinateSystemPtr × SpatialProperties)) :
    findProperties cs (assignProperties cs sp m) = some sp := by
  induction m with
  | nil => simp [assignProperties, findProperties]
  | cons p rest ih =>
    obtain ⟨k, old⟩ := p
    by_cases hk : k = cs
    · simp [assignProperties, findProperties, hk]
    · simp [assignProperties, findProperties, hk, ih]

theorem computeSpatialProperties_failure
    (areCoordinateSystemEquivalent : CoordinateSystemPtr → CoordinateSystemPtr → Bool)
    (warp : SourceData → CoordinateSystemPtr → WarpOutcome)
    (computeExtents : SpatialProperties → SpatialProperties)
    (self : SourceData) (cs : CoordinateSystemPtr) (ds : GDALDataset)
    (hfind : findProperties cs self._spatialPropertiesMap = none)
    (hne : areCoordinateSystemEquivalent self._cs cs = false)
    (h1 : self._cs.isSome = true) (h2 : cs.isSome = true) (hds : self._gdalDataset = some ds)
    (hw : warp self cs = WarpOutcome.noTransformer ∨ warp self cs = WarpOutcome.noWarp) :
    computeSpatialProperties areCoordinateSystemEquivalent warp computeExtents self cs
      = (self.toSpatialProperties,
          { self with
            _spatialPropertiesMap :=
              assignProperties cs self.toSpatialProperties self._spatialPropertiesMap }) := by
  rcases hw with hw | hw <;>
    simp [computeSpatialProperties, hfind, hne, h1, h2, hds, hw]

/-- One axis of `resampleCoords`: for a destination index `0 ≤ i < dest` and a
read size `read ≥ 1`, the truncated source coordinate is within
`[0, read - 1]`. -/
theorem resampleAxis_bounds (read dest i : ℤ) (hread : 1 ≤ read) (hi0 : 0 ≤ i) (hi : i < dest) :
    0 ≤ (if dest > 1 then (i : ℚ) / ((dest : ℚ) - 1) else 0) * ((read : ℚ) - 1)
      ∧ (if dest > 1 then (i : ℚ) / ((dest : ℚ) - 1) else 0) * ((read : ℚ) - 1)
          ≤ ((read - 1 : ℤ) : ℚ)
      ∧ 0 ≤ truncate ((if dest > 1 then (i : ℚ) / ((dest : ℚ) - 1) else 0) * ((read : ℚ) - 1))
      ∧ truncate ((if dest > 1 then (i : ℚ) / ((dest : ℚ) - 1) else 0) * ((read : ℚ) - 1))
          ≤ read - 1 := by
  have hr : (0 : ℚ) ≤ (read : ℚ) - 1 := by
    have : (1 : ℚ) ≤ (read : ℚ) := by exact_mod_cast hread
    linarith
  have hs : (0 : ℚ) ≤ (if dest > 1 then (i : ℚ) / ((dest : ℚ) - 1) else 0)
      ∧ (if dest > 1 then (i : ℚ) / ((dest : ℚ) - 1) else 0) ≤ 1 := by
    split_ifs with hd
    · have hd' : (0 : ℚ) < (dest : ℚ) - 1 := by
        have : (1 : ℚ) < (dest : ℚ) := by exact_mod_cast hd
        linarith
      have hi' : (i : ℚ) ≤ (dest : ℚ) - 1 := by
        have : i ≤ dest - 1 := by omega
        have : (i : ℚ) ≤ ((dest - 1 : ℤ) : ℚ) := by exact_mod_cast this
        simpa using this
      constructor
      · exact div_nonneg (by exact_mod_cast hi0) hd'.le
      · rw [div_le_one hd']; exact hi'
    · exact ⟨le_refl _, zero_le_one⟩
  set s : ℚ := (if dest > 1 then (i : ℚ) / ((dest : ℚ) - 1) else 0) with hsdef
  have h0 : 0 ≤ s * ((read : ℚ) - 1) := mul_nonneg hs.1 hr
  have h1 : s * ((read : ℚ) - 1) ≤ ((read - 1 : ℤ) : ℚ) := by
    have : s * ((read : ℚ) - 1) ≤ 1 * ((read : ℚ) - 1) := mul_le_mul_of_nonneg_right hs.2 hr
    simpa using this
  have ht : truncate (s * ((read : ℚ) - 1)) = ⌊s * ((read : ℚ) - 1)⌋ := by
    simp only [truncate, if_pos h0]
  refine ⟨h0, h1, ?_, ?_⟩
  · rw [ht]; exact Int.floor_nonneg.2 h0
  · rw [ht]
    have : ((⌊s * ((read : ℚ) - 1)⌋ : ℤ) : ℚ) ≤ ((read - 1 : ℤ) : ℚ) :=
      le_trans (Int.floor_le _) h1
    exact_mod_cast this

theorem roundHalfEven_tie_odd (q : ℚ) (f : ℤ) (h1 : q = (f : ℚ) + 1 / 2) (h2 : f % 2 = 1) :
    roundHalfEven q = f + 1 := by
  have hf : ⌊q⌋ = f := by rw [Int.floor_eq_iff]; constructor <;> linarith
  simp only [roundHalfEven, hf]
  rw [if_neg (by linarith), if_neg (by linarith), if_neg (by omega)]

theorem roundBinary64_eval (q : ℚ) (e m : ℤ) (hq : 0 < q) (h1 : (2 : ℚ) ^ e ≤ q)
    (h2 : q < (2 : ℚ) ^ (e + 1)) (he : -1022 ≤ e)
    (hm : roundHalfEven (q / (2 : ℚ) ^ (e - 52)) = m) :
    roundBinary64 q = (m : ℚ) * (2 : ℚ) ^ (e - 52) := by
  have hlog : Int.log 2 |q| = e := by rw [abs_of_pos hq]; exact log2_eq q e hq h1 h2
  simp only [roundBinary64, if_neg hq.ne', hlog, max_eq_left he, hm]

/-- A positive value with a significand of 53 bits is a `double`. -/
theorem roundBinary64_exact (q : ℚ) (e m : ℤ) (hq : 0 < q) (h1 : (2 : ℚ) ^ e ≤ q)
    (h2 : q < (2 : ℚ) ^ (e + 1)) (he : -1022 ≤ e) (hm : q = (m : ℚ) * (2 : ℚ) ^ (e - 52)) :
    roundBinary64 q = q := by
  have hpos : (0 : ℚ) < (2 : ℚ) ^ (e - 52) := by positivity
  have hdiv : q / (2 : ℚ) ^ (e - 52) = (m : ℚ) := by
    rw [div_eq_iff hpos.ne']
    exact hm
  rw [roundBinary64_eval q e m hq h1 h2 he (by rw [hdiv]; exact roundHalfEven_intCast m)]
  exact hm.symm

/-- The roundings met by the source window of a raster of 16777219 columns at
the sliver `[1 - 2^-30, 1]`. -/
theorem binary_wide_raster_eval :
    roundBinary64 (1 - 1 / 1073741824) = 1 - 1 / 1073741824
      ∧ roundBinary64 1 = 1
      ∧ roundBinary32 16777219 = 16777220
      ∧ roundBinary64 (16777220 * (1 - 1 / 1073741824)) = 16777220 * (1 - 1 / 1073741824)
      ∧ roundBinary32 (16777220 * (1 - 1 / 1073741824)) = 16777220
      ∧ roundBinary64 16777220 = 16777220
      ∧ roundBinary32 16777220 = 16777220 := by
  refine ⟨?_, ?_, ?_, ?_, ?_, ?_, ?_⟩
  · exact roundBinary64_exact _ (-1) 9007199246352384 (by norm_num) (by norm_num) (by norm_num)
      (by norm_num) (by norm_num)
  · exact roundBinary64_exact _ 0 4503599627370496 (by norm_num) (by norm_num) (by norm_num)
      (by norm_num) (by norm_num)
  · rw [roundBinary32_eval _ 24 8388610 (by norm_num) (by norm_num) (by norm_num) (by norm_num)
      (by rw [show (8388610 : ℤ) = 8388609 + 1 from rfl]
          apply roundHalfEven_tie_odd <;> norm_num)]
    norm_num
  · exact roundBinary64_exact _ 24 4503600696918015 (by norm_num) (by norm_num) (by norm_num)
      (by norm_num) (by norm_num)
  · rw [roundBinary32_eval _ 24 8388610 (by norm_num) (by norm_num) (by norm_num) (by norm_num)
      (by rw [show (8388610 : ℤ) = 8388609 + 1 from rfl]
          apply roundHalfEven_up <;> norm_num)]
    norm_num
  · exact roundBinary64_exact _ 24 4503600701112320 (by norm_num) (by norm_num) (by norm_num)
      (by norm_num) (by norm_num)
  · rw [roundBinary32_eval _ 24 8388610 (by norm_num) (by norm_num) (by norm_num) (by norm_num)
      (by rw [show ((16777220 : ℚ) / 2 ^ ((24 : ℤ) - 23)) = ((8388610 : ℤ) : ℚ) by norm_num]
          exact roundHalfEven_intCast _)]
    norm_num

/-! ## Cache failure, corner indices, source window and resampling: the claims -/

/-- C21 (amended): when the transformer cannot be created or the suggested warp
output fails, for a coordinate system that is neither cached nor equivalent,
`computeSpatialProperties` signals no error: it returns a copy of the own
spatial properties of the source, and that copy is stored in the cache under
the coordinate system, so that a later call returns it as a cache hit. -/
theorem computeSpatialProperties_warp_failure
    (areCoordinateSystemEquivalent : CoordinateSystemPtr → CoordinateSystemPtr → Bool)
    (warp : SourceData → CoordinateSystemPtr → WarpOutcome)
    (computeExtents : SpatialProperties → SpatialProperties)
    (self : SourceData) (cs : CoordinateSystemPtr) (ds : GDALDataset)
    (hfind : findProperties cs self._spatialPropertiesMap = none)
    (hne : areCoordinateSystemEquivalent self._cs cs = false)
    (h1 : self._cs.isSome = true) (h2 : cs.isSome = true) (hds : self._gdalDataset = some ds)
    (hw : warp self cs = WarpOutcome.noTransformer ∨ warp self cs = WarpOutcome.noWarp) :
    (computeSpatialProperties areCoordinateSystemEquivalent warp computeExtents self cs).1
        = self.toSpatialProperties
      ∧ findProperties cs
          (computeSpatialProperties areCoordinateSystemEquivalent warp computeExtents
            self cs).2._spatialPropertiesMap = some self.toSpatialProperties
      ∧ (computeSpatialProperties areCoordinateSystemEquivalent warp computeExtents
          (computeSpatialProperties areCoordinateSystemEquivalent warp computeExtents
            self cs).2 cs).1 = self.toSpatialProperties := by
  have h := computeSpatialProperties_failure areCoordinateSystemEquivalent warp computeExtents
    self cs ds hfind hne h1 h2 hds hw
  have hf := findProperties_assign cs self.toSpatialProperties self._spatialPropertiesMap
  rw [h]
  refine ⟨rfl, hf, ?_⟩
  simp only [computeSpatialProperties, hf]

/-- Witness of C21 (amended): the image source, a coordinate system `some 2`
that is not equivalent, and a transformer that cannot be created. -/
theorem computeSpatialProperties_warp_failure_witness :
    (computeSpatialProperties (fun _ _ => false) (fun _ _ => WarpOutcome.noTransformer) id
      imageSource (some 2)).1 = imageSource.toSpatialProperties :=
  (computeSpatialProperties_warp_failure (fun _ _ => false)
    (fun _ _ => WarpOutcome.noTransformer) id imageSource (some 2) threeGreyBands rfl rfl rfl rfl
    rfl (Or.inl rfl)).1

/-- C21 as stated fails: with a transformer that cannot be created, the call
for the coordinate system `some 2` returns the own properties of the image
source (4x4 values over `rightExtents`) and leaves an entry for `some 2` in the
cache. -/
theorem computeSpatialProperties_failure_not_propagated :
    (computeSpatialProperties (fun _ _ => false) (fun _ _ => WarpOutcome.noTransformer) id
        imageSource (some 2)).1._numValuesX = 4
      ∧ (computeSpatialProperties (fun _ _ => false) (fun _ _ => WarpOutcome.noTransformer) id
        imageSource (some 2)).1._extents = rightExtents
      ∧ ((findProperties (some 2)
          (computeSpatialProperties (fun _ _ => false) (fun _ _ => WarpOutcome.noTransformer) id
            imageSource (some 2)).2._spatialPropertiesMap).map
            (fun sp => sp._extents)) = some rightExtents := by
  have h := computeSpatialProperties_failure (fun _ _ => false)
    (fun _ _ => WarpOutcome.noTransformer) id imageSource (some 2) threeGreyBands rfl rfl rfl rfl
    rfl (Or.inl rfl)
  have hf := findProperties_assign (some 2) imageSource.toSpatialProperties
    imageSource._spatialPropertiesMap
  rw [h]
  refine ⟨rfl, rfl, ?_⟩
  rw [hf]
  rfl

/-- C22: for a grid of at least one row and one column and every fractional
row `r` and column `c`, the corner indices both `getInterpolatedValue` overloads
compute satisfy `0 ≤ rowMin ≤ rowMax ≤ numRows - 1` and
`0 ≤ colMin ≤ colMax ≤ numColumns - 1`; for the heightfield overload every
corner `(col, row)` is an element `col + row * numColumns` of the
`numColumns * numRows` heights. -/
theorem cornerIndices_in_grid (numColumns numRows : ℤ) (c r : ℚ) (hc : 1 ≤ numColumns)
    (hr : 1 ≤ numRows) :
    (0 ≤ (cornerIndices numColumns numRows c r).1
        ∧ (cornerIndices numColumns numRows c r).1 ≤ (cornerIndices numColumns numRows c r).2.1
        ∧ (cornerIndices numColumns numRows c r).2.1 ≤ numRows - 1)
      ∧ (0 ≤ (cornerIndices numColumns numRows c r).2.2.1
        ∧ (cornerIndices numColumns numRows c r).2.2.1
            ≤ (cornerIndices numColumns numRows c r).2.2.2
        ∧ (cornerIndices numColumns numRows c r).2.2.2 ≤ numColumns - 1)
      ∧ (∀ (hf : HeightField) (x y : ℚ), (hf.numColumns : ℤ) = numColumns →
          (hf.numRows : ℤ) = numRows → c = (hf.toGrid x y).1 → r = (hf.toGrid x y).2 →
          ∀ col ∈ [(cornerIndices numColumns numRows c r).2.2.1,
                    (cornerIndices numColumns numRows c r).2.2.2],
          ∀ row ∈ [(cornerIndices numColumns numRows c r).1,
                    (cornerIndices numColumns numRows c r).2.1],
            col.toNat + row.toNat * hf.numColumns < hf.numColumns * hf.numRows) := by
  obtain ⟨b1, b2, b3, b4, b5, b6⟩ := cornerIndices_bounds numColumns numRows c r hc hr
  refine ⟨⟨b1, b2, b3⟩, ⟨b4, b5, b6⟩, ?_⟩
  intro hf x y hnc hnr _ _ col hcol row hrow
  have hcolb : col.toNat < hf.numColumns := by
    simp only [List.mem_cons, List.mem_singleton, List.not_mem_nil, or_false] at hcol
    rcases hcol with rfl | rfl <;> omega
  have hrowb : row.toNat + 1 ≤ hf.numRows := by
    simp only [List.mem_cons, List.mem_singleton, List.not_mem_nil, or_false] at hrow
    rcases hrow with rfl | rfl <;> omega
  calc col.toNat + row.toNat * hf.numColumns
      < hf.numColumns + row.toNat * hf.numColumns := by omega
    _ = (row.toNat + 1) * hf.numColumns := by ring
    _ ≤ hf.numRows * hf.numColumns := Nat.mul_le_mul_right _ hrowb
    _ = hf.numColumns * hf.numRows := Nat.mul_comm _ _

/-- Witness of C22: the 2x2 corner field sampled left of and above the grid. -/
theorem cornerIndices_in_grid_witness :
    0 ≤ (cornerIndices 2 2 (-7 / 2) (9 / 2)).1
      ∧ (cornerIndices 2 2 (-7 / 2) (9 / 2)).1 ≤ (cornerIndices 2 2 (-7 / 2) (9 / 2)).2.1
      ∧ (cornerIndices 2 2 (-7 / 2) (9 / 2)).2.1 ≤ 2 - 1 :=
  (cornerIndices_in_grid 2 2 (-7 / 2) (9 / 2) (by decide) (by decide)).1

/-- C24 (amended): for a source raster of `numValuesX x numValuesY` values, both
at most `2^24`, source extents of width and height at least `2^-1021` whose x
bounds are `double`s, and a valid intersection contained in the source extents
shifted by `xoffset`, the source window of `readImage` satisfies `windowX ≥ 0`,
`windowY ≥ 0`, `windowWidth ≥ 0`, `windowHeight ≥ 0`,
`windowX + windowWidth ≤ numValuesX` and `windowY + windowHeight ≤ numValuesY`,
so the row offset `numValuesY - (windowY + windowHeight)` of the band read is
`≥ 0` and the read window lies inside the raster, in every arithmetic whose
conversions to `float` are monotone and to nearest and whose `double`
operations are monotone with a relative error of at most `2^-53` on the normal
range; IEEE 754 round-to-nearest-even arithmetic below the overflow threshold
and exact arithmetic are two. -/
theorem sourceWindow_within_raster (fl fd : ℚ → ℚ) (numValuesX numValuesY : Nat)
    (s_bb ib : GeospatialExtents) (xoffset : ℚ)
    (hfl : RoundsLikeFloat fl) (hfd : RoundsLikeDouble fd)
    (hnx : numValuesX ≤ 16777216) (hny : numValuesY ≤ 16777216)
    (hrep1 : fd s_bb.xMin = s_bb.xMin) (hrep2 : fd s_bb.xMax = s_bb.xMax)
    (hx : 1 / 2 ^ 1021 ≤ s_bb.xMax - s_bb.xMin) (hy : 1 / 2 ^ 1021 ≤ s_bb.yMax - s_bb.yMin)
    (h1 : s_bb.xMin + xoffset ≤ ib.xMin) (h2 : ib.xMin ≤ ib.xMax)
    (h3 : ib.xMax ≤ s_bb.xMax + xoffset)
    (h4 : s_bb.yMin ≤ ib.yMin) (h5 : ib.yMin ≤ ib.yMax) (h6 : ib.yMax ≤ s_bb.yMax) :
    0 ≤ (sourceWindow fl fd numValuesX numValuesY s_bb ib xoffset).x
      ∧ 0 ≤ (sourceWindow fl fd numValuesX numValuesY s_bb ib xoffset).y
      ∧ 0 ≤ (sourceWindow fl fd numValuesX numValuesY s_bb ib xoffset).width
      ∧ 0 ≤ (sourceWindow fl fd numValuesX numValuesY s_bb ib xoffset).height
      ∧ (sourceWindow fl fd numValuesX numValuesY s_bb ib xoffset).x
          + (sourceWindow fl fd numValuesX numValuesY s_bb ib xoffset).width ≤ numValuesX
      ∧ (sourceWindow fl fd numValuesX numValuesY s_bb ib xoffset).y
          + (sourceWindow fl fd numValuesX numValuesY s_bb ib xoffset).height ≤ numValuesY
      ∧ 0 ≤ (numValuesY : ℤ)
          - ((sourceWindow fl fd numValuesX numValuesY s_bb ib xoffset).y
            + (sourceWindow fl fd numValuesX numValuesY s_bb ib xoffset).height)
      ∧ (numValuesY : ℤ)
          - ((sourceWindow fl fd numValuesX numValuesY s_bb ib xoffset).y
            + (sourceWindow fl fd numValuesX numValuesY s_bb ib xoffset).height)
          + (sourceWindow fl fd numValuesX numValuesY s_bb ib xoffset).height
          ≤ numValuesY := by
  obtain ⟨b1, b2, b3, b4, b5, b6⟩ := sourceWindow_bounds fl fd hfl hfd numValuesX numValuesY
    s_bb ib xoffset (Int.natCast_nonneg _) (Int.natCast_nonneg _) (by exact_mod_cast hnx)
    (by exact_mod_cast hny) hrep1 hrep2 hx hy h1 h2 h3 h4 h5 h6
  refine ⟨b1, b2, b3, b4, b5, b6, ?_, ?_⟩ <;> omega

/-- Witness of C24 (amended): a 4x4 raster over `[1, 2] x [0, 1]` and the
intersection with `[0, 1] x [0, 1]`, of zero width, in IEEE arithmetic. -/
theorem sourceWindow_within_raster_witness :
    0 ≤ (sourceWindow roundBinary32 roundBinary64 (4 : Nat) (4 : Nat) rightExtents
        (unitExtents.intersection rightExtents 0) 0).x :=
  (sourceWindow_within_raster roundBinary32 roundBinary64 4 4 rightExtents
    (unitExtents.intersection rightExtents 0) 0
    roundsLikeFloat_binary32 roundsLikeDouble_binary64 (by decide) (by decide)
    (roundBinary64_exact _ 0 4503599627370496 (by norm_num [rightExtents])
      (by norm_num [rightExtents]) (by norm_num [rightExtents]) (by norm_num)
      (by norm_num [rightExtents]))
    (roundBinary64_exact _ 1 4503599627370496 (by norm_num [rightExtents])
      (by norm_num [rightExtents]) (by norm_num [rightExtents]) (by norm_num)
      (by norm_num [rightExtents]))
    (by norm_num [rightExtents]) (by norm_num [rightExtents])
    (by decide!) (by decide!) (by decide!) (by decide!) (by decide!) (by decide!)).1

/-- C24 as stated fails: for a raster of 16777219 columns over
`[0, 1] x [0, 1]` and the intersection `[1 - 2^-30, 1] x [0, 1]`, which lies
inside the source extents, the conversion `(float)_numValuesX` rounds to
16777220 and the code computes `windowX = 16777220` and `windowWidth = -1`, in
IEEE arithmetic. -/
theorem sourceWindow_wide_raster :
    (sourceWindow roundBinary32 roundBinary64 16777219 1 unitExtents sliverExtents 0).x
        = 16777220
      ∧ (sourceWindow roundBinary32 roundBinary64 16777219 1 unitExtents sliverExtents 0).width
        = -1 := by
  obtain ⟨e1, e2, e3, e4, e5, e6, e7⟩ := binary_wide_raster_eval
  have hx : windowProportion roundBinary32 roundBinary64 16777219
      (roundBinary64 (roundBinary64 (sliverExtents.xMin - 0) - unitExtents.xMin))
      (roundBinary64 (unitExtents.xMax - unitExtents.xMin)) = some 16777220 := by
    simp only [windowProportion, sliverExtents, unitExtents, sub_zero, Int.cast_ofNat, e1, e2, e3,
      e4, e5, div_one, one_ne_zero, if_false]
  have hw : windowProportion roundBinary32 roundBinary64 16777219
      (roundBinary64 (roundBinary64 (sliverExtents.xMax - 0) - unitExtents.xMin))
      (roundBinary64 (unitExtents.xMax - unitExtents.xMin)) = some 16777220 := by
    simp only [windowProportion, sliverExtents, unitExtents, sub_zero, Int.cast_ofNat, e2, e3,
      mul_one, e6, e7, div_one, one_ne_zero, if_false]
  simp only [sourceWindow, hx, hw]
  constructor <;> decide!

/-- C25: in the resampling loop, for read and destination sizes of at least 1
and every destination pixel `(i, j)`, the base source pixel satisfies
`0 ≤ read_i ≤ readWidth - 1` and `0 ≤ read_j ≤ readHeight - 1`, the right
neighbour is read (`flt_read_ir ≠ 0`) only when `read_i + 1 ≤ readWidth - 1`, the
lower neighbour (`flt_read_jr ≠ 0`) only when `read_j + 1 ≤ readHeight - 1`, so
every source pixel read is one of the `readWidth * readHeight` pixels of the
temporary buffer, and the pixel written is one of the `destWidth * destHeight`
pixels of the output buffer. -/
theorem resampleCoords_in_buffer (readWidth readHeight destWidth destHeight i j : ℤ)
    (hrw : 1 ≤ readWidth) (hrh : 1 ≤ readHeight) (hi0 : 0 ≤ i) (hi : i < destWidth)
    (hj0 : 0 ≤ j) (hj : j < destHeight) :
    (0 ≤ (resampleCoords readWidth readHeight destWidth destHeight i j).1
        ∧ (resampleCoords readWidth readHeight destWidth destHeight i j).1 ≤ readWidth - 1)
      ∧ (0 ≤ (resampleCoords readWidth readHeight destWidth destHeight i j).2.1
        ∧ (resampleCoords readWidth readHeight destWidth destHeight i j).2.1 ≤ readHeight - 1)
      ∧ ((resampleCoords readWidth readHeight destWidth destHeight i j).2.2.1 ≠ 0 →
          (resampleCoords readWidth readHeight destWidth destHeight i j).1 + 1 ≤ readWidth - 1)
      ∧ ((resampleCoords readWidth readHeight destWidth destHeight i j).2.2.2 ≠ 0 →
          (resampleCoords readWidth readHeight destWidth destHeight i j).2.1 + 1
            ≤ readHeight - 1)
      ∧ (0 ≤ (resampleCoords readWidth readHeight destWidth destHeight i j).2.1 * readWidth
            + (resampleCoords readWidth readHeight destWidth destHeight i j).1
        ∧ (resampleCoords readWidth readHeight destWidth destHeight i j).2.1 * readWidth
            + (resampleCoords readWidth readHeight destWidth destHeight i j).1
            < readWidth * readHeight)
      ∧ (0 ≤ j * destWidth + i ∧ j * destWidth + i < destWidth * destHeight) := by
  obtain ⟨_, _, a3, a4⟩ := resampleAxis_bounds readWidth destWidth i hrw hi0 hi
  obtain ⟨_, _, b3, b4⟩ := resampleAxis_bounds readHeight destHeight j hrh hj0 hj
  simp only [resampleCoords]
  set ti := truncate ((if destWidth > 1 then (i : ℚ) / ((destWidth : ℚ) - 1) else 0)
    * ((readWidth : ℚ) - 1)) with hti
  set tj := truncate ((if destHeight > 1 then (j : ℚ) / ((destHeight : ℚ) - 1) else 0)
    * ((readHeight : ℚ) - 1)) with htj
  have ei : (if ti ≥ readWidth then readWidth - 1 else ti) = ti := by
    rw [if_neg (by omega)]
  have ej : (if tj ≥ readHeight then readHeight - 1 else tj) = tj := by
    rw [if_neg (by omega)]
  rw [ei, ej]
  have hflat : ∀ (a b n m : ℤ), 0 ≤ a → a ≤ n - 1 → 0 ≤ b → b ≤ m - 1 →
      0 ≤ b * n + a ∧ b * n + a < n * m := by
    intro a b n m ha0 ha hb0 hb
    constructor
    · have : 0 ≤ b * n := mul_nonneg hb0 (by omega)
      omega
    · have h1 : b * n ≤ (m - 1) * n := mul_le_mul_of_nonneg_right hb (by omega)
      have h2 : (m - 1) * n = n * m - n := by ring
      omega
  refine ⟨⟨a3, a4⟩, ⟨b3, b4⟩, ?_, ?_, hflat ti tj readWidth readHeight a3 a4 b3 b4,
    hflat i j destWidth destHeight hi0 (by omega) hj0 (by omega)⟩
  · intro hne
    by_cases he : ti = readWidth - 1
    · rw [if_pos he] at hne
      exact absurd rfl hne
    · omega
  · intro hne
    by_cases he : tj = readHeight - 1
    · rw [if_pos he] at hne
      exact absurd rfl hne
    · omega

/-- Witness of C25: a 2x2 read buffer resampled to 4x4, destination pixel
`(1, 1)`. -/
theorem resampleCoords_in_buffer_witness :
    0 ≤ (resampleCoords 2 2 4 4 1 1).1 ∧ (resampleCoords 2 2 4 4 1 1).1 ≤ 2 - 1 :=
  (resampleCoords_in_buffer 2 2 4 4 1 1 (by decide) (by decide) (by decide) (by decide)
    (by decide) (by decide)).1

/-! ## Lemmas on the side walls -/

theorem mem_interleave (o : List Nat) :
    ∀ (x : List Nat) (j : Nat), o.length = x.length → j ∈ interleave o x → j ∈ o ∨ j ∈ x := by
  induction o with
  | nil => intro x j _ h; simp [interleave] at h
  | cons a o ih =>
    intro x j hlen h
    cases x with
    | nil => simp at hlen
    | cons b x =>
      simp only [interleave, List.headD_cons, List.tail_cons, List.mem_cons] at h
      rcases h with h | h | h
      · exact Or.inl (by simp [h])
      · exact Or.inr (by simp [h])
      · rcases ih x j (by simpa using hlen) h with h | h
        · exact Or.inl (List.mem_cons_of_mem _ h)
        · exact Or.inr (List.mem_cons_of_mem _ h)

theorem mem_of_getElem?_some {β : Type} (l : List β) (i : Nat) (x : β) (h : l[i]? = some x) :
    x ∈ l := by
  obtain ⟨hlt, heq⟩ := List.getElem?_eq_some_iff.1 h
  exact heq ▸ List.getElem_mem hlt

theorem headD_mem (l : List Nat) (h : l ≠ []) : l.headD 0 ∈ l := by
  cases l with
  | nil => exact absurd rfl h
  | cons a t => simp

theorem flatten_take_getElem? (loops : List (List Nat)) :
    ∀ (m : Nat) (l : List Nat), loops[m]? = some l → ∀ i, i < l.length →
      loops.flatten[(loops.take m).flatten.length + i]? = l[i]? := by
  induction loops with
  | nil => intro m l h; simp at h
  | cons l0 ls ih =>
    intro m l h i hi
    cases m with
    | zero =>
      simp only [List.getElem?_cons_zero, Option.some.injEq] at h
      subst h
      simp [List.getElem?_append_left hi]
    | succ m =>
      simp only [List.getElem?_cons_succ] at h
      simp only [List.take_succ_cons, List.flatten_cons, List.length_append]
      rw [Nat.add_assoc, List.getElem?_append_right (by omega)]
      rw [show l0.length + ((ls.take m).flatten.length + i) - l0.length
        = (ls.take m).flatten.length + i by omega]
      exact ih m l h i hi

theorem flatten_take_length_le (loops : List (List Nat)) :
    ∀ (m : Nat) (l : List Nat), loops[m]? = some l →
      (loops.take m).flatten.length + l.length ≤ loops.flatten.length := by
  induction loops with
  | nil => intro m l h; simp at h
  | cons l0 ls ih =>
    intro m l h
    cases m with
    | zero =>
      simp only [List.getElem?_cons_zero, Option.some.injEq] at h
      subst h
      simp
    | succ m =>
      simp only [List.getElem?_cons_succ] at h
      have := ih m l h
      simp only [List.take_succ_cons, List.flatten_cons, List.length_append]
      omega

/-- The side walls of the Replace branch: one strip for each loop, the `m`-th
one linking the loop to its remapped copy. -/
theorem linkEdgeloops_replace {α : Type} [Inhabited α]
    (reverse : PrimitiveSet → Option PrimitiveSet) (loops : List (List Nat)) :
    ∀ (cur : Nat) (arr : List α),
      (linkEdgeloops reverse true (duplicateLoops loops cur arr).2 loops).length = loops.length
        ∧ ∀ (m : Nat) (l : List Nat), loops[m]? = some l →
            (linkEdgeloops reverse true (duplicateLoops loops cur arr).2 loops)[m]?
              = some (linkAsTriangleStrip
                  ((List.range l.length).map
                    (fun i => cur + (loops.take m).flatten.length + i)) l) := by
  induction loops with
  | nil => intro cur arr; simp [duplicateLoops, linkEdgeloops]
  | cons l0 ls ih =>
    intro cur arr
    obtain ⟨ih1, ih2⟩ := ih (cur + l0.length) (DuplicateIndexOperator.process l0 arr)
    simp only [linkEdgeloops, Bool.true_eq_false, if_false] at ih1 ih2 ⊢
    simp only [duplicateLoops, List.zip_cons_cons, List.flatMap_cons,
      List.singleton_append, List.length_cons, ih1, true_and]
    intro m l h
    cases m with
    | zero =>
      simp only [List.getElem?_cons_zero, Option.some.injEq] at h
      subst h
      simp
    | succ m =>
      simp only [List.getElem?_cons_succ] at h
      simp only [List.getElem?_cons_succ, ih2 m l h, List.take_succ_cons, List.flatten_cons,
        List.length_append, Option.some.injEq]
      congr 2
      funext i
      omega

/-- The primitive-set list and the vertices after a Replace-mode `extrude`: the
top primitives followed by the side walls; the `m`-th side wall interleaves the
indices of the frozen copies with those of the loop, all below the final vertex
count, and every loop vertex is its frozen copy plus `e`. -/
theorem extrudeWithMode_side_walls {α : Type} [Add α] [Inhabited α]
    (reverse : PrimitiveSet → Option PrimitiveSet) (geometry : Geometry α) (e : α)
    (loops : List (List Nat))
    (hidx : ∀ l ∈ loops, ∀ k ∈ l, k < geometry.vertexArray.length)
    (hne : ∀ l ∈ loops, l ≠ []) :
    ∃ strips : List PrimitiveSet,
      (extrudeWithMode reverse Mode.Replace geometry e loops).primitiveSetList
          = makeTopPrimitives reverse true geometry.primitiveSetList ++ strips
        ∧ strips.length = loops.length
        ∧ (extrudeWithMode reverse Mode.Replace geometry e loops).vertexArray.length
          = geometry.vertexArray.length + loops.flatten.length
        ∧ ∀ (m : Nat) (l : List Nat), loops[m]? = some l →
            ∃ strip, strips[m]? = some strip
              ∧ strip.mode = PrimitiveMode.TRIANGLE_STRIP
              ∧ (∀ i, i < l.length →
                  strip.indices[2 * i]?
                      = some (geometry.vertexArray.length + (loops.take m).flatten.length + i)
                    ∧ strip.indices[2 * i + 1]? = l[i]?
                    ∧ ∀ k, l[i]? = some k →
                        ∃ p, (extrudeWithMode reverse Mode.Replace geometry e
                                loops).vertexArray[geometry.vertexArray.length
                                  + (loops.take m).flatten.length + i]? = some p
                          ∧ (extrudeWithMode reverse Mode.Replace geometry e
                                loops).vertexArray[k]? = some (p + e))
              ∧ ∀ j ∈ strip.indices,
                  j < geometry.vertexArray.length + loops.flatten.length := by
  obtain ⟨hlen, hget⟩ := linkEdgeloops_replace reverse loops geometry.vertexArray.length
    geometry.vertexArray
  have hv := vertexArray_replace reverse geometry e loops hidx
  refine ⟨linkEdgeloops reverse true
      (duplicateLoops loops geometry.vertexArray.length geometry.vertexArray).2 loops,
    by simp only [extrudeWithMode, extrudeVertices], hlen,
    by rw [hv, List.length_append, List.length_map, List.length_map], ?_⟩
  intro m l hm
  have hmem : l ∈ loops := mem_of_getElem?_some loops m l hm
  have hl0 : 0 < l.length := List.length_pos.2 (hne l hmem)
  have hoff := flatten_take_length_le loops m l hm
  refine ⟨_, hget m l hm, rfl, ?_, ?_⟩
  · intro i hi
    have hR : ((List.range l.length).map
        (fun i => geometry.vertexArray.length + (loops.take m).flatten.length + i)).length
        = l.length := by simp
    obtain ⟨g1, g2⟩ := getElem?_interleave
      ((List.range l.length).map
        (fun i => geometry.vertexArray.length + (loops.take m).flatten.length + i)) l i
      (by rw [hR]; exact hi) hi
    have hlenI := length_interleave
      ((List.range l.length).map
        (fun i => geometry.vertexArray.length + (loops.take m).flatten.length + i)) l
    rw [hR] at hlenI
    have b1 : 2 * i < (interleave ((List.range l.length).map
        (fun i => geometry.vertexArray.length + (loops.take m).flatten.length + i)) l).length := by
      omega
    have b2 : 2 * i + 1 < (interleave ((List.range l.length).map
        (fun i => geometry.vertexArray.length + (loops.take m).flatten.length + i)) l).length := by
      omega
    refine ⟨?_, ?_, ?_⟩
    · simp only [linkAsTriangleStrip, List.getElem?_append_left b1, g1]
      simp [hi]
    · simp only [linkAsTriangleStrip, List.getElem?_append_left b2, g2]
    · intro k hk
      have hkN : k < geometry.vertexArray.length :=
        hidx l hmem k (mem_of_getElem?_some l i k hk)
      have hflat := flatten_take_getElem? loops m l hm i hi
      rw [hk] at hflat
      refine ⟨geometry.vertexArray.getD k default, ?_, ?_⟩
      · rw [hv, Nat.add_assoc, List.getElem?_append_right (by simp)]
        simp only [List.length_map, Nat.add_sub_cancel_left, List.getElem?_map, hflat,
          Option.map_some']
      · rw [hv, List.getElem?_append_left (by simpa using hkN)]
        simp [List.getD_eq_getElem?_getD, List.getElem?_eq_getElem hkN]
  · intro j hj
    simp only [linkAsTriangleStrip, List.mem_append, List.mem_cons, List.mem_singleton,
      List.not_mem_nil, or_false] at hj
    have hinR : ∀ j ∈ (List.range l.length).map
        (fun i => geometry.vertexArray.length + (loops.take m).flatten.length + i),
        j < geometry.vertexArray.length + loops.flatten.length := by
      intro j hj
      simp only [List.mem_map, List.mem_range] at hj
      obtain ⟨i, hi, rfl⟩ := hj
      omega
    have hinL : ∀ j ∈ l, j < geometry.vertexArray.length + loops.flatten.length := by
      intro j hj
      have := hidx l hmem j hj
      omega
    rcases hj with hj | hj | hj
    · rcases mem_interleave _ l j (by simp) hj with h | h
      · exact hinR j h
      · exact hinL j h
    · apply hinR
      rw [hj]
      apply headD_mem
      intro hr
      have := congrArg List.length hr
      rw [List.length_map, List.length_range, List.length_nil] at this
      omega
    · apply hinL
      rw [hj]
      exact headD_mem l (hne l hmem)

theorem binary32_absorbs_one : roundBinary32 ((16777216 : ℚ) + 1) = 16777216 := by
  rw [roundBinary32_eval _ 24 8388608 (by norm_num) (by norm_num) (by norm_num) (by norm_num)
    (by apply roundHalfEven_tie_even <;> norm_num)]
  norm_num

/-! ## The side walls of the extrusion: the claim -/

/-- C23 (amended): for a mesh with `N` vertices and non-empty boundary loops
`l_1..l_k` (in extraction order, all indices `< N`, lengths `L_1..L_k`), after
the Replace-mode `extrude` with vector `e` the primitive-set list ends with `k`
side-wall strips; the `m`-th strip pairs, at positions `2i` and `2i + 1`, the
frozen-copy index `N + L_1 + ... + L_(m-1) + i` with the original index
`l_m[i]`; every index of every strip is `< N + L_1 + ... + L_k`, the final
vertex count; and for each pair the position at `l_m[i]` is the position at the
frozen index plus `e`, the sum being the `+=` of the vertex type (so the
difference is `e` wherever that sum is exact). -/
theorem extrude_side_walls {α : Type} [Add α] [Inhabited α]
    (reverse : PrimitiveSet → Option PrimitiveSet) (ec : EdgeCollector) (self : ExtrudeVisitor)
    (geometry : Geometry α) (e : α) (loops : List (List Nat))
    (ht : ec.triangleSetSize ≠ 0) (hl : ec.edgeloops = some loops)
    (hidx : ∀ l ∈ loops, ∀ k ∈ l, k < geometry.vertexArray.length)
    (hne : ∀ l ∈ loops, l ≠ []) :
    ∃ strips : List PrimitiveSet,
      (extrude reverse ec self geometry e).2.primitiveSetList
          = makeTopPrimitives reverse true geometry.primitiveSetList ++ strips
        ∧ strips.length = loops.length
        ∧ (extrude reverse ec self geometry e).2.vertexArray.length
          = geometry.vertexArray.length + loops.flatten.length
        ∧ ∀ (m : Nat) (l : List Nat), loops[m]? = some l →
            ∃ strip, strips[m]? = some strip
              ∧ strip.mode = PrimitiveMode.TRIANGLE_STRIP
              ∧ (∀ i, i < l.length →
                  strip.indices[2 * i]?
                      = some (geometry.vertexArray.length + (loops.take m).flatten.length + i)
                    ∧ strip.indices[2 * i + 1]? = l[i]?
                    ∧ ∀ k, l[i]? = some k →
                        ∃ p, (extrude reverse ec self geometry e).2.vertexArray[
                                geometry.vertexArray.length
                                  + (loops.take m).flatten.length + i]? = some p
                          ∧ (extrude reverse ec self geometry e).2.vertexArray[k]?
                              = some (p + e))
              ∧ ∀ j ∈ strip.indices,
                  j < geometry.vertexArray.length + loops.flatten.length := by
  rw [extrude_of_loops reverse ec self geometry e loops ht hl]
  exact extrudeWithMode_side_walls reverse geometry e loops hidx hne

/-- Witness of C23 (amended): the centred square, with the boundary loop
`1, 2, 3, 4`, gets one side wall after its top primitives. -/
theorem extrude_side_walls_witness :
    ∃ strips : List PrimitiveSet,
      (extrude reverseTriangleList centredSquareEdges ⟨Mode.Replace⟩ centredSquare
          ((0, 0, 1) : Vec3)).2.primitiveSetList
          = makeTopPrimitives reverseTriangleList true centredSquare.primitiveSetList ++ strips
        ∧ strips.length = 1 :=
  let ⟨strips, h1, h2, _⟩ := extrude_side_walls reverseTriangleList centredSquareEdges
    ⟨Mode.Replace⟩ centredSquare ((0, 0, 1) : Vec3) [[1, 2, 3, 4]] (by decide) rfl
    (by simp [centredSquare]) (by simp)
  ⟨strips, h1, h2⟩

/-- C23 as stated fails in single precision: the triangle with a vertex at
`x = 16777216`, extruded by `(1, 0, 0)`, has the side wall
`3, 0, 4, 1, 5, 2, 3, 0`, and the vertex `0` and its frozen copy `3` both have
`x = 16777216`: their difference is `0`, not the `x = 1` of the extrusion
vector. -/
theorem extrude_binary32_difference :
    ((extrude reverseTriangleList farTriangleEdges ⟨Mode.Replace⟩ farTriangle
          (({ val := 1 }, { val := 0 }, { val := 0 }) : Vec3f)).2.primitiveSetList.getLast?).map
        (fun ps => ps.indices) = some [3, 0, 4, 1, 5, 2, 3, 0]
      ∧ ((extrude reverseTriangleList farTriangleEdges ⟨Mode.Replace⟩ farTriangle
          (({ val := 1 }, { val := 0 }, { val := 0 }) : Vec3f)).2.vertexArray[0]?).map
        (fun p => p.1.val) = some 16777216
      ∧ ((extrude reverseTriangleList farTriangleEdges ⟨Mode.Replace⟩ farTriangle
          (({ val := 1 }, { val := 0 }, { val := 0 }) : Vec3f)).2.vertexArray[3]?).map
        (fun p => p.1.val) = some 16777216 := by
  have hv := vertexArray_replace reverseTriangleList farTriangle
    (({ val := 1 }, { val := 0 }, { val := 0 }) : Vec3f) [[0, 1, 2]] (by simp [farTriangle])
  rw [extrude_of_loops reverseTriangleList farTriangleEdges ⟨Mode.Replace⟩ farTriangle
    (({ val := 1 }, { val := 0 }, { val := 0 }) : Vec3f) [[0, 1, 2]] (by decide) rfl]
  refine ⟨by decide!, ?_, ?_⟩
  · rw [hv]
    simp only [farTriangle, List.map_cons, List.cons_append, List.getElem?_cons_zero,
      Option.map_some', Option.some.injEq]
    exact binary32_absorbs_one
  · rw [hv]
    simp [farTriangle]

/-! ## Lemmas on the band mapping and on `needReproject` -/

theorem foldl_bandMappingStep_none (l : List Nat) : l.foldl bandMappingStep none = none := by
  induction l with
  | nil => rfl
  | cons i rest ih => simpa [bandMappingStep] using ih

theorem setupBandMapping_overflow (fresh : ℤ → ℤ) (k : Nat) :
    (List.range (5 + k)).foldl bandMappingStep
      (some ({ allocated := 4, contents := fresh }, { allocated := 4, contents := fresh }))
      = none := by
  induction k with
  | zero =>
    simp [List.range_succ, bandMappingStep, IntArray.write]
  | succ k ih =>
    rw [show 5 + (k + 1) = (5 + k) + 1 from rfl, List.range_succ, List.foldl_append, ih]
    rfl

/-- The tests on squares are the tests on the square root. -/
theorem sqrtLess_iff (x b : ℚ) : sqrtLess x b = true ↔ Real.sqrt (x : ℝ) < (b : ℝ) := by
  simp only [sqrtLess, decide_eq_true_eq]
  constructor
  · rintro ⟨hb, hx⟩
    have hb' : (0 : ℝ) < (b : ℝ) := by exact_mod_cast hb
    rw [Real.sqrt_lt' hb']
    have : (x : ℝ) < (b : ℝ) * (b : ℝ) := by exact_mod_cast hx
    nlinarith
  · intro h
    have hb' : (0 : ℝ) < (b : ℝ) := lt_of_le_of_lt (Real.sqrt_nonneg _) h
    rw [Real.sqrt_lt' hb'] at h
    refine ⟨by exact_mod_cast hb', ?_⟩
    have : (x : ℝ) < (b : ℝ) * (b : ℝ) := by nlinarith
    exact_mod_cast this

theorem sqrtGreater_iff (x b : ℚ) : sqrtGreater x b = true ↔ (b : ℝ) < Real.sqrt (x : ℝ) := by
  simp only [sqrtGreater, decide_eq_true_eq]
  by_cases hb : b < 0
  · have hb' : (b : ℝ) < 0 := by exact_mod_cast hb
    exact ⟨fun _ => lt_of_lt_of_le hb' (Real.sqrt_nonneg _), fun _ => Or.inl hb⟩
  · have hb' : (0 : ℝ) ≤ (b : ℝ) := by exact_mod_cast (not_lt.1 hb)
    rw [Real.lt_sqrt hb']
    constructor
    · rintro (h | h)
      · exact absurd h hb
      · have : (b : ℝ) * (b : ℝ) < (x : ℝ) := by exact_mod_cast h
        nlinarith
    · intro h
      right
      have : (b : ℝ) * (b : ℝ) < (x : ℝ) := by nlinarith
      exact_mod_cast this

theorem resolutionSquared_exact (m : Nat → Nat → ℚ) :
    resolutionSquared id m = m 0 0 ^ 2 + m 1 0 ^ 2 + m 0 1 ^ 2 + m 1 1 ^ 2 := by
  simp only [resolutionSquared, square, id]
  ring

theorem resolutionSquared_nonneg (m : Nat → Nat → ℚ) : 0 ≤ resolutionSquared id m := by
  rw [resolutionSquared_exact]
  positivity

/-- The `double` square root of `2`. -/
theorem sqrtBinary64_two : sqrtBinary64 2 = 6369051672525773 / 4503599627370496 := by
  have hlog : Int.log 2 (2 : ℚ) = 1 := log2_eq 2 1 (by norm_num) (by norm_num) (by norm_num)
  have hscaled : (2 : ℚ) / (2 : ℚ) ^ (2 * ((1 : ℤ) / 2 - 52))
      = ((40564819207303340847894502572032 : ℕ) : ℚ) := by
    rw [show (2 : ℤ) * ((1 : ℤ) / 2 - 52) = -104 by decide]
    norm_num
  have hsqrt : Nat.sqrt 40564819207303340847894502572032 = 6369051672525772 := by
    symm
    rw [Nat.eq_sqrt]
    constructor <;> norm_num
  simp only [sqrtBinary64, hlog, hscaled, Nat.floor_natCast, hsqrt]
  rw [if_neg (by norm_num), if_neg (by norm_num), if_pos (by norm_num)]
  rw [show ((1 : ℤ) / 2 - 52) = -52 by decide]
  norm_num

/-! ## Band mapping, `readData` and `needReproject`: the claims -/

/-- C26: for a number `numSourceBands` of source bands, every write of the
band-mapping loop of `doReproject` falls inside the `numDestinationBands`
elements allocated for `panSrcBands` and `panDstBands` exactly when
`numSourceBands ≤ 4`; then both arrays hold `i + 1` at every index
`i < numSourceBands`. From 5 source bands on, the loop writes index 4 of arrays
of 4 elements. -/
theorem setupBandMapping_in_bounds_iff (fresh : ℤ → ℤ) (numSourceBands : ℤ) :
    ((setupBandMapping fresh numSourceBands).isSome = true ↔ numSourceBands ≤ 4)
      ∧ (numSourceBands ≤ 4 →
          ∃ a, setupBandMapping fresh numSourceBands = some a
            ∧ a.1.allocated = numDestinationBands numSourceBands
            ∧ a.2.allocated = numDestinationBands numSourceBands
            ∧ ∀ i : ℤ, 0 ≤ i → i < numSourceBands →
                a.1.contents i = i + 1 ∧ a.2.contents i = i + 1) := by
  by_cases h5 : 5 ≤ numSourceBands
  · obtain ⟨k, hk⟩ : ∃ k : Nat, numSourceBands.toNat = 5 + k :=
      ⟨numSourceBands.toNat - 5, by omega⟩
    have hnone : setupBandMapping fresh numSourceBands = none := by
      simp only [setupBandMapping, numDestinationBands, if_pos (show numSourceBands ≥ 3 by omega),
        hk]
      exact setupBandMapping_overflow fresh k
    rw [hnone]
    exact ⟨⟨fun h => absurd h (by simp), fun h => absurd h (by omega)⟩,
      fun h => absurd h (by omega)⟩
  · have hle : numSourceBands ≤ 4 := by omega
    have key : ∃ a, setupBandMapping fresh numSourceBands = some a
        ∧ a.1.allocated = numDestinationBands numSourceBands
        ∧ a.2.allocated = numDestinationBands numSourceBands
        ∧ ∀ i : ℤ, 0 ≤ i → i < numSourceBands →
            a.1.contents i = i + 1 ∧ a.2.contents i = i + 1 := by
      by_cases h0 : numSourceBands ≤ 0
      · have ht : numSourceBands.toNat = 0 := by omega
        have hs : setupBandMapping fresh numSourceBands
            = some (⟨numDestinationBands numSourceBands, fresh⟩,
                ⟨numDestinationBands numSourceBands, fresh⟩) := by
          simp only [setupBandMapping, ht, List.range_zero, List.foldl_nil]
        refine ⟨_, hs, rfl, rfl, ?_⟩
        intro i hi0 hi
        omega
      · have h1 : 1 ≤ numSourceBands := by omega
        interval_cases numSourceBands
        · have hs : setupBandMapping fresh 1
              = some (⟨1, Function.update fresh 0 1⟩,
                  ⟨1, Function.update fresh 0 1⟩) := by
            simp [setupBandMapping, numDestinationBands, List.range_succ, bandMappingStep,
              IntArray.write]
          refine ⟨_, hs, by simp [numDestinationBands], by simp [numDestinationBands], ?_⟩
          intro i hi0 hi
          have hi1 : i = 0 := by omega
          subst hi1
          simp [Function.update]
        · have hs : setupBandMapping fresh 2
              = some (⟨2, Function.update (Function.update fresh 0 1) 1 2⟩,
                  ⟨2, Function.update (Function.update fresh 0 1) 1 2⟩) := by
            simp [setupBandMapping, numDestinationBands, List.range_succ, bandMappingStep,
              IntArray.write]
          refine ⟨_, hs, by simp [numDestinationBands], by simp [numDestinationBands], ?_⟩
          intro i hi0 hi
          have hi1 : i = 0 ∨ i = 1 := by omega
          rcases hi1 with rfl | rfl <;> simp [Function.update]
        · have hs : setupBandMapping fresh 3
              = some (⟨4, Function.update (Function.update (Function.update fresh 0 1) 1 2) 2 3⟩,
                  ⟨4, Function.update (Function.update (Function.update fresh 0 1) 1 2) 2 3⟩) := by
            simp [setupBandMapping, numDestinationBands, List.range_succ, bandMappingStep,
              IntArray.write]
          refine ⟨_, hs, by simp [numDestinationBands], by simp [numDestinationBands], ?_⟩
          intro i hi0 hi
          have hi1 : i = 0 ∨ i = 1 ∨ i = 2 := by omega
          rcases hi1 with rfl | rfl | rfl <;> simp [Function.update]
        · have hs : setupBandMapping fresh 4
              = some (⟨4, Function.update (Function.update (Function.update (Function.update fresh 0 1) 1 2) 2 3) 3 4⟩,
                  ⟨4, Function.update (Function.update (Function.update (Function.update fresh 0 1) 1 2) 2 3) 3 4⟩) := by
            simp [setupBandMapping, numDestinationBands, List.range_succ, bandMappingStep,
              IntArray.write]
          refine ⟨_, hs, by simp [numDestinationBands], by simp [numDestinationBands], ?_⟩
          intro i hi0 hi
          have hi1 : i = 0 ∨ i = 1 ∨ i = 2 ∨ i = 3 := by omega
          rcases hi1 with rfl | rfl | rfl | rfl <;> simp [Function.update]
    refine ⟨⟨fun _ => hle, fun _ => ?_⟩, fun _ => key⟩
    obtain ⟨a, ha, _⟩ := key
    rw [ha]
    rfl

/-- C27: for every `Source` of type `MODEL`, `readData` returns null whatever
`osgDB::readNodeFile` gives (null or a loaded model); and an `IMAGE` or
`HEIGHT_FIELD` source for which no dataset is obtained (no GDAL dataset is
held, `GDALOpen` returns null and, for a vector height field, neither a
heightfield is held nor `readHeightFieldFile` loads one) runs the `MODEL` block
and returns null. -/
theorem readData_model_null (SHIFT_RASTER_BY_HALF_CELL : Bool) (q : GDALQueries)
    (co : Collaborators) (source : Source) :
    (source._type = SourceType.MODEL →
        readData SHIFT_RASTER_BY_HALF_CELL q co (some source) = none)
      ∧ (source._type ≠ SourceType.MODEL → source._gdalDataset = none →
          co.GDALOpen source._filename = none →
          (source._type = SourceType.HEIGHT_FIELD → source._dataType = DataType.VECTOR →
            source._hfDataset = none ∧ co.readHeightFieldFile source._filename = none) →
          readData SHIFT_RASTER_BY_HALF_CELL q co (some source) = readDataModel co source
            ∧ readData SHIFT_RASTER_BY_HALF_CELL q co (some source) = none) := by
  have hmodel : readDataModel co source = none := by
    simp only [readDataModel]
    cases co.readNodeFile source._filename <;> rfl
  constructor
  · intro ht
    simp only [readData, ht]
    exact hmodel
  · intro ht hg ho hhf
    have hrd : readData SHIFT_RASTER_BY_HALF_CELL q co (some source) = readDataModel co source := by
      by_cases hv : source._type = SourceType.HEIGHT_FIELD ∧ source._dataType = DataType.VECTOR
      · obtain ⟨e1, e2⟩ := hhf hv.1 hv.2
        simp only [readData, hv.1, hv.2, e1, e2, hg, ho, and_self, if_true]
      · cases hty : source._type with
        | MODEL => exact absurd hty ht
        | IMAGE => simp [readData, hty, hg, ho]
        | HEIGHT_FIELD =>
          have hd : ¬ source._dataType = DataType.VECTOR := fun h => hv ⟨hty, h⟩
          simp [readData, hty, hd, hg, ho]
    exact ⟨hrd, hrd.trans hmodel⟩

/-- C30 (amended): `needReproject(cs)` is `needReproject(cs, 0, 0)`, and it
returns true exactly when the source has source data, is not of type `MODEL`,
and either its data has ground-control points or its coordinate system is not
equivalent to `cs`, in every arithmetic; with resolutions that are not both
zero, a source that gets past those tests (it has data, is not a `MODEL`, has no
ground-control points and an equivalent coordinate system) needs reprojection
exactly when the square root of `m00^2 + m10^2 + m01^2 + m11^2`, as the
arithmetic computes it, is below `minResolution` or above `maxResolution`; over
exact arithmetic and for non-negative bounds that is
`m00^2 + m10^2 + m01^2 + m11^2 < minResolution^2` or `> maxResolution^2`. -/
theorem needReproject_iff (ar : ResolutionArithmetic)
    (areCoordinateSystemEquivalent : CoordinateSystemPtr → CoordinateSystemPtr → Bool)
    (self : Source) (cs : CoordinateSystemPtr) (minResolution maxResolution : ℚ) :
    self.needReprojectDefault ar areCoordinateSystemEquivalent cs
        = self.needReproject ar areCoordinateSystemEquivalent cs 0 0
      ∧ (self.needReprojectDefault ar areCoordinateSystemEquivalent cs = true ↔
          ∃ sd, self._sourceData = some sd ∧ self._type ≠ SourceType.MODEL
            ∧ (sd._hasGCPs = true ∨ areCoordinateSystemEquivalent self._cs cs = false))
      ∧ (¬ (minResolution = 0 ∧ maxResolution = 0) →
          ∀ sd, self._sourceData = some sd → self._type ≠ SourceType.MODEL →
            sd._hasGCPs = false → areCoordinateSystemEquivalent self._cs cs = true →
            (self.needReproject ar areCoordinateSystemEquivalent cs minResolution maxResolution
                = true ↔
              ar.sqrtBelow (resolutionSquared ar.fd sd._geoTransform) minResolution = true
                ∨ ar.sqrtAbove (resolutionSquared ar.fd sd._geoTransform) maxResolution = true)
            ∧ (0 ≤ minResolution → 0 ≤ maxResolution →
              (self.needReproject exactResolution areCoordinateSystemEquivalent cs
                  minResolution maxResolution = true ↔
                sd._geoTransform 0 0 ^ 2 + sd._geoTransform 1 0 ^ 2
                      + sd._geoTransform 0 1 ^ 2 + sd._geoTransform 1 1 ^ 2
                    < minResolution ^ 2
                  ∨ sd._geoTransform 0 0 ^ 2 + sd._geoTransform 1 0 ^ 2
                      + sd._geoTransform 0 1 ^ 2 + sd._geoTransform 1 1 ^ 2
                    > maxResolution ^ 2))) := by
  refine ⟨rfl, ?_, ?_⟩
  · simp only [Source.needReprojectDefault, Source.needReproject]
    cases hsd : self._sourceData with
    | none => simp
    | some sd =>
      by_cases ht : self._type = SourceType.MODEL
      · simp [ht]
      · by_cases hg : sd._hasGCPs = true
        · simp [ht, hg]
        · by_cases he : areCoordinateSystemEquivalent self._cs cs = false
          · simp [ht, hg, he]
          · simp [ht, hg, he]
  · intro hnz sd hsd ht hg he
    have hgen : ∀ ar' : ResolutionArithmetic,
        (self.needReproject ar' areCoordinateSystemEquivalent cs minResolution maxResolution
            = true ↔
          ar'.sqrtBelow (resolutionSquared ar'.fd sd._geoTransform) minResolution = true
            ∨ ar'.sqrtAbove (resolutionSquared ar'.fd sd._geoTransform) maxResolution
              = true) := by
      intro ar'
      simp only [Source.needReproject, hsd, if_neg ht, hg, he, if_neg hnz]
      by_cases hA : ar'.sqrtBelow (resolutionSquared ar'.fd sd._geoTransform) minResolution
          = true
      · simp [hA]
      · by_cases hB : ar'.sqrtAbove (resolutionSquared ar'.fd sd._geoTransform) maxResolution
            = true
        · simp [hA, hB]
        · simp [hA, hB]
    refine ⟨hgen ar, ?_⟩
    intro hmin hmax
    rw [hgen exactResolution]
    have hnn := resolutionSquared_nonneg sd._geoTransform
    rw [← resolutionSquared_exact]
    simp only [exactResolution, sqrtLess, sqrtGreater, decide_eq_true_eq]
    constructor
    · rintro (⟨_, h⟩ | h | h)
      · exact Or.inl (by rw [pow_two]; exact h)
      · exact absurd hmax (not_le.2 h)
      · exact Or.inr (by rw [gt_iff_lt, pow_two]; exact h)
    · rintro (h | h)
      · left
        rw [pow_two] at h
        refine ⟨?_, h⟩
        rcases lt_or_eq_of_le hmin with h0 | h0
        · exact h0
        · rw [← h0] at h
          linarith
      · right
        right
        rw [gt_iff_lt, pow_two] at h
        exact h

/-- Witness of C27: a `MODEL` source whose model file loads, and an `IMAGE`
source for which nothing opens. -/
theorem readData_model_null_witness :
    readData false plainQueries modelLoaders (some modelSource) = none
      ∧ readData false plainQueries modelLoaders (some unopenedSource) = none :=
  ⟨(readData_model_null false plainQueries modelLoaders modelSource).1 rfl,
    ((readData_model_null false plainQueries modelLoaders unopenedSource).2 (by decide) rfl rfl
      (fun h => absurd h (by decide))).2⟩

/-- Witness of C30 (amended): the source of resolution `5` with bounds
`[6, 7]` needs reprojection over exact arithmetic, `25` being below `36`. -/
theorem needReproject_iff_witness :
    scaledSource.needReproject exactResolution (fun _ _ => true) (some 1) 6 7 = true :=
  (((needReproject_iff exactResolution (fun _ _ => true) scaledSource (some 1) 6 7).2.2
    (by norm_num) _ rfl (by decide) rfl rfl).2 (by norm_num) (by norm_num)).2
    (Or.inl (by decide!))

/-- C30 as stated fails in IEEE arithmetic: for the identity geotransform the
sum of the squares is `2` and its `double` square root is
`6369051672525773 / 2^52`; with both bounds equal to that `double`, the code
answers false, although `2` is below the square of the lower bound. -/
theorem needReproject_boundary :
    identitySource.needReproject binary64Resolution (fun _ _ => true) (some 1)
        (6369051672525773 / 4503599627370496) (6369051672525773 / 4503599627370496) = false
      ∧ ((1 : ℚ) ^ 2 + 0 ^ 2 + 0 ^ 2 + 1 ^ 2
          < (6369051672525773 / 4503599627370496 : ℚ) ^ 2) := by
  have h1 : roundBinary64 1 = 1 :=
    roundBinary64_exact _ 0 4503599627370496 (by norm_num) (by norm_num) (by norm_num)
      (by norm_num) (by norm_num)
  have h2 : roundBinary64 2 = 2 :=
    roundBinary64_exact _ 1 4503599627370496 (by norm_num) (by norm_num) (by norm_num)
      (by norm_num) (by norm_num)
  have h0 : roundBinary64 0 = 0 := by simp [roundBinary64]
  have hs : resolutionSquared roundBinary64
      (matrixSet [[1, 0, 0, 0], [0, 1, 0, 0], [0, 0, 1, 0], [0, 0, 0, 1]]) = 2 := by
    have e00 : matrixSet [[1, 0, 0, 0], [0, 1, 0, 0], [0, 0, 1, 0], [0, 0, 0, 1]] 0 0 = 1 := rfl
    have e10 : matrixSet [[1, 0, 0, 0], [0, 1, 0, 0], [0, 0, 1, 0], [0, 0, 0, 1]] 1 0 = 0 := rfl
    have e01 : matrixSet [[1, 0, 0, 0], [0, 1, 0, 0], [0, 0, 1, 0], [0, 0, 0, 1]] 0 1 = 0 := rfl
    have e11 : matrixSet [[1, 0, 0, 0], [0, 1, 0, 0], [0, 0, 1, 0], [0, 0, 0, 1]] 1 1 = 1 := rfl
    simp only [resolutionSquared, square, e00, e10, e01, e11, mul_one, mul_zero, h0, h1,
      add_zero]
    rw [show (1 : ℚ) + 1 = 2 by norm_num, h2]
  have hg : imageSource._hasGCPs = false := rfl
  refine ⟨?_, by norm_num⟩
  simp only [Source.needReproject, identitySource, binary64Resolution, hs, sqrtBinary64_two]
  simp [hg]

/-! ## Lemmas on the sampling loop of `readHeightField` -/

theorem getD_set (l : List ℚ) (i k : Nat) (v d : ℚ) :
    (l.set i v).getD k d = if i = k ∧ i < l.length then v else l.getD k d := by
  simp only [List.getD_eq_getElem?_getD, List.getElem?_set]
  by_cases h : i = k
  · subst h
    by_cases h2 : i < l.length
    · simp [h2]
    · simp [h2, List.getElem?_eq_none (not_lt.1 h2)]
  · simp [h]

/-- The cells `(c, r)` the two nested loops of `heightLoop` visit, in order. -/
theorem heightLoop_cells {σ : Type} (d : Window) (body : σ → ℤ → ℤ → σ) (init : σ) :
    heightLoop d body init
      = (heightLoopCells d).foldl (fun st x => body st x.1 x.2) init := by
  simp only [heightLoop, heightLoopCells, List.foldl_flatten, List.foldl_map]

theorem mem_cells (d : Window) (x : ℤ × ℤ) :
    x ∈ heightLoopCells d
      ↔ (d.x ≤ x.1 ∧ x.1 < d.x + d.width) ∧ (d.y ≤ x.2 ∧ x.2 < d.y + d.height) := by
  simp only [heightLoopCells, List.mem_flatten, List.mem_map, List.mem_range]
  constructor
  · rintro ⟨l, ⟨c, hc, rfl⟩, hx⟩
    simp only [List.mem_map, List.mem_range] at hx
    obtain ⟨r, hr, rfl⟩ := hx
    simp only
    omega
  · rintro ⟨⟨h1, h2⟩, h3, h4⟩
    refine ⟨_, ⟨(x.1 - d.x).toNat, by omega, rfl⟩, ?_⟩
    simp only [List.mem_map, List.mem_range]
    refine ⟨(x.2 - d.y).toNat, by omega, ?_⟩
    apply Prod.ext
    · simp only; omega
    · simp only; omega

/-- A fold that overwrites the value whenever a cell of index `k` is hit ends
with the value of the hit when all hits write the same value. -/
theorem foldl_hit (cells : List (ℤ × ℤ)) (idx : ℤ × ℤ → Nat) (hit : ℤ × ℤ → Prop)
    [DecidablePred hit] (val : ℤ × ℤ → ℚ) (k : Nat) (v0 : ℚ)
    (hsame : ∀ x ∈ cells, idx x = k → hit x → val x = v0) :
    ∀ init : ℚ, cells.foldl (fun v x => if idx x = k ∧ hit x then val x else v) init
      = if ∃ x ∈ cells, idx x = k ∧ hit x then v0 else init := by
  induction cells with
  | nil => intro init; simp
  | cons y rest ih =>
    intro init
    have ih2 := ih (fun x hx => hsame x (List.mem_cons_of_mem _ hx))
    simp only [List.foldl_cons, List.mem_cons, exists_eq_or_imp]
    rw [ih2]
    by_cases hr : ∃ x ∈ rest, idx x = k ∧ hit x
    · simp only [hr, if_true, or_true]
    · by_cases hy : idx y = k ∧ hit y
      · simp only [hr, hy, if_false, and_self, if_true, true_or]
        exact hsame y (List.mem_cons_self _ _) hy.1 hy.2
      · simp only [hr, hy, if_false, or_self]

/-- The heights after the body `sampleBand` has run over a list of cells, one
index at a time. -/
theorem foldl_sampleBand_heights (band : GDALRasterBand) (noDataValue offset scale xoffset : ℚ)
    (hf : HeightField) (cells : List (ℤ × ℤ)) :
    ∀ st : HeightField × List (ℚ × ℚ),
      st.1.originX = hf.originX → st.1.originY = hf.originY →
      st.1.xInterval = hf.xInterval → st.1.yInterval = hf.yInterval →
      st.1.numColumns = hf.numColumns → st.1.heights.length = hf.heights.length →
      (∀ x ∈ cells, x.1.toNat + x.2.toNat * hf.numColumns < hf.heights.length) →
      (cells.foldl (fun st x => sampleBand band noDataValue offset scale xoffset st x.1 x.2)
          st).1.numColumns = hf.numColumns
        ∧ ∀ k, (cells.foldl
              (fun st x => sampleBand band noDataValue offset scale xoffset st x.1 x.2)
              st).1.heights.getD k 0
            = cells.foldl
                (fun v x =>
                  if x.1.toNat + x.2.toNat * hf.numColumns = k
                      ∧ getInterpolatedValueBand band.toRasterBand
                          (hf.originX + hf.xInterval * (x.1 : ℚ) - xoffset)
                          (hf.originY + hf.yInterval * (x.2 : ℚ)) ≠ noDataValue then
                    offset + getInterpolatedValueBand band.toRasterBand
                          (hf.originX + hf.xInterval * (x.1 : ℚ) - xoffset)
                          (hf.originY + hf.yInterval * (x.2 : ℚ)) * scale
                  else v)
                (st.1.heights.getD k 0) := by
  induction cells with
  | nil => intro st _ _ _ _ h5 _ _; exact ⟨h5, fun k => rfl⟩
  | cons y rest ih =>
    intro st h1 h2 h3 h4 h5 h6 hin
    have hy := hin y (List.mem_cons_self _ _)
    simp only [List.foldl_cons]
    have key : ∀ k, (sampleBand band noDataValue offset scale xoffset st y.1 y.2).1.heights.getD
        k 0
        = if y.1.toNat + y.2.toNat * hf.numColumns = k
              ∧ getInterpolatedValueBand band.toRasterBand
                  (hf.originX + hf.xInterval * (y.1 : ℚ) - xoffset)
                  (hf.originY + hf.yInterval * (y.2 : ℚ)) ≠ noDataValue then
            offset + getInterpolatedValueBand band.toRasterBand
                  (hf.originX + hf.xInterval * (y.1 : ℚ) - xoffset)
                  (hf.originY + hf.yInterval * (y.2 : ℚ)) * scale
          else st.1.heights.getD k 0 := by
      intro k
      simp only [sampleBand, h1, h2, h3, h4]
      by_cases hh : getInterpolatedValueBand band.toRasterBand
          (hf.originX + hf.xInterval * (y.1 : ℚ) - xoffset)
          (hf.originY + hf.yInterval * (y.2 : ℚ)) = noDataValue
      · simp [hh]
      · simp only [ne_eq, hh, not_false_eq_true, if_true, and_true, HeightField.setHeight, h5,
          getD_set, h6, hy]
    have hfields : (sampleBand band noDataValue offset scale xoffset st y.1 y.2).1.originX
          = hf.originX
        ∧ (sampleBand band noDataValue offset scale xoffset st y.1 y.2).1.originY = hf.originY
        ∧ (sampleBand band noDataValue offset scale xoffset st y.1 y.2).1.xInterval
          = hf.xInterval
        ∧ (sampleBand band noDataValue offset scale xoffset st y.1 y.2).1.yInterval
          = hf.yInterval
        ∧ (sampleBand band noDataValue offset scale xoffset st y.1 y.2).1.numColumns
          = hf.numColumns
        ∧ (sampleBand band noDataValue offset scale xoffset st y.1 y.2).1.heights.length
          = hf.heights.length := by
      simp only [sampleBand]
      split_ifs
      · simp [HeightField.setHeight, h1, h2, h3, h4, h5, h6]
      · exact ⟨h1, h2, h3, h4, h5, h6⟩
    obtain ⟨g1, g2, g3, g4, g5, g6⟩ := hfields
    obtain ⟨r1, r2⟩ := ih _ g1 g2 g3 g4 g5 g6 (fun x hx => hin x (List.mem_cons_of_mem _ hx))
    refine ⟨r1, fun k => ?_⟩
    rw [r2 k, key k]

/-- An index `c + r * n` with `c < n` determines the column and the row. -/
theorem cell_index_inj (n c r c0 r0 : Nat) (hc : c < n) (hc0 : c0 < n)
    (h : c + r * n = c0 + r0 * n) : c = c0 ∧ r = r0 := by
  have hn : 0 < n := by omega
  have e1 : (c + r * n) % n = c := by
    rw [Nat.add_mul_mod_self_right, Nat.mod_eq_of_lt hc]
  have e2 : (c0 + r0 * n) % n = c0 := by
    rw [Nat.add_mul_mod_self_right, Nat.mod_eq_of_lt hc0]
  have hcc : c = c0 := by rw [← e1, ← e2, h]
  subst hcc
  have : r * n = r0 * n := by omega
  exact ⟨rfl, Nat.eq_of_mul_eq_mul_right hn this⟩

/-! ## The sampling loop of `readHeightField`: the claim -/

/-- C28: in the raster-band path of `readHeightField`, with the destination
window inside the destination grid, after the sampling loop a sample `(c, r)`
holds `offset + h * scale` if it lies in the window and its interpolated value
`h` differs from the no-data value in use, and keeps its height otherwise: in
the window when `h` is the no-data value, and everywhere outside the window.
The no-data value in use is the value of the band, or `0` when the band
declares none. -/
theorem heightLoop_sampleBand (band : GDALRasterBand) (verticalScale xoffset : ℚ)
    (hf : HeightField) (log : List (ℚ × ℚ)) (d : Window)
    (hx : 0 ≤ d.x) (hw : d.x + d.width ≤ hf.numColumns)
    (hy : 0 ≤ d.y) (hh : d.y + d.height ≤ hf.numRows)
    (hlen : hf.heights.length = hf.numColumns * hf.numRows)
    (c r : Nat) (hc : c < hf.numColumns) :
    ((heightLoop d
          (sampleBand band (bandParameters band verticalScale).1
            (bandParameters band verticalScale).2.1 (bandParameters band verticalScale).2.2
            xoffset) (hf, log)).1.getHeight c r
        = if ((d.x ≤ (c : ℤ) ∧ (c : ℤ) < d.x + d.width)
              ∧ (d.y ≤ (r : ℤ) ∧ (r : ℤ) < d.y + d.height))
            ∧ getInterpolatedValueBand band.toRasterBand
                (hf.originX + hf.xInterval * (c : ℚ) - xoffset)
                (hf.originY + hf.yInterval * (r : ℚ)) ≠ (bandParameters band verticalScale).1
          then (bandParameters band verticalScale).2.1
            + getInterpolatedValueBand band.toRasterBand
                (hf.originX + hf.xInterval * (c : ℚ) - xoffset)
                (hf.originY + hf.yInterval * (r : ℚ)) * (bandParameters band verticalScale).2.2
          else hf.getHeight c r)
      ∧ (bandParameters band verticalScale).1 = band.noDataValue.getD 0 := by
  constructor
  · rw [heightLoop_cells]
    have hin : ∀ x ∈ heightLoopCells d,
        x.1.toNat + x.2.toNat * hf.numColumns < hf.heights.length := by
      intro x hxm
      rw [mem_cells] at hxm
      obtain ⟨⟨a1, a2⟩, a3, a4⟩ := hxm
      rw [hlen]
      have b1 : x.1.toNat < hf.numColumns := by omega
      have b2 : x.2.toNat + 1 ≤ hf.numRows := by omega
      calc x.1.toNat + x.2.toNat * hf.numColumns
          < hf.numColumns + x.2.toNat * hf.numColumns := by omega
        _ = (x.2.toNat + 1) * hf.numColumns := by ring
        _ ≤ hf.numRows * hf.numColumns := Nat.mul_le_mul_right _ b2
        _ = hf.numColumns * hf.numRows := Nat.mul_comm _ _
    obtain ⟨e1, e2⟩ := foldl_sampleBand_heights band (bandParameters band verticalScale).1
      (bandParameters band verticalScale).2.1 (bandParameters band verticalScale).2.2 xoffset hf
      _ (hf, log) rfl rfl rfl rfl rfl rfl hin
    simp only [HeightField.getHeight, e1]
    rw [e2]
    rw [foldl_hit _ (fun x => x.1.toNat + x.2.toNat * hf.numColumns)
      (fun x => getInterpolatedValueBand band.toRasterBand
          (hf.originX + hf.xInterval * (x.1 : ℚ) - xoffset)
          (hf.originY + hf.yInterval * (x.2 : ℚ)) ≠ (bandParameters band verticalScale).1)
      (fun x => (bandParameters band verticalScale).2.1
        + getInterpolatedValueBand band.toRasterBand
          (hf.originX + hf.xInterval * (x.1 : ℚ) - xoffset)
          (hf.originY + hf.yInterval * (x.2 : ℚ)) * (bandParameters band verticalScale).2.2)
      (c + r * hf.numColumns)
      ((bandParameters band verticalScale).2.1
        + getInterpolatedValueBand band.toRasterBand
          (hf.originX + hf.xInterval * (c : ℚ) - xoffset)
          (hf.originY + hf.yInterval * (r : ℚ)) * (bandParameters band verticalScale).2.2)]
    · have hiff : (∃ x ∈ heightLoopCells d,
            x.1.toNat + x.2.toNat * hf.numColumns = c + r * hf.numColumns
              ∧ getInterpolatedValueBand band.toRasterBand
                  (hf.originX + hf.xInterval * (x.1 : ℚ) - xoffset)
                  (hf.originY + hf.yInterval * (x.2 : ℚ))
                ≠ (bandParameters band verticalScale).1)
          ↔ ((d.x ≤ (c : ℤ) ∧ (c : ℤ) < d.x + d.width)
              ∧ (d.y ≤ (r : ℤ) ∧ (r : ℤ) < d.y + d.height))
            ∧ getInterpolatedValueBand band.toRasterBand
                (hf.originX + hf.xInterval * (c : ℚ) - xoffset)
                (hf.originY + hf.yInterval * (r : ℚ))
              ≠ (bandParameters band verticalScale).1 := by
        constructor
        · rintro ⟨x, hxm, hidx, hne⟩
          rw [mem_cells] at hxm
          obtain ⟨⟨a1, a2⟩, a3, a4⟩ := hxm
          obtain ⟨i1, i2⟩ := cell_index_inj hf.numColumns x.1.toNat x.2.toNat c r (by omega) hc
            hidx
          have x1 : x.1 = (c : ℤ) := by omega
          have x2 : x.2 = (r : ℤ) := by omega
          rw [x1, x2] at hne
          refine ⟨⟨⟨by omega, by omega⟩, by omega, by omega⟩, ?_⟩
          simpa using hne
        · rintro ⟨hwin, hne⟩
          refine ⟨((c : ℤ), (r : ℤ)), (mem_cells d _).2 hwin, by simp, ?_⟩
          simpa using hne
      simp only [hiff]
    · intro x hxm hidx _
      rw [mem_cells] at hxm
      obtain ⟨⟨a1, a2⟩, a3, a4⟩ := hxm
      obtain ⟨i1, i2⟩ := cell_index_inj hf.numColumns x.1.toNat x.2.toNat c r (by omega) hc
        hidx
      have x1 : x.1 = (c : ℤ) := by omega
      have x2 : x.2 = (r : ℤ) := by omega
      simp only [x1, x2, Int.cast_natCast]
  · simp only [bandParameters]
    cases band.noDataValue <;> rfl

/-- Witness of C28: the band of constant value `5` without no-data value, offset
or scale, sampled over the window of the last two columns in a data set of
vertical scale `2`: column 3 becomes `10`. -/
theorem heightLoop_sampleBand_witness :
    (heightLoop { x := 2, y := 0, width := 2, height := 1 }
        (sampleBand datelineBand (bandParameters datelineBand 2).1
          (bandParameters datelineBand 2).2.1 (bandParameters datelineBand 2).2.2 0)
        (worldHeights, [])).1.getHeight 3 0 = 10 :=
  (heightLoop_sampleBand datelineBand 2 0 worldHeights []
    { x := 2, y := 0, width := 2, height := 1 } (by decide) (by decide) (by decide) (by decide)
    (by decide) 3 0 (by decide)).1.trans (by decide!)

/-! ## Lemmas on `consolodateRequiredResolutions` -/

theorem minimum_eq_min (a b : ℚ) : minimum a b = min a b := by
  unfold minimum
  rcases lt_trichotomy a b with h | h | h
  · rw [if_pos h, min_eq_left h.le]
  · rw [if_neg (by rw [h]; exact lt_irrefl _), h, min_self]
  · rw [if_neg (not_lt.2 h.le), min_eq_right h.le]

theorem maximum_eq_max (a b : ℚ) : maximum a b = max a b := by
  unfold maximum
  rcases lt_trichotomy a b with h | h | h
  · rw [if_neg (not_lt.2 h.le), max_eq_right h.le]
  · rw [if_neg (by rw [h]; exact lt_irrefl _), h, max_self]
  · rw [if_pos h, max_eq_left h.le]

theorem foldl_minimum_spec (f : ResolutionPair → ℚ) (rest : List ResolutionPair) :
    ∀ init : ℚ,
      rest.foldl (fun m p => minimum m (f p)) init ≤ init
        ∧ (∀ p ∈ rest, rest.foldl (fun m p => minimum m (f p)) init ≤ f p)
        ∧ (rest.foldl (fun m p => minimum m (f p)) init = init
            ∨ ∃ p ∈ rest, f p = rest.foldl (fun m p => minimum m (f p)) init) := by
  induction rest with
  | nil => intro init; simp
  | cons q rest ih =>
    intro init
    obtain ⟨h1, h2, h3⟩ := ih (minimum init (f q))
    simp only [List.foldl_cons, List.mem_cons, forall_eq_or_imp, exists_eq_or_imp]
    have hm1 : minimum init (f q) ≤ init := by rw [minimum_eq_min]; exact min_le_left _ _
    have hm2 : minimum init (f q) ≤ f q := by rw [minimum_eq_min]; exact min_le_right _ _
    refine ⟨h1.trans hm1, ⟨h1.trans hm2, h2⟩, ?_⟩
    rcases h3 with h3 | h3
    · rw [h3, minimum_eq_min]
      rcases min_choice init (f q) with h | h
      · exact Or.inl h
      · exact Or.inr (Or.inl h.symm)
    · exact Or.inr (Or.inr h3)

theorem foldl_maximum_spec (f : ResolutionPair → ℚ) (rest : List ResolutionPair) :
    ∀ init : ℚ,
      init ≤ rest.foldl (fun m p => maximum m (f p)) init
        ∧ (∀ p ∈ rest, f p ≤ rest.foldl (fun m p => maximum m (f p)) init)
        ∧ (rest.foldl (fun m p => maximum m (f p)) init = init
            ∨ ∃ p ∈ rest, f p = rest.foldl (fun m p => maximum m (f p)) init) := by
  induction rest with
  | nil => intro init; simp
  | cons q rest ih =>
    intro init
    obtain ⟨h1, h2, h3⟩ := ih (maximum init (f q))
    simp only [List.foldl_cons, List.mem_cons, forall_eq_or_imp, exists_eq_or_imp]
    have hm1 : init ≤ maximum init (f q) := by rw [maximum_eq_max]; exact le_max_left _ _
    have hm2 : f q ≤ maximum init (f q) := by rw [maximum_eq_max]; exact le_max_right _ _
    refine ⟨hm1.trans h1, ⟨hm2.trans h1, h2⟩, ?_⟩
    rcases h3 with h3 | h3
    · rw [h3, maximum_eq_max]
      rcases max_choice init (f q) with h | h
      · exact Or.inl h
      · exact Or.inr (Or.inl h.symm)
    · exact Or.inr (Or.inr h3)

/-- The minimum the first loop of `consolodateRequiredResolutions` computes is
the least value of the list. -/
theorem foldl_minimum_least (f : ResolutionPair → ℚ) (first : ResolutionPair)
    (rest : List ResolutionPair) :
    (∃ p ∈ first :: rest, f p = rest.foldl (fun m p => minimum m (f p)) (f first))
      ∧ ∀ p ∈ first :: rest, rest.foldl (fun m p => minimum m (f p)) (f first) ≤ f p := by
  obtain ⟨h1, h2, h3⟩ := foldl_minimum_spec f rest (f first)
  simp only [List.mem_cons, forall_eq_or_imp, exists_eq_or_imp]
  refine ⟨?_, h1, h2⟩
  rcases h3 with h3 | h3
  · exact Or.inl h3.symm
  · exact Or.inr h3

/-- The maximum the first loop of `consolodateRequiredResolutions` computes is
the greatest value of the list. -/
theorem foldl_maximum_greatest (f : ResolutionPair → ℚ) (first : ResolutionPair)
    (rest : List ResolutionPair) :
    (∃ p ∈ first :: rest, f p = rest.foldl (fun m p => maximum m (f p)) (f first))
      ∧ ∀ p ∈ first :: rest, f p ≤ rest.foldl (fun m p => maximum m (f p)) (f first) := by
  obtain ⟨h1, h2, h3⟩ := foldl_maximum_spec f rest (f first)
  simp only [List.mem_cons, forall_eq_or_imp, exists_eq_or_imp]
  refine ⟨?_, h1, h2⟩
  rcases h3 with h3 | h3
  · exact Or.inl h3.symm
  · exact Or.inr h3

/-- The `while` loop started at `(minX * 2 ^ a, minY * 2 ^ a)` runs `n`
iterations when the test holds for the next `n` doublings and fails after
them; `n + 1` units of fuel suffice. -/
theorem doublingLoop_run (maxResX maxResY minX minY : ℚ) (n : Nat) :
    ∀ (a : Nat) (acc : List ResolutionPair) (fuel : Nat),
      (∀ k, k < n → minX * 2 ^ (a + k) ≤ maxResX ∧ minY * 2 ^ (a + k) ≤ maxResY) →
      ¬ (minX * 2 ^ (a + n) ≤ maxResX ∧ minY * 2 ^ (a + n) ≤ maxResY) →
      n + 1 ≤ fuel →
      doublingLoop maxResX maxResY fuel (minX * 2 ^ a) (minY * 2 ^ a) acc
        = some (acc ++ (List.range n).map
            (fun k => ({ _resX := minX * 2 ^ (a + k), _resY := minY * 2 ^ (a + k) } :
              ResolutionPair))) := by
  induction n with
  | zero =>
    intro a acc fuel _ hstop hfuel
    obtain ⟨fuel, rfl⟩ : ∃ g, fuel = g + 1 := ⟨fuel - 1, by omega⟩
    simp only [doublingLoop]
    rw [if_neg (by simpa using hstop)]
    simp
  | succ n ih =>
    intro a acc fuel hrun hstop hfuel
    obtain ⟨fuel, rfl⟩ : ∃ g, fuel = g + 1 := ⟨fuel - 1, by omega⟩
    simp only [doublingLoop]
    rw [if_pos (by simpa using hrun 0 (Nat.succ_pos n))]
    have e1 : minX * 2 ^ a * 2 = minX * 2 ^ (a + 1) := by ring
    have e2 : minY * 2 ^ a * 2 = minY * 2 ^ (a + 1) := by ring
    rw [e1, e2, ih (a + 1) _ fuel ?_ ?_ (by omega)]
    · rw [List.range_succ_eq_map, List.map_cons, List.map_map, List.append_assoc]
      congr 2
      simp only [List.singleton_append, add_zero, List.cons.injEq, true_and]
      apply List.map_congr_left
      intro k _
      simp only [Function.comp, Nat.succ_eq_add_one]
      rw [show a + 1 + k = a + (k + 1) by omega]
    · intro k hk
      have := hrun (k + 1) (by omega)
      rwa [show a + (k + 1) = a + 1 + k by omega] at this
    · rwa [show a + (n + 1) = a + 1 + n by omega] at hstop

/-- The result of `consolodateRequiredResolutions` on a list of at least two
entries whose least and greatest components are `minX`, `minY`, `maxX`, `maxY`,
when `K` is the last doubling within the maxima. -/
theorem consolodate_of_bounds (rs : List ResolutionPair) (minX minY maxX maxY : ℚ) (K : Nat)
    (hlen : 2 ≤ rs.length) (hX : 0 ≤ minX) (hY : 0 ≤ minY)
    (hminXm : ∃ p ∈ rs, p._resX = minX) (hminX : ∀ p ∈ rs, minX ≤ p._resX)
    (hminYm : ∃ p ∈ rs, p._resY = minY) (hminY : ∀ p ∈ rs, minY ≤ p._resY)
    (hmaxXm : ∃ p ∈ rs, p._resX = maxX) (hmaxX : ∀ p ∈ rs, p._resX ≤ maxX)
    (hmaxYm : ∃ p ∈ rs, p._resY = maxY) (hmaxY : ∀ p ∈ rs, p._resY ≤ maxY)
    (hK : minX * 2 ^ K ≤ maxX ∧ minY * 2 ^ K ≤ maxY)
    (hK1 : ¬ (minX * 2 ^ (K + 1) ≤ maxX ∧ minY * 2 ^ (K + 1) ≤ maxY))
    (fuel : Nat) (hfuel : K + 2 ≤ fuel) :
    consolodateRequiredResolutions fuel rs
      = some ((List.range (K + 1)).map
          (fun k => ({ _resX := minX * 2 ^ k, _resY := minY * 2 ^ k } : ResolutionPair))) := by
  match rs, hlen with
  | first :: rest, hlen =>
    have e1 : rest.foldl (fun m p => minimum m p._resX) first._resX = minX := by
      obtain ⟨⟨p, hp, hpe⟩, hb⟩ := foldl_minimum_least (fun p => p._resX) first rest
      obtain ⟨q, hq, hqe⟩ := hminXm
      exact le_antisymm (hqe ▸ hb q hq) (hpe ▸ hminX p hp)
    have e2 : rest.foldl (fun m p => minimum m p._resY) first._resY = minY := by
      obtain ⟨⟨p, hp, hpe⟩, hb⟩ := foldl_minimum_least (fun p => p._resY) first rest
      obtain ⟨q, hq, hqe⟩ := hminYm
      exact le_antisymm (hqe ▸ hb q hq) (hpe ▸ hminY p hp)
    have e3 : rest.foldl (fun m p => maximum m p._resX) first._resX = maxX := by
      obtain ⟨⟨p, hp, hpe⟩, hb⟩ := foldl_maximum_greatest (fun p => p._resX) first rest
      obtain ⟨q, hq, hqe⟩ := hmaxXm
      exact le_antisymm (hpe ▸ hmaxX p hp) (hqe ▸ hb q hq)
    have e4 : rest.foldl (fun m p => maximum m p._resY) first._resY = maxY := by
      obtain ⟨⟨p, hp, hpe⟩, hb⟩ := foldl_maximum_greatest (fun p => p._resY) first rest
      obtain ⟨q, hq, hqe⟩ := hmaxYm
      exact le_antisymm (hpe ▸ hmaxY p hp) (hqe ▸ hb q hq)
    have hnot : ¬ (first :: rest).length ≤ 1 := by omega
    simp only [consolodateRequiredResolutions, if_neg hnot, e1, e2, e3, e4]
    have hmono : ∀ (m : ℚ), 0 ≤ m → ∀ k, k ≤ K → m * 2 ^ k ≤ m * 2 ^ K := by
      intro m hm k hk
      exact mul_le_mul_of_nonneg_left (pow_le_pow_right₀ (by norm_num) hk) hm
    have h := doublingLoop_run maxX maxY minX minY (K + 1) 0 [] fuel
      (fun k hk => by
        rw [Nat.zero_add]
        exact ⟨(hmono minX hX k (by omega)).trans hK.1, (hmono minY hY k (by omega)).trans hK.2⟩)
      (by rw [Nat.zero_add]; exact hK1) (by omega)
    simp only [pow_zero, mul_one, Nat.zero_add, List.nil_append] at h
    exact h

/-! ## `consolodateRequiredResolutions`: the claim -/

/-- C29: `consolodateRequiredResolutions` leaves a list of 0 or 1 entries
unchanged; for a list of at least 2 entries with strictly positive resolutions
the `while` loop ends (`K + 2` units of fuel suffice) and the list becomes the
doubling sequence `(minX * 2^k, minY * 2^k)`, `k = 0..K`, where `minX`, `minY`,
`maxX`, `maxY` are the least and greatest components of the input and `K` is the
largest `k` with `minX * 2^k ≤ maxX` and `minY * 2^k ≤ maxY`; the result is not
empty and a second application leaves it unchanged. -/
theorem consolodateRequiredResolutions_doubling (rs : List ResolutionPair) :
    (rs.length ≤ 1 → ∀ fuel, consolodateRequiredResolutions fuel rs = some rs)
      ∧ (2 ≤ rs.length → (∀ p ∈ rs, 0 < p._resX ∧ 0 < p._resY) →
          ∃ (minX minY maxX maxY : ℚ) (K : Nat),
            ((∃ p ∈ rs, p._resX = minX) ∧ ∀ p ∈ rs, minX ≤ p._resX)
              ∧ ((∃ p ∈ rs, p._resY = minY) ∧ ∀ p ∈ rs, minY ≤ p._resY)
              ∧ ((∃ p ∈ rs, p._resX = maxX) ∧ ∀ p ∈ rs, p._resX ≤ maxX)
              ∧ ((∃ p ∈ rs, p._resY = maxY) ∧ ∀ p ∈ rs, p._resY ≤ maxY)
              ∧ (minX * 2 ^ K ≤ maxX ∧ minY * 2 ^ K ≤ maxY)
              ∧ (∀ k, minX * 2 ^ k ≤ maxX ∧ minY * 2 ^ k ≤ maxY → k ≤ K)
              ∧ (∀ fuel, K + 2 ≤ fuel →
                  consolodateRequiredResolutions fuel rs
                    = some ((List.range (K + 1)).map (fun k =>
                        ({ _resX := minX * 2 ^ k, _resY := minY * 2 ^ k } : ResolutionPair))))
              ∧ (List.range (K + 1)).map (fun k =>
                    ({ _resX := minX * 2 ^ k, _resY := minY * 2 ^ k } : ResolutionPair)) ≠ []
              ∧ (∀ fuel, K + 2 ≤ fuel →
                  consolodateRequiredResolutions fuel
                      ((List.range (K + 1)).map (fun k =>
                        ({ _resX := minX * 2 ^ k, _resY := minY * 2 ^ k } : ResolutionPair)))
                    = some ((List.range (K + 1)).map (fun k =>
                        ({ _resX := minX * 2 ^ k, _resY := minY * 2 ^ k } :
                          ResolutionPair))))) := by
  constructor
  · intro h fuel
    simp only [consolodateRequiredResolutions, if_pos h]
  · intro hlen hpos
    match rs, hlen, hpos with
    | first :: rest, hlen, hpos =>
      obtain ⟨a1, a2⟩ := foldl_minimum_least (fun p => p._resX) first rest
      obtain ⟨b1, b2⟩ := foldl_minimum_least (fun p => p._resY) first rest
      obtain ⟨c1, c2⟩ := foldl_maximum_greatest (fun p => p._resX) first rest
      obtain ⟨d1, d2⟩ := foldl_maximum_greatest (fun p => p._resY) first rest
      generalize rest.foldl (fun m p => minimum m p._resX) first._resX = minX at a1 a2
      generalize rest.foldl (fun m p => minimum m p._resY) first._resY = minY at b1 b2
      generalize rest.foldl (fun m p => maximum m p._resX) first._resX = maxX at c1 c2
      generalize rest.foldl (fun m p => maximum m p._resY) first._resY = maxY at d1 d2
      have hX : 0 < minX := by
        obtain ⟨p, hp, hpe⟩ := a1
        exact hpe ▸ (hpos p hp).1
      have hY : 0 < minY := by
        obtain ⟨p, hp, hpe⟩ := b1
        exact hpe ▸ (hpos p hp).2
      have hXX : minX ≤ maxX := by
        obtain ⟨p, hp, hpe⟩ := a1
        exact hpe ▸ c2 p hp
      have hYY : minY ≤ maxY := by
        obtain ⟨p, hp, hpe⟩ := b1
        exact hpe ▸ d2 p hp
      have hmono : ∀ (m : ℚ), 0 ≤ m → ∀ j k : Nat, j ≤ k → m * 2 ^ j ≤ m * 2 ^ k := by
        intro m hm j k hjk
        exact mul_le_mul_of_nonneg_left (pow_le_pow_right₀ (by norm_num) hjk) hm
      have hex : ∃ n : Nat, ¬ (minX * 2 ^ n ≤ maxX ∧ minY * 2 ^ n ≤ maxY) := by
        obtain ⟨n, hn⟩ := pow_unbounded_of_one_lt (maxX / minX) (one_lt_two : (1 : ℚ) < 2)
        refine ⟨n, fun h => ?_⟩
        rw [div_lt_iff₀ hX] at hn
        linarith [h.1, mul_comm ((2 : ℚ) ^ n) minX]
      classical
      have hfind := Nat.find_spec hex
      have hmin : ∀ m, m < Nat.find hex → (minX * 2 ^ m ≤ maxX ∧ minY * 2 ^ m ≤ maxY) :=
        fun m hm => not_not.1 (Nat.find_min hex hm)
      have hne : Nat.find hex ≠ 0 := by
        intro h0
        rw [h0] at hfind
        exact hfind ⟨by simpa using hXX, by simpa using hYY⟩
      obtain ⟨K, hKe⟩ : ∃ K, Nat.find hex = K + 1 := ⟨Nat.find hex - 1, by omega⟩
      rw [hKe] at hfind
      have hK := hmin K (by omega)
      have hlargest : ∀ k, minX * 2 ^ k ≤ maxX ∧ minY * 2 ^ k ≤ maxY → k ≤ K := by
        intro k hk
        by_contra hgt
        exact hfind ⟨(hmono minX hX.le (K + 1) k (by omega)).trans hk.1,
          (hmono minY hY.le (K + 1) k (by omega)).trans hk.2⟩
      refine ⟨minX, minY, maxX, maxY, K, ⟨a1, a2⟩, ⟨b1, b2⟩, ⟨c1, c2⟩, ⟨d1, d2⟩, hK, hlargest,
        ?_, ?_, ?_⟩
      · intro fuel hfuel
        exact consolodate_of_bounds (first :: rest) minX minY maxX maxY K hlen hX.le hY.le
          a1 a2 b1 b2 c1 c2 d1 d2 hK hfind fuel hfuel
      · simp [List.range_succ]
      · intro fuel hfuel
        by_cases hK0 : K = 0
        · subst hK0
          simp [consolodateRequiredResolutions]
        · have hmem : ∀ p ∈ (List.range (K + 1)).map (fun k =>
              ({ _resX := minX * 2 ^ k, _resY := minY * 2 ^ k } : ResolutionPair)),
              ∃ k, k ≤ K ∧ p._resX = minX * 2 ^ k ∧ p._resY = minY * 2 ^ k := by
            intro p hp
            simp only [List.mem_map, List.mem_range] at hp
            obtain ⟨k, hk, rfl⟩ := hp
            exact ⟨k, by omega, rfl, rfl⟩
          have hin : ∀ k, k ≤ K → ({ _resX := minX * 2 ^ k, _resY := minY * 2 ^ k } :
              ResolutionPair) ∈ (List.range (K + 1)).map (fun k =>
              ({ _resX := minX * 2 ^ k, _resY := minY * 2 ^ k } : ResolutionPair)) := by
            intro k hk
            simp only [List.mem_map, List.mem_range]
            exact ⟨k, by omega, rfl⟩
          have hlt : ∀ (m : ℚ), 0 < m → ¬ m * 2 ^ (K + 1) ≤ m * 2 ^ K := by
            intro m hm h
            have h2 : (2 : ℚ) ^ (K + 1) ≤ 2 ^ K := le_of_mul_le_mul_left h hm
            have h3 : (2 : ℚ) ^ K < 2 ^ (K + 1) := pow_lt_pow_right₀ (by norm_num) (by omega)
            linarith
          refine consolodate_of_bounds _ minX minY (minX * 2 ^ K) (minY * 2 ^ K) K
            (by simp only [List.length_map, List.length_range]; omega) hX.le hY.le
            ⟨_, hin 0 (by omega), by simp⟩ ?_ ⟨_, hin 0 (by omega), by simp⟩ ?_
            ⟨_, hin K le_rfl, rfl⟩ ?_ ⟨_, hin K le_rfl, rfl⟩ ?_
            ⟨le_rfl, le_rfl⟩ (fun h => hlt minX hX h.1) fuel hfuel
          · intro p hp
            obtain ⟨k, hk, e1, _⟩ := hmem p hp
            rw [e1]
            simpa using hmono minX hX.le 0 k (by omega)
          · intro p hp
            obtain ⟨k, hk, _, e2⟩ := hmem p hp
            rw [e2]
            simpa using hmono minY hY.le 0 k (by omega)
          · intro p hp
            obtain ⟨k, hk, e1, _⟩ := hmem p hp
            rw [e1]
            exact hmono minX hX.le k K hk
          · intro p hp
            obtain ⟨k, hk, _, e2⟩ := hmem p hp
            rw [e2]
            exact hmono minY hY.le k K hk

/-- Witness of C29: the resolutions `(1, 1)` and `(5, 3)` become `(1, 1)`,
`(2, 2)`, and a list of one entry is left as it is. -/
theorem consolodateRequiredResolutions_doubling_witness :
    consolodateRequiredResolutions 0 [{ _resX := 1, _resY := 1 }]
        = some [{ _resX := 1, _resY := 1 }]
      ∧ consolodateRequiredResolutions 3 sampleResolutions
        = some [{ _resX := 1, _resY := 1 }, { _resX := 2, _resY := 2 }]
      ∧ ∃ (K : Nat) (out : List ResolutionPair), out ≠ []
        ∧ consolodateRequiredResolutions (K + 2) sampleResolutions = some out
        ∧ consolodateRequiredResolutions (K + 2) out = some out := by
  refine ⟨(consolodateRequiredResolutions_doubling [{ _resX := 1, _resY := 1 }]).1 (by decide) 0,
    by decide!, ?_⟩
  obtain ⟨minX, minY, maxX, maxY, K, _, _, _, _, _, _, h1, h2, h3⟩ :=
    (consolodateRequiredResolutions_doubling sampleResolutions).2 (by decide)
      (by decide!)
  exact ⟨K, _, h2, h1 _ le_rfl, h3 _ le_rfl⟩

end VPB
